import Mathlib

/-!
EIP-1559 fee market: base-fee calculator, rule validator, transaction executor.

A shallow embedding of the Go packages `pkg/constants`, `internal/types`,
`internal/basefee`, `internal/validator` and `internal/executor`.

Conventions of the embedding:

* A Go `uint64` is a natural number below `2^64` (predicates `IsU64`).  Every
  arithmetic operation of the source is performed by `add64`, `sub64`, `mul64`
  (wrap-around modulo `2^64`) or `div64` (which has no result when the divisor
  is zero: Go panics with "integer divide by zero").
* A function that can panic returns an `Option`; `none` is the panic.
* `types.State` is a Go map from address to `*Account`.  It is embedded as the
  map itself, an association list from address to pointer in which the first
  entry for an address is the pointer stored under it, together with the heap
  of account objects; a pointer is the position of an object in the heap.  A
  method called through a pointer reads and writes the object the pointer
  designates, so an object stored under two addresses is seen under both.
  A method with receiver `*Account` is embedded as the function from the
  object before the call to the object after it, and `State.update` applies
  it to the object behind a pointer.
* `State.Valid` says that every stored pointer designates an object of the
  heap (none is nil or dangling).  It is the typing hypothesis for a map of
  pointers to accounts, as `IsU64` is for the numeric fields.
* Functions that touch the state return the new state next to their result.
* Error values are embedded by their kind, not by their message text.
-/

namespace EIP1559

/-! ## Machine arithmetic -/

/-- Addition of two uint64 values, as Go computes it. -/
def add64 (a b : Nat) : Nat := (a + b) % 2 ^ 64

/-- Subtraction of two uint64 values, as Go computes it. -/
def sub64 (a b : Nat) : Nat := (a + (2 ^ 64 - b % 2 ^ 64)) % 2 ^ 64

/-- Multiplication of two uint64 values, as Go computes it. -/
def mul64 (a b : Nat) : Nat := (a * b) % 2 ^ 64

/-- Division of two uint64 values; a zero divisor is a run-time panic. -/
def div64 (a b : Nat) : Option Nat := if b = 0 then none else some (a / b)

/-! ## pkg/constants/params.go -/

namespace constants

/-- Starting base fee (1 Gwei). -/
def InitialBaseFee : Nat := 1000000000

/-- Denominator of the maximal base fee change per block (1/8). -/
def BaseFeeChangeDenominator : Nat := 8

/-- Blocks may be twice the target size. -/
def ElasticityMultiplier : Nat := 2

/-- Minimum gas limit of a block. -/
def MinGasLimit : Nat := 5000

/-- Block number at which the fee market activates. -/
def ForkBlockNumber : Nat := 12965000

/-- Bound divisor of the gas limit change per block (1/1024). -/
def GasLimitBoundDivisor : Nat := 1024

end constants

/-! ## internal/types -/

namespace types

/-- Go struct types.Transaction. -/
structure Transaction where
  ChainID : Nat
  Nonce : Nat
  MaxPriorityFeePerGas : Nat
  MaxFeePerGas : Nat
  GasLimit : Nat
  To : String
  Value : Nat
  Data : List UInt8
  From : String
deriving DecidableEq, Repr

/-- Go struct types.Block. -/
structure Block where
  Number : Nat
  ParentHash : String
  Hash : String
  GasLimit : Nat
  GasUsed : Nat
  BaseFee : Nat
  Transactions : List Transaction
  Miner : String
  Timestamp : Nat
deriving DecidableEq, Repr

/-- Go struct types.Account. -/
structure Account where
  Address : String
  Nonce : Nat
  Balance : Nat
deriving DecidableEq, Repr

/-- Go struct types.State.  `Accounts` is the Go map from address to
`*Account`: an entry gives the pointer stored under an address.  `Objects` is
the heap of account objects: the pointer `p` designates the object at
position `p`. -/
structure State where
  Accounts : List (String × Nat)
  Objects : List Account
deriving DecidableEq, Repr

/-- All numeric fields of a transaction are uint64 values. -/
def Transaction.IsU64 (tx : Transaction) : Prop :=
  tx.ChainID < 2 ^ 64 ∧ tx.Nonce < 2 ^ 64 ∧ tx.MaxPriorityFeePerGas < 2 ^ 64 ∧
  tx.MaxFeePerGas < 2 ^ 64 ∧ tx.GasLimit < 2 ^ 64 ∧ tx.Value < 2 ^ 64

/-- The numeric fields of a block header are uint64 values. -/
def Block.IsU64 (b : Block) : Prop :=
  b.Number < 2 ^ 64 ∧ b.GasLimit < 2 ^ 64 ∧ b.GasUsed < 2 ^ 64 ∧
  b.BaseFee < 2 ^ 64 ∧ b.Timestamp < 2 ^ 64

/-- Nonce and balance of every account object of the state are uint64 values. -/
def State.IsU64 (s : State) : Prop :=
  ∀ a ∈ s.Objects, a.Nonce < 2 ^ 64 ∧ a.Balance < 2 ^ 64

instance (tx : Transaction) : Decidable tx.IsU64 := by
  unfold Transaction.IsU64; infer_instance

instance (b : Block) : Decidable b.IsU64 := by
  unfold Block.IsU64; infer_instance

instance (s : State) : Decidable s.IsU64 := by
  unfold State.IsU64; infer_instance

/-! ### transaction.go -/

/-- Error kinds returned by Transaction.Validate. -/
inductive TxError where
  | maxFeeBelowBaseFee
  | maxFeeBelowPriorityFee
  | zeroGasLimit
deriving DecidableEq, Repr

/-- Gas price actually paid: the priority fee, capped by the margin between the
fee cap and the base fee, plus the base fee. -/
def Transaction.EffectiveGasPrice (tx : Transaction) (baseFee : Nat) : Nat :=
  let priorityFee := tx.MaxPriorityFeePerGas
  let priorityFee :=
    if sub64 tx.MaxFeePerGas baseFee < priorityFee then sub64 tx.MaxFeePerGas baseFee
    else priorityFee
  add64 priorityFee baseFee

/-- Priority fee actually paid per unit of gas. -/
def Transaction.EffectivePriorityFee (tx : Transaction) (baseFee : Nat) : Nat :=
  let priorityFee := tx.MaxPriorityFeePerGas
  let priorityFee :=
    if sub64 tx.MaxFeePerGas baseFee < priorityFee then sub64 tx.MaxFeePerGas baseFee
    else priorityFee
  priorityFee

/-- Basic transaction validation; `none` is the nil error. -/
def Transaction.Validate (tx : Transaction) (baseFee : Nat) : Option TxError :=
  if tx.MaxFeePerGas < baseFee then some TxError.maxFeeBelowBaseFee
  else if tx.MaxFeePerGas < tx.MaxPriorityFeePerGas then some TxError.maxFeeBelowPriorityFee
  else if tx.GasLimit = 0 then some TxError.zeroGasLimit
  else none

/-- Worst-case upfront cost, computed in uint64. -/
def Transaction.MaxCost (tx : Transaction) : Nat :=
  add64 (mul64 tx.GasLimit tx.MaxFeePerGas) tx.Value

/-! ### account.go -/

/-- The account object that NewAccount creates, with nonce 0.  `State.alloc`
places it in the heap and gives the pointer that the Go function returns. -/
def NewAccount (address : String) (balance : Nat) : Account :=
  { Address := address, Nonce := 0, Balance := balance }

/-- Whether the account can pay the amount (receiver `*Account`: the account is
the object behind the pointer). -/
def Account.CanPay (a : Account) (amount : Nat) : Bool := decide (a.Balance ≥ amount)

/-- Remove the amount from the balance.  `none` is the error return, which
leaves the object as it was; otherwise the object after the call. -/
def Account.Deduct (a : Account) (amount : Nat) : Option Account :=
  if !a.CanPay amount then none
  else some { a with Balance := sub64 a.Balance amount }

/-- Add the amount to the balance: the object after the call. -/
def Account.Add (a : Account) (amount : Nat) : Account :=
  { a with Balance := add64 a.Balance amount }

/-- Increment the nonce: the object after the call. -/
def Account.IncrementNonce (a : Account) : Account :=
  { a with Nonce := add64 a.Nonce 1 }

/-- The pointer stored under an address, if any (a Go map read). -/
def lookupAccount (address : String) : List (String × Nat) → Option Nat
  | [] => none
  | (k, p) :: rest => if k = address then some p else lookupAccount address rest

/-- Store a pointer under an address (a Go map write): the entry of the address
is replaced, or added when the address has none. -/
def storeAccount (address : String) (p : Nat) : List (String × Nat) → List (String × Nat)
  | [] => [(address, p)]
  | (k, q) :: rest =>
    if k = address then (k, p) :: rest else (k, q) :: storeAccount address p rest

/-- The object at a position of the heap; a position outside the heap reads as
the zero account. -/
def loadObject : Nat → List Account → Account
  | _, [] => NewAccount "" 0
  | 0, a :: _ => a
  | n + 1, _ :: rest => loadObject n rest

/-- Replace the object at a position of the heap by its image under `f`. -/
def updateObject : Nat → (Account → Account) → List Account → List Account
  | _, _, [] => []
  | 0, f, a :: rest => f a :: rest
  | n + 1, f, a :: rest => a :: updateObject n f rest

/-- The account object a pointer designates. -/
def State.load (s : State) (p : Nat) : Account := loadObject p s.Objects

/-- The state after a method that changes the account object from `a` to
`f a` has been called through the pointer `p`. -/
def State.update (s : State) (p : Nat) (f : Account → Account) : State :=
  { s with Objects := updateObject p f s.Objects }

/-- Allocation of an account object, as `NewAccount` or a composite literal
does: returns the pointer to the new object and the state that holds it. -/
def State.alloc (s : State) (a : Account) : Nat × State :=
  (s.Objects.length, { s with Objects := s.Objects ++ [a] })

/-- The empty state. -/
def NewState : State := { Accounts := [], Objects := [] }

/-- The account of an address, created with balance 0 and stored when absent.
Returns the pointer to the account and the state after the call. -/
def State.GetAccount (s : State) (address : String) : Nat × State :=
  match lookupAccount address s.Accounts with
  | some acc => (acc, s)
  | none =>
    let acc := (s.alloc (NewAccount address 0)).1
    let s := (s.alloc (NewAccount address 0)).2
    (acc, { s with Accounts := s.Accounts ++ [(address, acc)] })

/-- Store an account pointer under an address (a Go map write). -/
def State.SetAccount (s : State) (address : String) (account : Nat) : State :=
  { s with Accounts := storeAccount address account s.Accounts }

/-- Balance of an address, with the state after the lookup. -/
def State.GetBalance (s : State) (address : String) : Nat × State :=
  (((s.GetAccount address).2.load (s.GetAccount address).1).Balance, (s.GetAccount address).2)

/-- Nonce of an address, with the state after the lookup. -/
def State.GetNonce (s : State) (address : String) : Nat × State :=
  (((s.GetAccount address).2.load (s.GetAccount address).1).Nonce, (s.GetAccount address).2)

/-! ### block.go -/

/-- Error kinds returned by Block.AddTransaction. -/
inductive BlockError where
  | wouldExceedGasLimit
deriving DecidableEq, Repr

/-- A new block without transactions; the fields that the source does not set
have their zero value. -/
def NewBlock (number : Nat) (parentHash : String) (gasLimit baseFee : Nat) (miner : String) :
    Block :=
  { Number := number, ParentHash := parentHash, Hash := "", GasLimit := gasLimit, GasUsed := 0,
    BaseFee := baseFee, Transactions := [], Miner := miner, Timestamp := 0 }

/-- Add a transaction to the block.  Returns the error (`none` is nil) and the
block after the call. -/
def Block.AddTransaction (b : Block) (tx : Transaction) : Option BlockError × Block :=
  let txGas := tx.GasLimit
  if add64 b.GasUsed txGas > b.GasLimit then (some BlockError.wouldExceedGasLimit, b)
  else
    (none, { b with Transactions := b.Transactions ++ [tx], GasUsed := add64 b.GasUsed txGas })

end types

open types

/-! ## internal/basefee/calculator.go -/

namespace basefee

/-- The larger of two uint64 values (package-local helper of the source). -/
def max (a b : Nat) : Nat := if a > b then a else b

/-- Base fee of the block that follows `parent`; `none` is the panic of an
integer division by zero. -/
def Calculate (parent : Block) : Option Nat :=
  if add64 parent.Number 1 = constants.ForkBlockNumber then
    some constants.InitialBaseFee
  else
    let parentGasTarget := parent.GasLimit / constants.ElasticityMultiplier
    if parent.GasUsed = parentGasTarget then
      some parent.BaseFee
    else if parent.GasUsed > parentGasTarget then
      let gasUsedDelta := sub64 parent.GasUsed parentGasTarget
      (div64 (mul64 parent.BaseFee gasUsedDelta) parentGasTarget).map fun q =>
        let baseFeePerGasDelta := basefee.max (q / constants.BaseFeeChangeDenominator) 1
        add64 parent.BaseFee baseFeePerGasDelta
    else
      let gasUsedDelta := sub64 parentGasTarget parent.GasUsed
      (div64 (mul64 parent.BaseFee gasUsedDelta) parentGasTarget).map fun q =>
        let baseFeePerGasDelta := q / constants.BaseFeeChangeDenominator
        if baseFeePerGasDelta > parent.BaseFee then 0
        else sub64 parent.BaseFee baseFeePerGasDelta

/-- The loop of CalculateForBlocks over the remaining gas-usage values, from
the current block: the fees computed from here on.  `none` is the panic of a
Calculate call. -/
def forBlocksLoop : Block → List Nat → Option (List Nat)
  | _, [] => some []
  | currentBlock, gasUsed :: rest =>
    match Calculate currentBlock with
    | none => none
    | some nextBaseFee =>
      let nextBlock : Block :=
        { Number := add64 currentBlock.Number 1, ParentHash := "", Hash := "",
          GasLimit := currentBlock.GasLimit, GasUsed := gasUsed, BaseFee := nextBaseFee,
          Transactions := [], Miner := "", Timestamp := 0 }
      (forBlocksLoop nextBlock rest).map fun fees => nextBaseFee :: fees

/-- Base fees over a sequence of hypothetical blocks; `none` is a panic.  The
source never writes through `initialBlock`, so only the list is returned. -/
def CalculateForBlocks (initialBlock : Block) (gasUsedSequence : List Nat) :
    Option (List Nat) :=
  forBlocksLoop initialBlock gasUsedSequence

end basefee

/-! ## internal/validator/validator.go -/

namespace validator

/-- Error kinds returned by ValidateTransaction. -/
inductive TxValidationError where
  | invalidTransaction (e : TxError)
  | insufficientFunds
  | invalidNonce
deriving DecidableEq, Repr

/-- Error kinds returned by ValidateBlock. -/
inductive BlockValidationError where
  | invalidBlockNumber
  | invalidParentHash
  | gasUsedExceedsGasLimit
  | gasLimitIncreasedTooMuch
  | gasLimitDecreasedTooMuch
  | gasLimitBelowMinimum
  | invalidBaseFee
deriving DecidableEq, Repr

/-- The larger of two uint64 values (package-local helper of the source). -/
def max (a b : Nat) : Nat := if a > b then a else b

/-- Validate a transaction against a base fee and the sender account.  Returns
the error (`none` is nil) and the state after the call. -/
def ValidateTransaction (tx : Transaction) (baseFee : Nat) (state : State) :
    Option TxValidationError × State :=
  match tx.Validate baseFee with
  | some err => (some (TxValidationError.invalidTransaction err), state)
  | none =>
    -- sender := state.GetAccount(tx.From)
    let sender := (state.GetAccount tx.From).1
    let state := (state.GetAccount tx.From).2
    let maxCost := tx.MaxCost
    if !(state.load sender).CanPay maxCost then (some TxValidationError.insufficientFunds, state)
    else if tx.Nonce ≠ (state.load sender).Nonce then
      (some TxValidationError.invalidNonce, state)
    else (none, state)

/-- The base fee the validator expects, recomputed inline from the parent;
`none` is the panic of an integer division by zero. -/
def calculateExpectedBaseFee (parent : Block) : Option Nat :=
  let parentGasTarget := parent.GasLimit / constants.ElasticityMultiplier
  if parent.GasUsed = parentGasTarget then
    some parent.BaseFee
  else if parent.GasUsed > parentGasTarget then
    let gasUsedDelta := sub64 parent.GasUsed parentGasTarget
    (div64 (mul64 parent.BaseFee gasUsedDelta) parentGasTarget).map fun q =>
      let baseFeePerGasDelta := validator.max (q / constants.BaseFeeChangeDenominator) 1
      add64 parent.BaseFee baseFeePerGasDelta
  else
    let gasUsedDelta := sub64 parentGasTarget parent.GasUsed
    (div64 (mul64 parent.BaseFee gasUsedDelta) parentGasTarget).map fun q =>
      let baseFeePerGasDelta := q / constants.BaseFeeChangeDenominator
      if baseFeePerGasDelta > parent.BaseFee then 0
      else sub64 parent.BaseFee baseFeePerGasDelta

/-- Validate a block against its parent.  The outer `none` is a panic; inside,
`none` is the nil error. -/
def ValidateBlock (block parent : Block) : Option (Option BlockValidationError) :=
  if block.Number ≠ add64 parent.Number 1 then
    some (some BlockValidationError.invalidBlockNumber)
  else if block.ParentHash ≠ parent.Hash then
    some (some BlockValidationError.invalidParentHash)
  else if block.GasUsed > block.GasLimit then
    some (some BlockValidationError.gasUsedExceedsGasLimit)
  else
    let maxIncrease :=
      add64 parent.GasLimit (parent.GasLimit / constants.GasLimitBoundDivisor)
    let maxDecrease :=
      sub64 parent.GasLimit (parent.GasLimit / constants.GasLimitBoundDivisor)
    if block.GasLimit > maxIncrease then
      some (some BlockValidationError.gasLimitIncreasedTooMuch)
    else if block.GasLimit < maxDecrease then
      some (some BlockValidationError.gasLimitDecreasedTooMuch)
    else if block.GasLimit < constants.MinGasLimit then
      some (some BlockValidationError.gasLimitBelowMinimum)
    else
      (calculateExpectedBaseFee parent).map fun expectedBaseFee =>
        if block.BaseFee ≠ expectedBaseFee then some BlockValidationError.invalidBaseFee
        else none

end validator

/-! ## internal/executor/executor.go -/

namespace executor

/-- Error kinds stored in an execution result. -/
inductive ExecutionError where
  | insufficientFunds
deriving DecidableEq, Repr

/-- Go struct executor.ExecutionResult. -/
structure ExecutionResult where
  GasUsed : Nat
  BaseFeeAmount : Nat
  TipAmount : Nat
  Success : Bool
  Error : Option ExecutionError
deriving DecidableEq, Repr

/-- Simulated gas consumption: 21000, plus 16 per byte of data. -/
def executeTransaction (tx : Transaction) : Nat :=
  let baseGas := 21000
  if tx.Data.length > 0 then
    let dataGas := mul64 tx.Data.length 16
    add64 baseGas dataGas
  else baseGas

/-- Execute one transaction in a block.  Returns the result record and the
state after the call.  `sender`, `miner` and `recipient` are the pointers that
GetAccount returns, and every method is called through its pointer. -/
def ExecuteTransaction (tx : Transaction) (block : Block) (state : State) :
    ExecutionResult × State :=
  let result : ExecutionResult :=
    { GasUsed := 0, BaseFeeAmount := 0, TipAmount := 0, Success := false, Error := none }
  -- sender := state.GetAccount(tx.From); miner := state.GetAccount(block.Miner)
  let sender := (state.GetAccount tx.From).1
  let state := (state.GetAccount tx.From).2
  let miner := (state.GetAccount block.Miner).1
  let state := (state.GetAccount block.Miner).2
  let effectiveGasPrice := tx.EffectiveGasPrice block.BaseFee
  let priorityFee := tx.EffectivePriorityFee block.BaseFee
  let upfrontGasCost := mul64 tx.GasLimit tx.MaxFeePerGas
  let totalCost := add64 upfrontGasCost tx.Value
  -- sender.Deduct(totalCost)
  match (state.load sender).Deduct totalCost with
  | none => ({ result with Error := some ExecutionError.insufficientFunds }, state)
  | some deducted =>
    let state := state.update sender (fun _ => deducted)
    let gasUsed := executeTransaction tx
    let result := { result with GasUsed := gasUsed }
    let remainderGas := sub64 tx.GasLimit gasUsed
    let refundAmount := mul64 remainderGas tx.MaxFeePerGas
    let overpaymentPerGas := sub64 tx.MaxFeePerGas effectiveGasPrice
    let refundAmount := add64 refundAmount (mul64 gasUsed overpaymentPerGas)
    -- sender.Add(refundAmount)
    let state := state.update sender (fun a => a.Add refundAmount)
    -- recipient := state.GetAccount(tx.To); recipient.Add(tx.Value)
    let state :=
      if tx.To ≠ "" then
        let recipient := (state.GetAccount tx.To).1
        let state := (state.GetAccount tx.To).2
        state.update recipient (fun a => a.Add tx.Value)
      else state
    let tipAmount := mul64 gasUsed priorityFee
    -- miner.Add(tipAmount)
    let state := state.update miner (fun a => a.Add tipAmount)
    let result := { result with TipAmount := tipAmount }
    let baseFeeAmount := mul64 gasUsed block.BaseFee
    let result := { result with BaseFeeAmount := baseFeeAmount }
    -- sender.IncrementNonce()
    let state := state.update sender (fun a => a.IncrementNonce)
    ({ result with Success := true }, state)

/-- Error kinds returned by ExecuteBlock. -/
inductive BlockExecutionError where
  | transactionExecutionFailed (cause : Option ExecutionError)
deriving DecidableEq, Repr

/-- The loop of ExecuteBlock over the remaining transactions, with the results
collected so far.  Returns the results, the error (`none` is nil) and the state
after the call. -/
def executeBlockLoop (block : Block) :
    List Transaction → List ExecutionResult → State →
      (List ExecutionResult × Option BlockExecutionError) × State
  | [], results, state => ((results, none), state)
  | tx :: rest, results, state =>
    let result := (ExecuteTransaction tx block state).1
    let state := (ExecuteTransaction tx block state).2
    let results := results ++ [result]
    if !result.Success then
      ((results, some (BlockExecutionError.transactionExecutionFailed result.Error)), state)
    else executeBlockLoop block rest results state

/-- Execute the transactions of a block in order, stopping at the first
failure.  Returns the results, the error (`none` is nil) and the state after
the call. -/
def ExecuteBlock (block : Block) (state : State) :
    (List ExecutionResult × Option BlockExecutionError) × State :=
  executeBlockLoop block block.Transactions [] state

end executor

/-! ## The successful run of ExecuteTransaction as a chain of account updates -/

/-- The amount ExecuteTransaction refunds to the sender. -/
def refundAmount (tx : Transaction) (baseFee : Nat) : Nat :=
  add64 (mul64 (sub64 tx.GasLimit (executor.executeTransaction tx)) tx.MaxFeePerGas)
    (mul64 (executor.executeTransaction tx)
      (sub64 tx.MaxFeePerGas (tx.EffectiveGasPrice baseFee)))

/-- The state in ExecuteTransaction after the miner has been paid and before
the sender nonce is incremented, when the debit of the upfront cost succeeds:
accounts of sender and miner looked up, sender debited, sender refunded,
recipient credited, miner tipped, each through its pointer. -/
def creditedState (tx : Transaction) (block : Block) (s : State) : State :=
  let sender := (s.GetAccount tx.From).1
  let s1 := (s.GetAccount tx.From).2
  let miner := (s1.GetAccount block.Miner).1
  let s2 := (s1.GetAccount block.Miner).2
  let s3 := s2.update sender (fun a => { a with Balance := sub64 a.Balance tx.MaxCost })
  let s4 := s3.update sender (fun a => a.Add (refundAmount tx block.BaseFee))
  let s5 :=
    if tx.To ≠ "" then
      ((s4.GetAccount tx.To).2).update (s4.GetAccount tx.To).1 (fun a => a.Add tx.Value)
    else s4
  s5.update miner (fun a =>
    a.Add (mul64 (executor.executeTransaction tx) (tx.EffectivePriorityFee block.BaseFee)))

/-- The state ExecuteTransaction leaves when the debit of the upfront cost
succeeds. -/
def successState (tx : Transaction) (block : Block) (s : State) : State :=
  (creditedState tx block s).update (s.GetAccount tx.From).1 (fun a => a.IncrementNonce)

/-- The pointer `sender` of ExecuteTransaction. -/
def senderPtr (tx : Transaction) (s : State) : Nat := (s.GetAccount tx.From).1

/-- The pointer `miner` of ExecuteTransaction. -/
def minerPtr (tx : Transaction) (block : Block) (s : State) : Nat :=
  ((s.GetAccount tx.From).2.GetAccount block.Miner).1

/-- The pointer `recipient` of ExecuteTransaction. -/
def recipientPtr (tx : Transaction) (block : Block) (s : State) : Nat :=
  (((s.GetAccount tx.From).2.GetAccount block.Miner).2.GetAccount tx.To).1

/-- The state with the accounts that ExecuteTransaction looks up on a
successful run in place: the sender's, the miner's and, for a non-empty
recipient address, the recipient's. -/
def preparedState (tx : Transaction) (block : Block) (s : State) : State :=
  if tx.To ≠ "" then
    (((s.GetAccount tx.From).2.GetAccount block.Miner).2.GetAccount tx.To).2
  else ((s.GetAccount tx.From).2.GetAccount block.Miner).2

/-! ## Observations on a state -/

/-- Balance of an address as GetBalance reads it. -/
def balanceOf (s : State) (address : String) : Nat := (s.GetBalance address).1

/-- Nonce of an address as GetNonce reads it. -/
def nonceOf (s : State) (address : String) : Nat := (s.GetNonce address).1

/-- Sum of the balances of all accounts of the state: one term for each entry
of the map, as a loop over the Go map computes it. -/
def totalBalance (s : State) : Nat := (s.Accounts.map fun e => (s.load e.2).Balance).sum

/-- The account that an address reads: the object behind the pointer that
GetAccount returns for it. -/
def types.State.deref (s : State) (address : String) : Account :=
  (s.GetAccount address).2.load (s.GetAccount address).1

/-- Every pointer stored in the map designates an account object of the heap
(no nil and no dangling pointer). -/
def types.State.Valid (s : State) : Prop := ∀ e ∈ s.Accounts, e.2 < s.Objects.length

/-- Two addresses do not hold the same account object. -/
def types.State.Distinct (s : State) (a b : String) : Prop :=
  lookupAccount a s.Accounts = none ∨ lookupAccount a s.Accounts ≠ lookupAccount b s.Accounts

/-- The number of map entries that hold the pointer `p`. -/
def types.State.holders (s : State) (p : Nat) : Nat := (s.Accounts.map Prod.snd).count p

/-- The account object of an address is stored in the map once only: no other
address holds it. -/
def types.State.Owns (s : State) (a : String) : Prop :=
  match lookupAccount a s.Accounts with
  | none => True
  | some p => s.holders p = 1

instance (s : State) : Decidable s.Valid := by
  unfold State.Valid; infer_instance

instance (s : State) (a b : String) : Decidable (s.Distinct a b) := by
  unfold State.Distinct; infer_instance

instance (s : State) (a : String) : Decidable (s.Owns a) := by
  unfold State.Owns
  cases lookupAccount a s.Accounts <;> infer_instance

/-! ## The base-fee rule as the specification words it -/

/-- Next base fee as the specification defines it, in exact integer arithmetic
(truncating division, multiply first, change denominator 8). -/
def specNextBaseFee (parent : Block) : Int :=
  let target : Int := (parent.GasLimit : Int) / 2
  let baseFee : Int := parent.BaseFee
  let gasUsed : Int := parent.GasUsed
  if gasUsed = target then baseFee
  else if gasUsed > target then
    baseFee + Max.max 1 (baseFee * (gasUsed - target) / target / 8)
  else
    baseFee - baseFee * (target - gasUsed) / target / 8

/-! ## Sequential execution and forecasting as the specification words them -/

/-- Executing the given transactions one at a time, in order, with
ExecuteTransaction, each on the state the previous one left, without stopping:
the results in order and the final state. -/
def executeInOrder (block : Block) : List Transaction → State →
    List executor.ExecutionResult × State
  | [], s => ([], s)
  | tx :: rest, s =>
    ((executor.ExecuteTransaction tx block s).1
        :: (executeInOrder block rest (executor.ExecuteTransaction tx block s).2).1,
      (executeInOrder block rest (executor.ExecuteTransaction tx block s).2).2)

/-- The hypothetical block number `k` after the initial block of a forecast:
number of the initial block plus `k` (in uint64), gas limit of the initial
block, the given gas used and base fee, every other field zero. -/
def hypotheticalBlock (initialBlock : Block) (k gasUsed baseFee : Nat) : Block :=
  { Number := (initialBlock.Number + k) % 2 ^ 64, ParentHash := "", Hash := "",
    GasLimit := initialBlock.GasLimit, GasUsed := gasUsed, BaseFee := baseFee,
    Transactions := [], Miner := "", Timestamp := 0 }

/-- The block after a sequence of AddTransaction calls, one per transaction of
the list in order, whatever each call returns. -/
def addTransactions (b : Block) (txs : List Transaction) : Block :=
  txs.foldl (fun blk tx => (blk.AddTransaction tx).2) b

/-- Sum of the gas limits of the given transactions, in exact arithmetic. -/
def sumGasLimit (txs : List Transaction) : Nat := (txs.map fun tx => tx.GasLimit).sum

/-! ## Concrete inputs -/

/-- A parent block as the base-fee tests build it: only the number, the gas
limit, the gas used and the base fee are set. -/
def testParent (number gasLimit gasUsed baseFee : Nat) : Block :=
  { Number := number, ParentHash := "", Hash := "", GasLimit := gasLimit, GasUsed := gasUsed,
    BaseFee := baseFee, Transactions := [], Miner := "", Timestamp := 0 }

/-- A transaction from "A" to "B" with nonce 0 and no data. -/
def testTx (maxPriorityFeePerGas maxFeePerGas gasLimit value : Nat) : Transaction :=
  { ChainID := 0, Nonce := 0, MaxPriorityFeePerGas := maxPriorityFeePerGas,
    MaxFeePerGas := maxFeePerGas, GasLimit := gasLimit, To := "B", Value := value, Data := [],
    From := "A" }

/-- A block header with the given linkage, gas figures and base fee, mined by "M". -/
def testBlock (number : Nat) (parentHash hash : String) (gasLimit gasUsed baseFee : Nat) :
    Block :=
  { Number := number, ParentHash := parentHash, Hash := hash, GasLimit := gasLimit,
    GasUsed := gasUsed, BaseFee := baseFee, Transactions := [], Miner := "M", Timestamp := 0 }

/-- A state holding the single account "A" with the given nonce and balance. -/
def testState (nonce balance : Nat) : State :=
  (NewState.alloc { Address := "A", Nonce := nonce, Balance := balance }).2.SetAccount "A"
    (NewState.alloc { Address := "A", Nonce := nonce, Balance := balance }).1

/-- A state holding the account "A" with nonce 0 and the given balance, and the
account "M" with nonce 0 and the given balance. -/
def testState2 (balanceA balanceM : Nat) : State :=
  ((testState 0 balanceA).alloc { Address := "M", Nonce := 0, Balance := balanceM }).2.SetAccount
    "M" ((testState 0 balanceA).alloc { Address := "M", Nonce := 0, Balance := balanceM }).1

/-- A state in which one account object, with nonce 0 and the given balance, is
stored under the two addresses "A" and "M". -/
def testStateShared (balance : Nat) : State :=
  (testState 0 balance).SetAccount "M"
    (NewState.alloc { Address := "A", Nonce := 0, Balance := balance }).1

/-- A state holding the account "A" with nonce 0 and the given balance, and one
account object with nonce 0 and balance 0 stored under the two addresses "B"
and "C". -/
def testStateSharedRecipient (balance : Nat) : State :=
  (((testState 0 balance).alloc { Address := "B", Nonce := 0, Balance := 0 }).2.SetAccount "B"
    ((testState 0 balance).alloc { Address := "B", Nonce := 0, Balance := 0 }).1).SetAccount "C"
    ((testState 0 balance).alloc { Address := "B", Nonce := 0, Balance := 0 }).1

/-! ## Machine arithmetic without wrap-around -/

theorem add64_of_lt {a b : Nat} (h : a + b < 2 ^ 64) : add64 a b = a + b := by
  unfold add64; exact Nat.mod_eq_of_lt h

theorem mul64_of_lt {a b : Nat} (h : a * b < 2 ^ 64) : mul64 a b = a * b := by
  unfold mul64; exact Nat.mod_eq_of_lt h

theorem sub64_of_le {a b : Nat} (h : b ≤ a) (ha : a < 2 ^ 64) : sub64 a b = a - b := by
  unfold sub64; omega

theorem mul64_le (a b : Nat) : mul64 a b ≤ a * b := by
  unfold mul64; exact Nat.mod_le _ _

theorem max_eq_max (a b : Nat) : basefee.max a b = Max.max a b := by
  unfold basefee.max; split <;> omega

/-- C1: when the parent is not the fork predecessor, the target is positive and
neither the product nor the resulting fee overflows 64 bits, Calculate returns
exactly the value of the specification's piecewise rule. -/
theorem C1_calculate_eq_spec (parent : Block) (hu : parent.IsU64)
    (hfork : parent.Number + 1 ≠ constants.ForkBlockNumber)
    (htarget : 0 < parent.GasLimit / 2)
    (hprod : parent.BaseFee * Nat.dist parent.GasUsed (parent.GasLimit / 2) < 2 ^ 64)
    (hres : specNextBaseFee parent < 2 ^ 64) :
    (basefee.Calculate parent).map Int.ofNat = some (specNextBaseFee parent) := by
  obtain ⟨hn, hl, hg, hb, -⟩ := hu
  have hf : add64 parent.Number 1 ≠ constants.ForkBlockNumber := by
    unfold add64 constants.ForkBlockNumber at *; omega
  have ht0 : parent.GasLimit / 2 ≠ 0 := by omega
  unfold basefee.Calculate
  simp only [hf, if_false, constants.ElasticityMultiplier, constants.BaseFeeChangeDenominator,
    div64, ht0, Option.map_some', max_eq_max]
  unfold specNextBaseFee at *
  simp only at hres ⊢
  have hcast : ((parent.GasLimit : Int) / 2) = ((parent.GasLimit / 2 : Nat) : Int) := by
    push_cast; rfl
  rw [hcast] at hres ⊢
  by_cases h1 : parent.GasUsed = parent.GasLimit / 2
  · simp [h1]
  · by_cases h2 : parent.GasUsed > parent.GasLimit / 2
    · have hd : Nat.dist parent.GasUsed (parent.GasLimit / 2)
          = parent.GasUsed - parent.GasLimit / 2 := by unfold Nat.dist; omega
      rw [hd] at hprod
      have hs : sub64 parent.GasUsed (parent.GasLimit / 2)
          = parent.GasUsed - parent.GasLimit / 2 := sub64_of_le (le_of_lt h2) hg
      have e : (parent.BaseFee : Int) + Max.max 1 ((parent.BaseFee : Int)
            * ((parent.GasUsed : Int) - ((parent.GasLimit / 2 : Nat) : Int))
            / ((parent.GasLimit / 2 : Nat) : Int) / 8)
          = ((parent.BaseFee + Max.max (parent.BaseFee
            * (parent.GasUsed - parent.GasLimit / 2) / (parent.GasLimit / 2) / 8) 1 : Nat) : Int) := by
        rw [max_comm]
        push_cast [Nat.cast_sub (le_of_lt h2)]
        rfl
      have h1i : ¬ ((parent.GasUsed : Int) = ((parent.GasLimit / 2 : Nat) : Int)) := by
        exact_mod_cast h1
      have h2i : ((parent.GasUsed : Int) > ((parent.GasLimit / 2 : Nat) : Int)) := by
        exact_mod_cast h2
      simp only [h1i, h2i, if_true, if_false, e] at hres ⊢
      have hlt : parent.BaseFee + Max.max (parent.BaseFee
            * (parent.GasUsed - parent.GasLimit / 2) / (parent.GasLimit / 2) / 8) 1 < 2 ^ 64 := by
        exact_mod_cast hres
      simp only [h1, h2, if_true, if_false, hs, mul64_of_lt hprod, add64_of_lt hlt]
      rfl
    · have h3 : parent.GasUsed < parent.GasLimit / 2 := by omega
      have hd : Nat.dist parent.GasUsed (parent.GasLimit / 2)
          = parent.GasLimit / 2 - parent.GasUsed := by unfold Nat.dist; omega
      rw [hd] at hprod
      have hs : sub64 (parent.GasLimit / 2) parent.GasUsed
          = parent.GasLimit / 2 - parent.GasUsed := sub64_of_le (le_of_lt h3) (by omega)
      have hle : parent.BaseFee * (parent.GasLimit / 2 - parent.GasUsed) / (parent.GasLimit / 2) / 8
          ≤ parent.BaseFee := by
        have : parent.BaseFee * (parent.GasLimit / 2 - parent.GasUsed) / (parent.GasLimit / 2)
            ≤ parent.BaseFee := by
          apply Nat.div_le_of_le_mul
          rw [Nat.mul_comm (parent.GasLimit / 2)]
          exact Nat.mul_le_mul_left _ (Nat.sub_le _ _)
        omega
      have e : (parent.BaseFee : Int) - (parent.BaseFee : Int)
            * (((parent.GasLimit / 2 : Nat) : Int) - (parent.GasUsed : Int))
            / ((parent.GasLimit / 2 : Nat) : Int) / 8
          = ((parent.BaseFee - parent.BaseFee
            * (parent.GasLimit / 2 - parent.GasUsed) / (parent.GasLimit / 2) / 8 : Nat) : Int) := by
        push_cast [Nat.cast_sub (le_of_lt h3), Nat.cast_sub hle]
        rfl
      have h1i : ¬ ((parent.GasUsed : Int) = ((parent.GasLimit / 2 : Nat) : Int)) := by
        exact_mod_cast h1
      have h2i : ¬ ((parent.GasUsed : Int) > ((parent.GasLimit / 2 : Nat) : Int)) := by
        exact_mod_cast h2
      simp only [h1i, h2i, if_false, e] at hres ⊢
      simp only [h1, h2, if_false, hs, mul64_of_lt hprod, not_lt.mpr hle,
        sub64_of_le hle hb]
      rfl

theorem C1_calculate_eq_spec_witness :
    (basefee.Calculate (testParent 12965000 30000000 20000000 1000000000)).map Int.ofNat
      = some (specNextBaseFee (testParent 12965000 30000000 20000000 1000000000)) :=
  C1_calculate_eq_spec (testParent 12965000 30000000 20000000 1000000000)
    (by decide) (by decide) (by decide) (by decide) (by decide)

theorem fork_test_iff {n : Nat} (hn : n < 2 ^ 64) :
    add64 n 1 = constants.ForkBlockNumber ↔ n + 1 = constants.ForkBlockNumber := by
  unfold add64 constants.ForkBlockNumber; omega

/-- C2: on the six inputs of TestBaseFeeCalculation (parent number 12965000,
gas limit 30000000) Calculate returns, from base fee 1000000000, the fees
1000000000, 1041666666, 958333334, 1125000000 and 875000000 for gas used
15000000, 20000000, 10000000, 30000000 and 0, and from base fee 100 and gas
used 0 the fee 88.  On the second, third and sixth input the documented
example and the test expect 1083333333, 916666666 and 87, which Calculate does
not return. -/
theorem C2_documented_examples_divergence :
    basefee.Calculate (testParent 12965000 30000000 15000000 1000000000) = some 1000000000 ∧
    basefee.Calculate (testParent 12965000 30000000 20000000 1000000000) = some 1041666666 ∧
    basefee.Calculate (testParent 12965000 30000000 10000000 1000000000) = some 958333334 ∧
    basefee.Calculate (testParent 12965000 30000000 30000000 1000000000) = some 1125000000 ∧
    basefee.Calculate (testParent 12965000 30000000 0 1000000000) = some 875000000 ∧
    basefee.Calculate (testParent 12965000 30000000 0 100) = some 88 ∧
    basefee.Calculate (testParent 12965000 30000000 20000000 1000000000) ≠ some 1083333333 ∧
    basefee.Calculate (testParent 12965000 30000000 10000000 1000000000) ≠ some 916666666 ∧
    basefee.Calculate (testParent 12965000 30000000 0 100) ≠ some 87 := by
  decide

/-! ## Reading and writing the account map and the heap -/

theorem lookup_append (a b : String) (p : Nat) (l : List (String × Nat)) :
    lookupAccount a (l ++ [(b, p)])
      = match lookupAccount a l with
        | some x => some x
        | none => if b = a then some p else none := by
  induction l with
  | nil => simp [lookupAccount]
  | cons e rest ih =>
    obtain ⟨k, x⟩ := e
    by_cases hka : k = a
    · simp [lookupAccount, hka]
    · simp [lookupAccount, hka, ih]

theorem lookup_mem {a : String} {p : Nat} {l : List (String × Nat)}
    (h : lookupAccount a l = some p) : (a, p) ∈ l := by
  induction l with
  | nil => simp [lookupAccount] at h
  | cons e rest ih =>
    obtain ⟨k, x⟩ := e
    by_cases hk : k = a
    · simp only [lookupAccount, hk, if_true, Option.some.injEq] at h
      simp [hk, h]
    · simp only [lookupAccount, hk, if_false] at h
      exact List.mem_cons_of_mem _ (ih h)

theorem loadObject_append_lt {p : Nat} {l : List Account} (h : p < l.length)
    (r : List Account) : loadObject p (l ++ r) = loadObject p l := by
  induction l generalizing p with
  | nil => simp at h
  | cons x rest ih =>
    cases p with
    | zero => simp [loadObject]
    | succ n =>
      simp only [List.length_cons, Nat.add_lt_add_iff_right] at h
      simp [loadObject, ih h]

theorem loadObject_append_length (l : List Account) (x : Account) :
    loadObject l.length (l ++ [x]) = x := by
  induction l with
  | nil => simp [loadObject]
  | cons y rest ih => simp [loadObject, ih]

theorem loadObject_of_length_le {p : Nat} {l : List Account} (h : l.length ≤ p) :
    loadObject p l = NewAccount "" 0 := by
  induction l generalizing p with
  | nil => cases p <;> simp [loadObject]
  | cons x rest ih =>
    cases p with
    | zero => simp at h
    | succ n =>
      simp only [List.length_cons, Nat.add_le_add_iff_right] at h
      simp [loadObject, ih h]

theorem length_updateObject (p : Nat) (f : Account → Account) (l : List Account) :
    (updateObject p f l).length = l.length := by
  induction l generalizing p with
  | nil => cases p <;> simp [updateObject]
  | cons x rest ih =>
    cases p with
    | zero => simp [updateObject]
    | succ n => simp [updateObject, ih]

theorem loadObject_updateObject (p q : Nat) (f : Account → Account) (l : List Account) :
    loadObject q (updateObject p f l)
      = if p = q ∧ q < l.length then f (loadObject q l) else loadObject q l := by
  induction l generalizing p q with
  | nil => cases p <;> cases q <;> simp [updateObject, loadObject]
  | cons x rest ih =>
    cases p with
    | zero =>
      cases q with
      | zero => simp [updateObject, loadObject]
      | succ m => simp [updateObject, loadObject]
    | succ n =>
      cases q with
      | zero => simp [updateObject, loadObject]
      | succ m => simp [updateObject, loadObject, ih]

theorem updateObject_append {p : Nat} {l : List Account} (h : p < l.length)
    (f : Account → Account) (r : List Account) :
    updateObject p f (l ++ r) = updateObject p f l ++ r := by
  induction l generalizing p with
  | nil => simp at h
  | cons x rest ih =>
    cases p with
    | zero => simp [updateObject]
    | succ n =>
      simp only [List.length_cons, Nat.add_lt_add_iff_right] at h
      simp [updateObject, ih h]

theorem updateObject_congr {p : Nat} {f g : Account → Account} {l : List Account}
    (h : f (loadObject p l) = g (loadObject p l)) :
    updateObject p f l = updateObject p g l := by
  induction l generalizing p with
  | nil => cases p <;> simp [updateObject]
  | cons x rest ih =>
    cases p with
    | zero =>
      simp only [loadObject] at h
      simp [updateObject, h]
    | succ n =>
      simp only [loadObject] at h
      simp [updateObject, ih h]

theorem updateObject_id (p : Nat) (l : List Account) : updateObject p (fun a => a) l = l := by
  induction l generalizing p with
  | nil => cases p <;> simp [updateObject]
  | cons x rest ih =>
    cases p with
    | zero => simp [updateObject]
    | succ n => simp [updateObject, ih]

theorem update_Accounts (s : State) (p : Nat) (f : Account → Account) :
    (s.update p f).Accounts = s.Accounts := rfl

theorem update_length (s : State) (p : Nat) (f : Account → Account) :
    (s.update p f).Objects.length = s.Objects.length :=
  length_updateObject p f s.Objects

theorem load_update (s : State) (p q : Nat) (f : Account → Account) :
    (s.update p f).load q
      = if p = q ∧ q < s.Objects.length then f (s.load q) else s.load q :=
  loadObject_updateObject p q f s.Objects

theorem update_congr {s : State} {p : Nat} {f g : Account → Account}
    (h : f (s.load p) = g (s.load p)) : s.update p f = s.update p g := by
  unfold State.update
  rw [updateObject_congr h]

theorem update_id (s : State) (p : Nat) : s.update p (fun a => a) = s := by
  unfold State.update
  rw [updateObject_id]

theorem GetAccount_of_some {s : State} {a : String} {p : Nat}
    (h : lookupAccount a s.Accounts = some p) : s.GetAccount a = (p, s) := by
  unfold State.GetAccount
  rw [h]

theorem GetAccount_of_none {s : State} {a : String}
    (h : lookupAccount a s.Accounts = none) :
    s.GetAccount a
      = (s.Objects.length,
          { Accounts := s.Accounts ++ [(a, s.Objects.length)],
            Objects := s.Objects ++ [NewAccount a 0] }) := by
  unfold State.GetAccount State.alloc
  rw [h]

theorem lookup_GetAccount_self (s : State) (a : String) :
    lookupAccount a (s.GetAccount a).2.Accounts = some (s.GetAccount a).1 := by
  cases h : lookupAccount a s.Accounts with
  | some p => rw [GetAccount_of_some h]; exact h
  | none => rw [GetAccount_of_none h]; simp [lookup_append, h]

theorem lookup_GetAccount_of_some {s : State} {a : String} {p : Nat} (b : String)
    (h : lookupAccount a s.Accounts = some p) :
    lookupAccount a (s.GetAccount b).2.Accounts = some p := by
  cases hb : lookupAccount b s.Accounts with
  | some q => rw [GetAccount_of_some hb]; exact h
  | none => rw [GetAccount_of_none hb]; simp [lookup_append, h]

theorem lookup_GetAccount_of_none {s : State} {a b : String} (hne : b ≠ a)
    (h : lookupAccount a s.Accounts = none) :
    lookupAccount a (s.GetAccount b).2.Accounts = none := by
  cases hb : lookupAccount b s.Accounts with
  | some q => rw [GetAccount_of_some hb]; exact h
  | none => rw [GetAccount_of_none hb]; simp [lookup_append, h, hne]

theorem GetAccount_idem (s : State) (a : String) :
    (s.GetAccount a).2.GetAccount a = s.GetAccount a :=
  GetAccount_of_some (lookup_GetAccount_self s a)

theorem length_GetAccount (s : State) (b : String) :
    s.Objects.length ≤ (s.GetAccount b).2.Objects.length := by
  cases hb : lookupAccount b s.Accounts with
  | some q => rw [GetAccount_of_some hb]
  | none => rw [GetAccount_of_none hb]; simp

theorem load_GetAccount_of_lt {s : State} {p : Nat} (b : String) (h : p < s.Objects.length) :
    (s.GetAccount b).2.load p = s.load p := by
  cases hb : lookupAccount b s.Accounts with
  | some q => rw [GetAccount_of_some hb]
  | none =>
    rw [GetAccount_of_none hb]
    exact loadObject_append_lt h _

theorem load_GetAccount_fields (s : State) (p : Nat) (b : String) :
    ((s.GetAccount b).2.load p).Nonce = (s.load p).Nonce ∧
    ((s.GetAccount b).2.load p).Balance = (s.load p).Balance := by
  by_cases h : p < s.Objects.length
  · rw [load_GetAccount_of_lt b h]
    exact ⟨rfl, rfl⟩
  · cases hb : lookupAccount b s.Accounts with
    | some q => rw [GetAccount_of_some hb]; exact ⟨rfl, rfl⟩
    | none =>
      rw [GetAccount_of_none hb]
      have h0 : s.load p = NewAccount "" 0 := loadObject_of_length_le (by omega)
      rw [h0]
      by_cases he : p = s.Objects.length
      · subst he
        simp only [State.load, loadObject_append_length]
        exact ⟨rfl, rfl⟩
      · have h1 : loadObject p (s.Objects ++ [NewAccount b 0]) = NewAccount "" 0 :=
          loadObject_of_length_le (by simp; omega)
        simp only [State.load, h1, and_self]

theorem deref_of_some {s : State} {a : String} {p : Nat}
    (h : lookupAccount a s.Accounts = some p) : s.deref a = s.load p := by
  unfold State.deref
  rw [GetAccount_of_some h]

theorem deref_of_none {s : State} {a : String}
    (h : lookupAccount a s.Accounts = none) : s.deref a = NewAccount a 0 := by
  unfold State.deref
  rw [GetAccount_of_none h]
  exact loadObject_append_length _ _

theorem deref_GetAccount_self (s : State) (a : String) :
    (s.GetAccount a).2.load (s.GetAccount a).1 = s.deref a := rfl

theorem deref_GetAccount_fields (s : State) (a b : String) :
    ((s.GetAccount b).2.deref a).Nonce = (s.deref a).Nonce ∧
    ((s.GetAccount b).2.deref a).Balance = (s.deref a).Balance := by
  cases ha : lookupAccount a s.Accounts with
  | some p =>
    rw [deref_of_some (lookup_GetAccount_of_some b ha), deref_of_some ha]
    exact load_GetAccount_fields s p b
  | none =>
    by_cases hba : b = a
    · subst hba
      unfold State.deref
      rw [GetAccount_idem]
      exact ⟨rfl, rfl⟩
    · rw [deref_of_none (lookup_GetAccount_of_none hba ha), deref_of_none ha]
      exact ⟨rfl, rfl⟩

theorem deref_GetAccount_Balance (s : State) (a b : String) :
    ((s.GetAccount b).2.deref a).Balance = (s.deref a).Balance :=
  (deref_GetAccount_fields s a b).2

theorem deref_GetAccount_Nonce (s : State) (a b : String) :
    ((s.GetAccount b).2.deref a).Nonce = (s.deref a).Nonce :=
  (deref_GetAccount_fields s a b).1

theorem balanceOf_eq (s : State) (a : String) : balanceOf s a = (s.deref a).Balance := rfl

theorem nonceOf_eq (s : State) (a : String) : nonceOf s a = (s.deref a).Nonce := rfl

/-! ### Well-formed states -/

theorem lookup_lt {s : State} {a : String} {p : Nat} (hv : s.Valid)
    (h : lookupAccount a s.Accounts = some p) : p < s.Objects.length :=
  hv (a, p) (lookup_mem h)

theorem Valid_GetAccount {s : State} (hv : s.Valid) (b : String) : (s.GetAccount b).2.Valid := by
  cases hb : lookupAccount b s.Accounts with
  | some q => rw [GetAccount_of_some hb]; exact hv
  | none =>
    rw [GetAccount_of_none hb]
    intro e he
    simp only [List.mem_append, List.mem_singleton] at he
    simp only [List.length_append, List.length_singleton]
    rcases he with he | he
    · have := hv e he; omega
    · subst he; simp

theorem Valid_update {s : State} (hv : s.Valid) (p : Nat) (f : Account → Account) :
    (s.update p f).Valid := by
  intro e he
  rw [update_length]
  exact hv e he

theorem ptr_lt {s : State} (hv : s.Valid) (a : String) :
    (s.GetAccount a).1 < (s.GetAccount a).2.Objects.length :=
  lookup_lt (Valid_GetAccount hv a) (lookup_GetAccount_self s a)

theorem GetAccount_update {s : State} {p : Nat} (h : p < s.Objects.length)
    (f : Account → Account) (a : String) :
    (s.update p f).GetAccount a = ((s.GetAccount a).1, (s.GetAccount a).2.update p f) := by
  cases ha : lookupAccount a s.Accounts with
  | some q =>
    have ha2 : lookupAccount a (s.update p f).Accounts = some q := ha
    rw [GetAccount_of_some ha, GetAccount_of_some ha2]
  | none =>
    have ha2 : lookupAccount a (s.update p f).Accounts = none := ha
    rw [GetAccount_of_none ha, GetAccount_of_none ha2]
    simp only [State.update, length_updateObject, updateObject_append h]

theorem Distinct_GetAccount {s : State} {a b : String} (hv : s.Valid) (hne : a ≠ b)
    (h : s.Distinct a b) (c : String) : (s.GetAccount c).2.Distinct a b := by
  cases hc : lookupAccount c s.Accounts with
  | some q => rw [GetAccount_of_some hc]; exact h
  | none =>
    rw [GetAccount_of_none hc]
    unfold State.Distinct at h ⊢
    simp only [lookup_append]
    cases ha : lookupAccount a s.Accounts with
    | some p =>
      have hp := lookup_lt hv ha
      cases hb : lookupAccount b s.Accounts with
      | some q =>
        rw [ha, hb] at h
        simpa using h
      | none =>
        right
        by_cases hcb : c = b
        · simp only [hcb, if_true]
          intro he
          have := Option.some.inj he
          omega
        · simp [hcb]
    | none =>
      by_cases hca : c = a
      · right
        simp only [hca, if_true]
        cases hb : lookupAccount b s.Accounts with
        | some q =>
          have hq := lookup_lt hv hb
          intro he
          have := Option.some.inj he
          omega
        | none =>
          have hab : ¬ a = b := hne
          simp [hab]
      · left
        simp [hca]

theorem Distinct_ne {s : State} {a b : String} {p q : Nat} (h : s.Distinct a b)
    (ha : lookupAccount a s.Accounts = some p) (hb : lookupAccount b s.Accounts = some q) :
    p ≠ q := by
  unfold State.Distinct at h
  rw [ha, hb] at h
  intro hpq
  subst hpq
  simp at h

theorem holders_GetAccount {s : State} {p : Nat} (h : p < s.Objects.length) (b : String) :
    (s.GetAccount b).2.holders p = s.holders p := by
  cases hb : lookupAccount b s.Accounts with
  | some q => rw [GetAccount_of_some hb]
  | none =>
    rw [GetAccount_of_none hb]
    unfold State.holders
    have hne : s.Objects.length ≠ p := by omega
    simp [List.count_append, List.count_cons, hne]

theorem holders_fresh {s : State} (hv : s.Valid) : s.holders s.Objects.length = 0 := by
  unfold State.holders
  rw [List.count_eq_zero]
  intro hmem
  obtain ⟨e, he, heq⟩ := List.mem_map.mp hmem
  have := hv e he
  omega

theorem Owns_GetAccount {s : State} {a : String} (hv : s.Valid) (h : s.Owns a) (c : String) :
    (s.GetAccount c).2.Owns a := by
  cases hc : lookupAccount c s.Accounts with
  | some q => rw [GetAccount_of_some hc]; exact h
  | none =>
    unfold State.Owns at h ⊢
    cases ha : lookupAccount a s.Accounts with
    | some p =>
      rw [ha] at h
      rw [lookup_GetAccount_of_some c ha]
      simp only at h ⊢
      rw [holders_GetAccount (lookup_lt hv ha), h]
    | none =>
      by_cases hca : c = a
      · subst hca
        rw [lookup_GetAccount_self]
        simp only
        rw [GetAccount_of_none hc]
        unfold State.holders
        have h0 := holders_fresh hv
        unfold State.holders at h0
        simp [List.count_append, h0]
      · rw [lookup_GetAccount_of_none hca ha]
        trivial

theorem Owns_holders {s : State} {a : String} {p : Nat} (h : s.Owns a)
    (ha : lookupAccount a s.Accounts = some p) : s.holders p = 1 := by
  unfold State.Owns at h
  rw [ha] at h
  exact h

theorem two_le_count {a b : String} {p : Nat} {l : List (String × Nat)} (hne : a ≠ b)
    (ha : lookupAccount a l = some p) (hb : lookupAccount b l = some p) :
    2 ≤ (l.map Prod.snd).count p := by
  induction l with
  | nil => simp [lookupAccount] at ha
  | cons e rest ih =>
    obtain ⟨k, x⟩ := e
    by_cases hka : k = a
    · have hkb : ¬ k = b := fun hh => hne (hka.symm.trans hh)
      simp only [lookupAccount, hka, if_true, Option.some.injEq] at ha
      simp only [lookupAccount, hkb, if_false] at hb
      have hmem : p ∈ rest.map Prod.snd := List.mem_map.mpr ⟨(b, p), lookup_mem hb, rfl⟩
      have hpos := List.count_pos_iff.mpr hmem
      simp only [List.map_cons, ha, List.count_cons_self]
      omega
    · simp only [lookupAccount, hka, if_false] at ha
      by_cases hkb : k = b
      · simp only [lookupAccount, hkb, if_true, Option.some.injEq] at hb
        have hmem : p ∈ rest.map Prod.snd := List.mem_map.mpr ⟨(a, p), lookup_mem ha, rfl⟩
        have hpos := List.count_pos_iff.mpr hmem
        simp only [List.map_cons, hb, List.count_cons_self]
        omega
      · simp only [lookupAccount, hkb, if_false] at hb
        have := ih ha hb
        simp only [List.map_cons, List.count_cons]
        omega

theorem Owns_ne {s : State} {a b : String} {p q : Nat} (h : s.Owns a) (hne : a ≠ b)
    (ha : lookupAccount a s.Accounts = some p) (hb : lookupAccount b s.Accounts = some q) :
    p ≠ q := by
  intro hpq
  subst hpq
  have h1 := Owns_holders h ha
  have h2 := two_le_count hne ha hb
  unfold State.holders at h1
  omega

/-! ### The total balance -/

theorem sum_congr_lt (n : Nat) (g g' : Nat → Nat) (l : List (String × Nat))
    (hl : ∀ e ∈ l, e.2 < n) (hg : ∀ q, q < n → g' q = g q) :
    (l.map fun e => g' e.2).sum = (l.map fun e => g e.2).sum := by
  induction l with
  | nil => rfl
  | cons e rest ih =>
    have h1 := hg e.2 (hl e (List.mem_cons_self _ _))
    have h2 := ih (fun x hx => hl x (List.mem_cons_of_mem _ hx))
    simp only [List.map_cons, List.sum_cons, h1, h2]

theorem sum_update_count (p : Nat) (g g' : Nat → Nat) (l : List (String × Nat))
    (hg : ∀ q, q ≠ p → g' q = g q) :
    (l.map fun e => g' e.2).sum + (l.map Prod.snd).count p * g p
      = (l.map fun e => g e.2).sum + (l.map Prod.snd).count p * g' p := by
  induction l with
  | nil => simp
  | cons e rest ih =>
    by_cases he : e.2 = p
    · simp only [List.map_cons, List.sum_cons, he, List.count_cons_self, Nat.add_mul, Nat.one_mul]
      omega
    · have h1 := hg e.2 he
      simp only [List.map_cons, List.sum_cons, h1, List.count_cons, beq_iff_eq, he, if_false,
        Nat.add_zero]
      omega

theorem total_GetAccount {s : State} (hv : s.Valid) (b : String) :
    totalBalance (s.GetAccount b).2 = totalBalance s := by
  cases hb : lookupAccount b s.Accounts with
  | some q => rw [GetAccount_of_some hb]
  | none =>
    rw [GetAccount_of_none hb]
    unfold totalBalance
    simp only [List.map_append, List.sum_append, List.map_cons, List.map_nil, List.sum_cons,
      List.sum_nil, State.load, loadObject_append_length]
    have h : (s.Accounts.map fun e => (loadObject e.2 (s.Objects ++ [NewAccount b 0])).Balance).sum
        = (s.Accounts.map fun e => (loadObject e.2 s.Objects).Balance).sum :=
      sum_congr_lt s.Objects.length (fun q => (loadObject q s.Objects).Balance)
        (fun q => (loadObject q (s.Objects ++ [NewAccount b 0])).Balance) s.Accounts hv
        (fun q hq => by simp only [loadObject_append_lt hq])
    rw [h]
    simp [NewAccount]

theorem total_update (s : State) (p : Nat) (f : Account → Account) :
    totalBalance (s.update p f) + s.holders p * (s.load p).Balance
      = totalBalance s + s.holders p * ((s.update p f).load p).Balance := by
  unfold totalBalance State.holders
  rw [update_Accounts]
  exact sum_update_count p (fun q => (s.load q).Balance)
    (fun q => ((s.update p f).load q).Balance) s.Accounts
    (fun q hq => by
      simp only [load_update]
      rw [if_neg (fun h => hq h.1.symm)])

theorem total_update_of_owned (s : State) (p : Nat) (h1 : s.holders p = 1)
    (f : Account → Account) :
    totalBalance (s.update p f) + (s.load p).Balance
      = totalBalance s + ((s.update p f).load p).Balance := by
  have := total_update s p f
  rw [h1] at this
  omega

theorem total_update_of_preserves (s : State) (p : Nat) {f : Account → Account}
    (hf : ∀ x, (f x).Balance = x.Balance) :
    totalBalance (s.update p f) = totalBalance s := by
  unfold totalBalance
  rw [update_Accounts]
  congr 1
  apply List.map_congr_left
  intro e _
  simp only [load_update]
  split
  · exact hf _
  · rfl

theorem load_isU64 {s : State} (hs : s.IsU64) (p : Nat) :
    (s.load p).Nonce < 2 ^ 64 ∧ (s.load p).Balance < 2 ^ 64 := by
  unfold State.IsU64 at hs
  unfold State.load
  generalize s.Objects = l at hs
  induction l generalizing p with
  | nil => cases p <;> simp [loadObject, NewAccount]
  | cons x rest ih =>
    cases p with
    | zero => exact hs x (List.mem_cons_self _ _)
    | succ n => exact ih n (fun a ha => hs a (List.mem_cons_of_mem _ ha))

theorem deref_isU64 {s : State} (hs : s.IsU64) (a : String) :
    (s.deref a).Nonce < 2 ^ 64 ∧ (s.deref a).Balance < 2 ^ 64 := by
  cases ha : lookupAccount a s.Accounts with
  | some p => rw [deref_of_some ha]; exact load_isU64 hs p
  | none => rw [deref_of_none ha]; simp [NewAccount]

/-! ## Transaction validation -/

theorem MaxCost_eq (tx : Transaction) :
    tx.MaxCost = (tx.GasLimit * tx.MaxFeePerGas + tx.Value) % 2 ^ 64 := by
  unfold Transaction.MaxCost add64 mul64
  omega

theorem Validate_eq_none_iff (tx : Transaction) (baseFee : Nat) :
    tx.Validate baseFee = none ↔
      tx.MaxFeePerGas ≥ baseFee ∧ tx.MaxFeePerGas ≥ tx.MaxPriorityFeePerGas ∧ tx.GasLimit ≠ 0 := by
  unfold Transaction.Validate
  by_cases h1 : tx.MaxFeePerGas < baseFee
  · simp [h1]
  · by_cases h2 : tx.MaxFeePerGas < tx.MaxPriorityFeePerGas
    · simp [h1, h2]
    · by_cases h3 : tx.GasLimit = 0
      · simp [h1, h2, h3]
      · simp only [h1, h2, h3, if_false, true_iff]
        exact ⟨by omega, by omega, h3⟩

theorem ValidateTransaction_eq_none_iff (tx : Transaction) (baseFee : Nat) (s : State) :
    (validator.ValidateTransaction tx baseFee s).1 = none ↔
      tx.Validate baseFee = none ∧ tx.MaxCost ≤ (s.deref tx.From).Balance ∧
        tx.Nonce = (s.deref tx.From).Nonce := by
  unfold validator.ValidateTransaction
  cases hv : tx.Validate baseFee with
  | some e => simp
  | none =>
    have e : (s.GetAccount tx.From).2.load (s.GetAccount tx.From).1 = s.deref tx.From := rfl
    simp only [e, Account.CanPay, true_and]
    by_cases hc : tx.MaxCost ≤ (s.deref tx.From).Balance
    · by_cases hn : tx.Nonce = (s.deref tx.From).Nonce
      · simp [hc, hn]
      · simp [hc, hn]
    · simp [hc]

theorem ValidateTransaction_snd (tx : Transaction) (baseFee : Nat) (s : State) :
    (validator.ValidateTransaction tx baseFee s).2 = s ∨
      (validator.ValidateTransaction tx baseFee s).2 = (s.GetAccount tx.From).2 := by
  unfold validator.ValidateTransaction
  cases hv : tx.Validate baseFee with
  | some e => left; rfl
  | none =>
    right
    simp only
    split
    · rfl
    · split <;> rfl

/-- C5 as stated fails: with gas limit 2^32 and fee cap 2^32 the exact upfront
cost is 2^64, the sender has balance 0, and the transaction is accepted. -/
theorem C5_validate_transaction_counterexample :
    ¬ ((validator.ValidateTransaction (testTx 0 4294967296 4294967296 0) 1 NewState).1 = none ↔
      (testTx 0 4294967296 4294967296 0).MaxFeePerGas ≥ 1 ∧
      (testTx 0 4294967296 4294967296 0).MaxFeePerGas
        ≥ (testTx 0 4294967296 4294967296 0).MaxPriorityFeePerGas ∧
      (testTx 0 4294967296 4294967296 0).GasLimit ≠ 0 ∧
      balanceOf NewState (testTx 0 4294967296 4294967296 0).From
        ≥ (testTx 0 4294967296 4294967296 0).GasLimit
            * (testTx 0 4294967296 4294967296 0).MaxFeePerGas
          + (testTx 0 4294967296 4294967296 0).Value ∧
      (testTx 0 4294967296 4294967296 0).Nonce
        = nonceOf NewState (testTx 0 4294967296 4294967296 0).From) := by
  decide

/-- C5 (amended): ValidateTransaction returns no error if and only if the fee
cap is at least the base fee, the fee cap is at least the tip cap, the gas
limit is not zero, the sender's balance is at least the upfront cost
GasLimit * MaxFeePerGas + Value reduced modulo 2^64 (as uint64 arithmetic
computes it), and the nonce equals the sender's nonce; an absent sender counts
as balance 0 and nonce 0. -/
theorem C5_validate_transaction_iff (tx : Transaction) (baseFee : Nat) (s : State) :
    (validator.ValidateTransaction tx baseFee s).1 = none ↔
      tx.MaxFeePerGas ≥ baseFee ∧ tx.MaxFeePerGas ≥ tx.MaxPriorityFeePerGas ∧
      tx.GasLimit ≠ 0 ∧
      balanceOf s tx.From ≥ (tx.GasLimit * tx.MaxFeePerGas + tx.Value) % 2 ^ 64 ∧
      tx.Nonce = nonceOf s tx.From := by
  rw [ValidateTransaction_eq_none_iff, Validate_eq_none_iff, MaxCost_eq, balanceOf_eq,
    nonceOf_eq]
  tauto

/-! ## Block validation -/

theorem validator_max_eq (a b : Nat) : validator.max a b = basefee.max a b := rfl

theorem calculateExpectedBaseFee_eq_Calculate (parent : Block)
    (h : add64 parent.Number 1 ≠ constants.ForkBlockNumber) :
    validator.calculateExpectedBaseFee parent = basefee.Calculate parent := by
  unfold validator.calculateExpectedBaseFee basefee.Calculate
  rw [if_neg h]
  rfl

/-- C6, the code at the fork predecessor: for the parent numbered 12964999
Calculate returns the initial base fee 1000000000 while the validator's inline
recomputation returns the parent's fee 5; ValidateBlock rejects the child that
carries the fee Calculate gives and accepts the child that carries 5. -/
theorem C6_fork_predecessor_divergence :
    basefee.Calculate (testBlock 12964999 "g" "h" 30000000 15000000 5) = some 1000000000 ∧
    validator.calculateExpectedBaseFee (testBlock 12964999 "g" "h" 30000000 15000000 5)
      = some 5 ∧
    validator.ValidateBlock (testBlock 12965000 "h" "i" 30000000 0 1000000000)
        (testBlock 12964999 "g" "h" 30000000 15000000 5)
      = some (some validator.BlockValidationError.invalidBaseFee) ∧
    validator.ValidateBlock (testBlock 12965000 "h" "i" 30000000 0 5)
        (testBlock 12964999 "g" "h" 30000000 15000000 5)
      = some none := by
  decide

/-- C7 as stated fails: for a parent with gas limit 2^64 - 1 the child with
the same gas limit meets every listed condition in exact arithmetic, and
ValidateBlock rejects it. -/
theorem C7_validate_block_counterexample :
    ¬ (validator.ValidateBlock
          (testBlock 6 "h" "i" 18446744073709551615 0 7)
          (testBlock 5 "g" "h" 18446744073709551615 9223372036854775807 7) = some none ↔
        (testBlock 6 "h" "i" 18446744073709551615 0 7).Number
          = (testBlock 5 "g" "h" 18446744073709551615 9223372036854775807 7).Number + 1 ∧
        (testBlock 6 "h" "i" 18446744073709551615 0 7).ParentHash
          = (testBlock 5 "g" "h" 18446744073709551615 9223372036854775807 7).Hash ∧
        (testBlock 6 "h" "i" 18446744073709551615 0 7).GasUsed
          ≤ (testBlock 6 "h" "i" 18446744073709551615 0 7).GasLimit ∧
        (testBlock 5 "g" "h" 18446744073709551615 9223372036854775807 7).GasLimit
            - (testBlock 5 "g" "h" 18446744073709551615 9223372036854775807 7).GasLimit / 1024
          ≤ (testBlock 6 "h" "i" 18446744073709551615 0 7).GasLimit ∧
        (testBlock 6 "h" "i" 18446744073709551615 0 7).GasLimit
          ≤ (testBlock 5 "g" "h" 18446744073709551615 9223372036854775807 7).GasLimit
            + (testBlock 5 "g" "h" 18446744073709551615 9223372036854775807 7).GasLimit / 1024 ∧
        (testBlock 6 "h" "i" 18446744073709551615 0 7).GasLimit ≥ 5000 ∧
        validator.calculateExpectedBaseFee
            (testBlock 5 "g" "h" 18446744073709551615 9223372036854775807 7)
          = some (testBlock 6 "h" "i" 18446744073709551615 0 7).BaseFee) := by
  decide

/-- C7 (amended): for uint64 blocks, ValidateBlock returns no error if and only
if the number is the parent's number plus 1 modulo 2^64, the parent hash is the
parent's hash, gas used is at most the gas limit, the gas limit is at least the
parent's gas limit minus bound and at most the parent's gas limit plus bound
modulo 2^64 (bound being the parent's gas limit divided by 1024), the gas
limit is at least 5000, and the base fee equals the expected base fee that the
validator recomputes from the parent. -/
theorem C7_validate_block_iff (block parent : Block) (hp : parent.IsU64) :
    validator.ValidateBlock block parent = some none ↔
      block.Number = (parent.Number + 1) % 2 ^ 64 ∧
      block.ParentHash = parent.Hash ∧
      block.GasUsed ≤ block.GasLimit ∧
      parent.GasLimit - parent.GasLimit / 1024 ≤ block.GasLimit ∧
      block.GasLimit ≤ (parent.GasLimit + parent.GasLimit / 1024) % 2 ^ 64 ∧
      block.GasLimit ≥ 5000 ∧
      validator.calculateExpectedBaseFee parent = some block.BaseFee := by
  obtain ⟨-, hl, -, -, -⟩ := hp
  have hsub : sub64 parent.GasLimit (parent.GasLimit / 1024)
      = parent.GasLimit - parent.GasLimit / 1024 :=
    sub64_of_le (Nat.div_le_self _ _) hl
  unfold validator.ValidateBlock
  simp only [constants.GasLimitBoundDivisor, constants.MinGasLimit, hsub, add64]
  generalize (parent.Number + 1) % 2 ^ 64 = n
  generalize (parent.GasLimit + parent.GasLimit / 1024) % 2 ^ 64 = hi
  generalize parent.GasLimit - parent.GasLimit / 1024 = lo
  by_cases h1 : block.Number = n
  swap
  · simp [h1]
  by_cases h2 : block.ParentHash = parent.Hash
  swap
  · simp [h1, h2]
  by_cases h3 : block.GasUsed ≤ block.GasLimit
  swap
  · simp [h1, h2, h3, not_le.mp h3]
  by_cases h4 : block.GasLimit ≤ hi
  swap
  · simp [h1, h2, h3, h4, not_le.mp h4, not_lt.mpr h3]
  by_cases h5 : lo ≤ block.GasLimit
  swap
  · simp [h1, h2, h3, h4, h5, not_le.mp h5, not_lt.mpr h3, not_lt.mpr h4]
  by_cases h6 : 5000 ≤ block.GasLimit
  swap
  · simp [h1, h2, h3, h4, h5, h6, not_le.mp h6, not_lt.mpr h3, not_lt.mpr h4, not_lt.mpr h5]
  simp only [h1, h2, h3, h4, h5, h6, ne_eq, not_true_eq_false, if_false, gt_iff_lt,
    not_lt.mpr h3, not_lt.mpr h4, not_lt.mpr h5, not_lt.mpr h6, ge_iff_le, true_and]
  cases he : validator.calculateExpectedBaseFee parent with
  | none => simp
  | some e =>
    by_cases h7 : block.BaseFee = e
    · simp [h7]
    · have h7b : ¬ e = block.BaseFee := fun h => h7 h.symm
      simp [h7, h7b]

theorem C7_validate_block_iff_witness :
    validator.ValidateBlock (testBlock 12965001 "h" "i" 30000000 20000000 1000000000)
        (testBlock 12965000 "g" "h" 30000000 15000000 1000000000) = some none ↔
      (testBlock 12965001 "h" "i" 30000000 20000000 1000000000).Number
        = ((testBlock 12965000 "g" "h" 30000000 15000000 1000000000).Number + 1) % 2 ^ 64 ∧
      (testBlock 12965001 "h" "i" 30000000 20000000 1000000000).ParentHash
        = (testBlock 12965000 "g" "h" 30000000 15000000 1000000000).Hash ∧
      (testBlock 12965001 "h" "i" 30000000 20000000 1000000000).GasUsed
        ≤ (testBlock 12965001 "h" "i" 30000000 20000000 1000000000).GasLimit ∧
      (testBlock 12965000 "g" "h" 30000000 15000000 1000000000).GasLimit
          - (testBlock 12965000 "g" "h" 30000000 15000000 1000000000).GasLimit / 1024
        ≤ (testBlock 12965001 "h" "i" 30000000 20000000 1000000000).GasLimit ∧
      (testBlock 12965001 "h" "i" 30000000 20000000 1000000000).GasLimit
        ≤ ((testBlock 12965000 "g" "h" 30000000 15000000 1000000000).GasLimit
          + (testBlock 12965000 "g" "h" 30000000 15000000 1000000000).GasLimit / 1024) % 2 ^ 64 ∧
      (testBlock 12965001 "h" "i" 30000000 20000000 1000000000).GasLimit ≥ 5000 ∧
      validator.calculateExpectedBaseFee
          (testBlock 12965000 "g" "h" 30000000 15000000 1000000000)
        = some (testBlock 12965001 "h" "i" 30000000 20000000 1000000000).BaseFee :=
  C7_validate_block_iff _ _ (by decide)

/-! ## Transaction execution -/

theorem Deduct_eq_none {x : Account} {amount : Nat} (h : x.Balance < amount) :
    x.Deduct amount = none := by
  unfold Account.Deduct Account.CanPay
  simp [h]

theorem Deduct_eq_some {x : Account} {amount : Nat} (h : amount ≤ x.Balance) :
    x.Deduct amount = some { x with Balance := sub64 x.Balance amount } := by
  unfold Account.Deduct Account.CanPay
  simp [h]

theorem ExecuteTransaction_fail (tx : Transaction) (block : Block) (s : State)
    (h : (s.deref tx.From).Balance < tx.MaxCost) :
    executor.ExecuteTransaction tx block s
      = ({ GasUsed := 0, BaseFeeAmount := 0, TipAmount := 0, Success := false,
           Error := some executor.ExecutionError.insufficientFunds },
         ((s.GetAccount tx.From).2.GetAccount block.Miner).2) := by
  have hd : (((s.GetAccount tx.From).2.GetAccount block.Miner).2.load
      (s.GetAccount tx.From).1).Deduct
      (add64 (mul64 tx.GasLimit tx.MaxFeePerGas) tx.Value) = none := by
    apply Deduct_eq_none
    rw [(load_GetAccount_fields _ _ _).2]
    exact h
  unfold executor.ExecuteTransaction
  simp only [hd]

theorem ExecuteTransaction_success (tx : Transaction) (block : Block) (s : State)
    (h : tx.MaxCost ≤ (s.deref tx.From).Balance) :
    executor.ExecuteTransaction tx block s
      = ({ GasUsed := executor.executeTransaction tx,
           BaseFeeAmount := mul64 (executor.executeTransaction tx) block.BaseFee,
           TipAmount := mul64 (executor.executeTransaction tx)
             (tx.EffectivePriorityFee block.BaseFee),
           Success := true, Error := none },
         successState tx block s) := by
  have hd : (((s.GetAccount tx.From).2.GetAccount block.Miner).2.load
      (s.GetAccount tx.From).1).Deduct
      (add64 (mul64 tx.GasLimit tx.MaxFeePerGas) tx.Value)
      = some { (((s.GetAccount tx.From).2.GetAccount block.Miner).2.load
          (s.GetAccount tx.From).1) with
          Balance := sub64 (((s.GetAccount tx.From).2.GetAccount block.Miner).2.load
            (s.GetAccount tx.From).1).Balance tx.MaxCost } := by
    apply Deduct_eq_some
    rw [(load_GetAccount_fields _ _ _).2]
    exact h
  have hm : ((s.GetAccount tx.From).2.GetAccount block.Miner).2.update (s.GetAccount tx.From).1
      (fun _ => { (((s.GetAccount tx.From).2.GetAccount block.Miner).2.load
          (s.GetAccount tx.From).1) with
          Balance := sub64 (((s.GetAccount tx.From).2.GetAccount block.Miner).2.load
            (s.GetAccount tx.From).1).Balance tx.MaxCost })
      = ((s.GetAccount tx.From).2.GetAccount block.Miner).2.update (s.GetAccount tx.From).1
          (fun a => { a with Balance := sub64 a.Balance tx.MaxCost }) :=
    update_congr rfl
  unfold executor.ExecuteTransaction successState creditedState refundAmount
  simp only [hd, hm]

theorem ExecuteTransaction_after_validate (tx : Transaction) (block : Block) (baseFee : Nat)
    (s : State) :
    executor.ExecuteTransaction tx block (validator.ValidateTransaction tx baseFee s).2
      = executor.ExecuteTransaction tx block s := by
  rcases ValidateTransaction_snd tx baseFee s with h | h
  · rw [h]
  · rw [h]
    unfold executor.ExecuteTransaction
    rw [GetAccount_idem]

theorem executeTransaction_eq (tx : Transaction) (h : 21000 + 16 * tx.Data.length < 2 ^ 64) :
    executor.executeTransaction tx = 21000 + 16 * tx.Data.length := by
  unfold executor.executeTransaction
  by_cases hl : tx.Data.length > 0
  · have h1 : mul64 tx.Data.length 16 = tx.Data.length * 16 := mul64_of_lt (by omega)
    simp only [hl, if_true, h1]
    rw [add64_of_lt (by omega)]
    omega
  · simp only [hl, if_false]
    omega

theorem effective_fee_facts (tx : Transaction) (baseFee : Nat)
    (hbf : baseFee ≤ tx.MaxFeePerGas) (hmf : tx.MaxFeePerGas < 2 ^ 64) :
    tx.EffectiveGasPrice baseFee = tx.EffectivePriorityFee baseFee + baseFee ∧
    tx.EffectiveGasPrice baseFee ≤ tx.MaxFeePerGas ∧
    tx.EffectivePriorityFee baseFee = min tx.MaxPriorityFeePerGas (tx.MaxFeePerGas - baseFee) := by
  have hs : sub64 tx.MaxFeePerGas baseFee = tx.MaxFeePerGas - baseFee := sub64_of_le hbf hmf
  unfold Transaction.EffectiveGasPrice Transaction.EffectivePriorityFee
  simp only [hs]
  by_cases hc : tx.MaxFeePerGas - baseFee < tx.MaxPriorityFeePerGas
  · simp only [hc, if_true]
    rw [add64_of_lt (by omega)]
    omega
  · simp only [hc, if_false]
    rw [add64_of_lt (by omega)]
    omega

theorem refund_facts (tx : Transaction) (baseFee : Nat)
    (hbf : baseFee ≤ tx.MaxFeePerGas) (hmf : tx.MaxFeePerGas < 2 ^ 64)
    (hgl : tx.GasLimit < 2 ^ 64)
    (hcost : tx.GasLimit * tx.MaxFeePerGas < 2 ^ 64)
    (hgu : executor.executeTransaction tx ≤ tx.GasLimit) :
    refundAmount tx baseFee + executor.executeTransaction tx * tx.EffectiveGasPrice baseFee
      = tx.GasLimit * tx.MaxFeePerGas := by
  obtain ⟨-, hle, -⟩ := effective_fee_facts tx baseFee hbf hmf
  unfold refundAmount
  generalize tx.EffectiveGasPrice baseFee = eff at hle ⊢
  generalize executor.executeTransaction tx = gu at hgu ⊢
  rw [sub64_of_le hgu hgl, sub64_of_le hle hmf]
  obtain ⟨r, hr⟩ := Nat.exists_eq_add_of_le hgu
  obtain ⟨o, ho⟩ := Nat.exists_eq_add_of_le hle
  rw [hr, ho] at hcost ⊢
  simp only [Nat.add_sub_cancel_left]
  have e : (gu + r) * (eff + o) = r * (eff + o) + gu * o + gu * eff := by ring
  have h1 : r * (eff + o) < 2 ^ 64 := by rw [e] at hcost; omega
  have h2 : gu * o < 2 ^ 64 := by rw [e] at hcost; omega
  rw [mul64_of_lt h1, mul64_of_lt h2, add64_of_lt (by rw [e] at hcost; omega), e]

theorem Add_Nonce (x : Account) (amount : Nat) : (x.Add amount).Nonce = x.Nonce := rfl

theorem IncrementNonce_Balance (x : Account) : x.IncrementNonce.Balance = x.Balance := rfl

/-- C8 as stated fails: with gas limit 2^32 and fee cap 2^32 the exact upfront
cost 2^64 exceeds the sender's balance 0, the cost as the executor computes it
is 0, and the execution succeeds and changes the sender's balance. -/
theorem C8_insufficient_funds_counterexample :
    balanceOf NewState (testTx 0 4294967296 4294967296 0).From
      < (testTx 0 4294967296 4294967296 0).GasLimit
          * (testTx 0 4294967296 4294967296 0).MaxFeePerGas
        + (testTx 0 4294967296 4294967296 0).Value ∧
    (executor.ExecuteTransaction (testTx 0 4294967296 4294967296 0)
      (testBlock 1 "g" "h" 30000000 0 1) NewState).1.Success = true ∧
    balanceOf (executor.ExecuteTransaction (testTx 0 4294967296 4294967296 0)
      (testBlock 1 "g" "h" 30000000 0 1) NewState).2 "A" ≠ balanceOf NewState "A" := by
  decide

/-- C8 (amended): when the sender's balance is less than the upfront cost
GasLimit * MaxFeePerGas + Value as uint64 arithmetic computes it (reduced
modulo 2^64), ExecuteTransaction returns a result with Success false, an
error, and GasUsed, BaseFeeAmount and TipAmount all 0, and every address reads
the same balance after the call as before it. -/
theorem C8_insufficient_funds (tx : Transaction) (block : Block) (s : State)
    (h : balanceOf s tx.From < (tx.GasLimit * tx.MaxFeePerGas + tx.Value) % 2 ^ 64) :
    (executor.ExecuteTransaction tx block s).1.Success = false ∧
    (executor.ExecuteTransaction tx block s).1.Error ≠ none ∧
    (executor.ExecuteTransaction tx block s).1.GasUsed = 0 ∧
    (executor.ExecuteTransaction tx block s).1.BaseFeeAmount = 0 ∧
    (executor.ExecuteTransaction tx block s).1.TipAmount = 0 ∧
    ∀ a, balanceOf (executor.ExecuteTransaction tx block s).2 a = balanceOf s a := by
  rw [balanceOf_eq, ← MaxCost_eq] at h
  rw [ExecuteTransaction_fail tx block s h]
  refine ⟨rfl, by simp, rfl, rfl, rfl, fun a => ?_⟩
  rw [balanceOf_eq, balanceOf_eq, deref_GetAccount_Balance, deref_GetAccount_Balance]

theorem C8_insufficient_funds_witness :
    (executor.ExecuteTransaction (testTx 2000000000 5000000000 21000 1000)
      (testBlock 1 "g" "h" 30000000 0 1000000000) (testState 0 1000)).1.Success = false ∧
    (executor.ExecuteTransaction (testTx 2000000000 5000000000 21000 1000)
      (testBlock 1 "g" "h" 30000000 0 1000000000) (testState 0 1000)).1.Error ≠ none ∧
    (executor.ExecuteTransaction (testTx 2000000000 5000000000 21000 1000)
      (testBlock 1 "g" "h" 30000000 0 1000000000) (testState 0 1000)).1.GasUsed = 0 ∧
    (executor.ExecuteTransaction (testTx 2000000000 5000000000 21000 1000)
      (testBlock 1 "g" "h" 30000000 0 1000000000) (testState 0 1000)).1.BaseFeeAmount = 0 ∧
    (executor.ExecuteTransaction (testTx 2000000000 5000000000 21000 1000)
      (testBlock 1 "g" "h" 30000000 0 1000000000) (testState 0 1000)).1.TipAmount = 0 ∧
    ∀ a, balanceOf (executor.ExecuteTransaction (testTx 2000000000 5000000000 21000 1000)
      (testBlock 1 "g" "h" 30000000 0 1000000000) (testState 0 1000)).2 a
        = balanceOf (testState 0 1000) a :=
  C8_insufficient_funds (testTx 2000000000 5000000000 21000 1000)
    (testBlock 1 "g" "h" 30000000 0 1000000000) (testState 0 1000) (by decide)

/-! ### The successful run on a well-formed state -/

theorem senderPtr_lt {s : State} (hv : s.Valid) (tx : Transaction) (block : Block) :
    senderPtr tx s < ((s.GetAccount tx.From).2.GetAccount block.Miner).2.Objects.length :=
  lt_of_lt_of_le (ptr_lt hv tx.From) (length_GetAccount _ _)

theorem creditedState_eq (tx : Transaction) (block : Block) {s : State} (hv : s.Valid) :
    creditedState tx block s
      = ((((preparedState tx block s).update (senderPtr tx s)
            (fun a => { a with Balance := sub64 a.Balance tx.MaxCost })).update (senderPtr tx s)
            (fun a => a.Add (refundAmount tx block.BaseFee))).update (recipientPtr tx block s)
            (fun a => if tx.To ≠ "" then a.Add tx.Value else a)).update (minerPtr tx block s)
            (fun a => a.Add (mul64 (executor.executeTransaction tx)
              (tx.EffectivePriorityFee block.BaseFee))) := by
  have hF := senderPtr_lt hv tx block
  unfold creditedState preparedState minerPtr recipientPtr
  unfold senderPtr at hF ⊢
  by_cases hto : tx.To ≠ ""
  · simp only [if_pos hto]
    rw [GetAccount_update (by rw [update_length]; exact hF), GetAccount_update hF]
  · simp only [if_neg hto]
    rw [update_id]

theorem successState_eq (tx : Transaction) (block : Block) {s : State} (hv : s.Valid) :
    successState tx block s
      = (((((preparedState tx block s).update (senderPtr tx s)
            (fun a => { a with Balance := sub64 a.Balance tx.MaxCost })).update (senderPtr tx s)
            (fun a => a.Add (refundAmount tx block.BaseFee))).update (recipientPtr tx block s)
            (fun a => if tx.To ≠ "" then a.Add tx.Value else a)).update (minerPtr tx block s)
            (fun a => a.Add (mul64 (executor.executeTransaction tx)
              (tx.EffectivePriorityFee block.BaseFee)))).update (senderPtr tx s)
            (fun a => a.IncrementNonce) := by
  unfold successState
  rw [creditedState_eq tx block hv]
  rfl

theorem successState_lookup (tx : Transaction) (block : Block) {s : State} (hv : s.Valid)
    (a : String) :
    lookupAccount a (successState tx block s).Accounts
      = lookupAccount a (preparedState tx block s).Accounts := by
  rw [successState_eq tx block hv]
  rfl

theorem prepared_Valid (tx : Transaction) (block : Block) {s : State} (hv : s.Valid) :
    (preparedState tx block s).Valid := by
  unfold preparedState
  split
  · exact Valid_GetAccount (Valid_GetAccount (Valid_GetAccount hv _) _) _
  · exact Valid_GetAccount (Valid_GetAccount hv _) _

theorem prepared_lookup_From (tx : Transaction) (block : Block) (s : State) :
    lookupAccount tx.From (preparedState tx block s).Accounts = some (senderPtr tx s) := by
  unfold preparedState senderPtr
  split
  · exact lookup_GetAccount_of_some _ (lookup_GetAccount_of_some _ (lookup_GetAccount_self s _))
  · exact lookup_GetAccount_of_some _ (lookup_GetAccount_self s _)

theorem prepared_lookup_Miner (tx : Transaction) (block : Block) (s : State) :
    lookupAccount block.Miner (preparedState tx block s).Accounts
      = some (minerPtr tx block s) := by
  unfold preparedState minerPtr
  split
  · exact lookup_GetAccount_of_some _ (lookup_GetAccount_self _ _)
  · exact lookup_GetAccount_self _ _

theorem prepared_lookup_To (tx : Transaction) (block : Block) (s : State) (hto : tx.To ≠ "") :
    lookupAccount tx.To (preparedState tx block s).Accounts
      = some (recipientPtr tx block s) := by
  unfold preparedState recipientPtr
  rw [if_pos hto]
  exact lookup_GetAccount_self _ _

theorem prepared_Balance (tx : Transaction) (block : Block) (s : State) (a : String) :
    ((preparedState tx block s).deref a).Balance = (s.deref a).Balance := by
  unfold preparedState
  split
  · rw [deref_GetAccount_Balance, deref_GetAccount_Balance, deref_GetAccount_Balance]
  · rw [deref_GetAccount_Balance, deref_GetAccount_Balance]

theorem prepared_Nonce (tx : Transaction) (block : Block) (s : State) (a : String) :
    ((preparedState tx block s).deref a).Nonce = (s.deref a).Nonce := by
  unfold preparedState
  split
  · rw [deref_GetAccount_Nonce, deref_GetAccount_Nonce, deref_GetAccount_Nonce]
  · rw [deref_GetAccount_Nonce, deref_GetAccount_Nonce]

theorem prepared_Distinct (tx : Transaction) (block : Block) {s : State} (hv : s.Valid)
    {a b : String} (hne : a ≠ b) (h : s.Distinct a b) :
    (preparedState tx block s).Distinct a b := by
  unfold preparedState
  split
  · exact Distinct_GetAccount (Valid_GetAccount (Valid_GetAccount hv _) _) hne
      (Distinct_GetAccount (Valid_GetAccount hv _) hne (Distinct_GetAccount hv hne h _) _) _
  · exact Distinct_GetAccount (Valid_GetAccount hv _) hne (Distinct_GetAccount hv hne h _) _

theorem prepared_Owns (tx : Transaction) (block : Block) {s : State} (hv : s.Valid)
    {a : String} (h : s.Owns a) : (preparedState tx block s).Owns a := by
  unfold preparedState
  split
  · exact Owns_GetAccount (Valid_GetAccount (Valid_GetAccount hv _) _)
      (Owns_GetAccount (Valid_GetAccount hv _) (Owns_GetAccount hv h _) _) _
  · exact Owns_GetAccount (Valid_GetAccount hv _) (Owns_GetAccount hv h _) _

theorem prepared_total (tx : Transaction) (block : Block) {s : State} (hv : s.Valid) :
    totalBalance (preparedState tx block s) = totalBalance s := by
  unfold preparedState
  split
  · rw [total_GetAccount (Valid_GetAccount (Valid_GetAccount hv _) _),
      total_GetAccount (Valid_GetAccount hv _), total_GetAccount hv]
  · rw [total_GetAccount (Valid_GetAccount hv _), total_GetAccount hv]

theorem prepared_load_From (tx : Transaction) (block : Block) (s : State) :
    ((preparedState tx block s).load (senderPtr tx s)).Balance = (s.deref tx.From).Balance ∧
    ((preparedState tx block s).load (senderPtr tx s)).Nonce = (s.deref tx.From).Nonce := by
  rw [← deref_of_some (prepared_lookup_From tx block s)]
  exact ⟨prepared_Balance tx block s _, prepared_Nonce tx block s _⟩

theorem prepared_load_Miner (tx : Transaction) (block : Block) (s : State) :
    ((preparedState tx block s).load (minerPtr tx block s)).Balance
      = (s.deref block.Miner).Balance := by
  rw [← deref_of_some (prepared_lookup_Miner tx block s)]
  exact prepared_Balance tx block s _

theorem prepared_load_To (tx : Transaction) (block : Block) (s : State) (hto : tx.To ≠ "") :
    ((preparedState tx block s).load (recipientPtr tx block s)).Balance
      = (s.deref tx.To).Balance := by
  rw [← deref_of_some (prepared_lookup_To tx block s hto)]
  exact prepared_Balance tx block s _

theorem Add_Balance (x : Account) (amount : Nat) :
    (x.Add amount).Balance = add64 x.Balance amount := rfl

theorem IncrementNonce_Nonce (x : Account) : x.IncrementNonce.Nonce = add64 x.Nonce 1 := rfl

theorem successState_load_Nonce (tx : Transaction) (block : Block) {s : State} (hv : s.Valid)
    (q : Nat) :
    ((successState tx block s).load q).Nonce
      = if senderPtr tx s = q ∧ q < (preparedState tx block s).Objects.length then
          add64 ((preparedState tx block s).load q).Nonce 1
        else ((preparedState tx block s).load q).Nonce := by
  rw [successState_eq tx block hv]
  simp only [load_update, update_length]
  split_ifs <;> simp only [IncrementNonce_Nonce, Add_Nonce]

/-- C9 as stated fails, in two ways: (a) a sender whose nonce is 2^64 - 1 has
nonce 0 after a successful execution, not its previous nonce plus 1; (b) when
one account object is stored under the sender's address "A" and under the
miner's address "M", a successful execution raises the nonce that "M" reads
from 0 to 1. -/
theorem C9_nonce_counterexample :
    ((executor.ExecuteTransaction (testTx 0 1 21000 0) (testBlock 1 "g" "h" 30000000 0 1)
        (testState 18446744073709551615 21000)).1.Success = true ∧
      nonceOf (executor.ExecuteTransaction (testTx 0 1 21000 0)
        (testBlock 1 "g" "h" 30000000 0 1) (testState 18446744073709551615 21000)).2 "A" = 0 ∧
      nonceOf (executor.ExecuteTransaction (testTx 0 1 21000 0)
        (testBlock 1 "g" "h" 30000000 0 1) (testState 18446744073709551615 21000)).2 "A"
        ≠ nonceOf (testState 18446744073709551615 21000) "A" + 1) ∧
    ((executor.ExecuteTransaction (testTx 1 2 21000 7) (testBlock 1 "g" "h" 30000000 0 1)
        (testStateShared 50000)).1.Success = true ∧
      "M" ≠ (testTx 1 2 21000 7).From ∧
      nonceOf (testStateShared 50000) "M" = 0 ∧
      nonceOf (executor.ExecuteTransaction (testTx 1 2 21000 7)
        (testBlock 1 "g" "h" 30000000 0 1) (testStateShared 50000)).2 "M" = 1) := by
  decide

/-- C9 (amended): in a state whose stored account pointers all designate an
account, after ExecuteTransaction the sender's nonce is its previous nonce
plus 1 modulo 2^64 (the uint64 increment) when the result has Success true,
and its previous nonce when the result has Success false; in both cases the
nonce is unchanged at every other address that does not hold the sender's
account object. -/
theorem C9_nonce (tx : Transaction) (block : Block) (s : State) (hwf : s.Valid) :
    ((executor.ExecuteTransaction tx block s).1.Success = true →
      nonceOf (executor.ExecuteTransaction tx block s).2 tx.From
        = (nonceOf s tx.From + 1) % 2 ^ 64) ∧
    ((executor.ExecuteTransaction tx block s).1.Success = false →
      nonceOf (executor.ExecuteTransaction tx block s).2 tx.From = nonceOf s tx.From) ∧
    ∀ a, a ≠ tx.From → s.Distinct a tx.From →
      nonceOf (executor.ExecuteTransaction tx block s).2 a = nonceOf s a := by
  by_cases h : tx.MaxCost ≤ (s.deref tx.From).Balance
  · rw [ExecuteTransaction_success tx block s h]
    have hB := prepared_Valid tx block hwf
    refine ⟨fun _ => ?_, fun hf => ?_, fun a ha hd => ?_⟩
    · have hF := lookup_lt hB (prepared_lookup_From tx block s)
      rw [nonceOf_eq, nonceOf_eq,
        deref_of_some ((successState_lookup tx block hwf _).trans
          (prepared_lookup_From tx block s)),
        successState_load_Nonce tx block hwf, if_pos ⟨rfl, hF⟩,
        (prepared_load_From tx block s).2]
      rfl
    · simp at hf
    · have hD := prepared_Distinct tx block hwf ha hd
      rw [nonceOf_eq, nonceOf_eq, ← prepared_Nonce tx block s a]
      cases hl : lookupAccount a (preparedState tx block s).Accounts with
      | none =>
        rw [deref_of_none ((successState_lookup tx block hwf _).trans hl), deref_of_none hl]
      | some q =>
        have hne : q ≠ senderPtr tx s := Distinct_ne hD hl (prepared_lookup_From tx block s)
        rw [deref_of_some ((successState_lookup tx block hwf _).trans hl), deref_of_some hl,
          successState_load_Nonce tx block hwf, if_neg (fun hc => hne hc.1.symm)]
  · rw [ExecuteTransaction_fail tx block s (not_le.mp h)]
    refine ⟨fun hf => ?_, fun _ => ?_, fun a _ _ => ?_⟩
    · simp at hf
    · rw [nonceOf_eq, nonceOf_eq, deref_GetAccount_Nonce, deref_GetAccount_Nonce]
    · rw [nonceOf_eq, nonceOf_eq, deref_GetAccount_Nonce, deref_GetAccount_Nonce]

theorem C9_nonce_witness :
    ((executor.ExecuteTransaction (testTx 1 2 21000 7) (testBlock 1 "g" "h" 30000000 0 1)
        (testStateShared 50000)).1.Success = true →
      nonceOf (executor.ExecuteTransaction (testTx 1 2 21000 7)
        (testBlock 1 "g" "h" 30000000 0 1) (testStateShared 50000)).2 (testTx 1 2 21000 7).From
        = (nonceOf (testStateShared 50000) (testTx 1 2 21000 7).From + 1) % 2 ^ 64) ∧
    ((executor.ExecuteTransaction (testTx 1 2 21000 7) (testBlock 1 "g" "h" 30000000 0 1)
        (testStateShared 50000)).1.Success = false →
      nonceOf (executor.ExecuteTransaction (testTx 1 2 21000 7)
        (testBlock 1 "g" "h" 30000000 0 1) (testStateShared 50000)).2 (testTx 1 2 21000 7).From
        = nonceOf (testStateShared 50000) (testTx 1 2 21000 7).From) ∧
    ∀ a, a ≠ (testTx 1 2 21000 7).From → (testStateShared 50000).Distinct a (testTx 1 2 21000 7).From →
      nonceOf (executor.ExecuteTransaction (testTx 1 2 21000 7)
        (testBlock 1 "g" "h" 30000000 0 1) (testStateShared 50000)).2 a
        = nonceOf (testStateShared 50000) a :=
  C9_nonce (testTx 1 2 21000 7) (testBlock 1 "g" "h" 30000000 0 1) (testStateShared 50000)
    (by decide)

/-! ### The total balance after a successful run -/

theorem holders_update (s : State) (p q : Nat) (f : Account → Account) :
    (s.update p f).holders q = s.holders q := rfl

theorem total_update_Add (s : State) (p amount : Nat) (hp : p < s.Objects.length)
    (ho : amount ≠ 0 → s.holders p = 1) (hnw : (s.load p).Balance + amount < 2 ^ 64) :
    totalBalance (s.update p (fun a => a.Add amount)) = totalBalance s + amount := by
  have E := total_update s p (fun a => a.Add amount)
  simp only [load_update, hp, and_true, if_true, Add_Balance, add64_of_lt hnw] at E
  by_cases h0 : amount = 0
  · subst h0
    simp only [Nat.add_zero] at E ⊢
    omega
  · rw [ho h0] at E
    omega

theorem total_chain (B : State) (pF pM pT cost refund value tip : Nat) (c : Prop) [Decidable c]
    (hF : pF < B.Objects.length) (hM : pM < B.Objects.length)
    (hT : c → pT < B.Objects.length)
    (oF : B.holders pF = 1) (oM : tip ≠ 0 → B.holders pM = 1)
    (oT : c → value ≠ 0 → B.holders pT = 1)
    (hpay : cost ≤ (B.load pF).Balance) (hb : (B.load pF).Balance < 2 ^ 64)
    (hsum : refund + value + tip ≤ cost) (hval : ¬ c → value = 0)
    (hrec : c → pT ≠ pF → (B.load pT).Balance + value < 2 ^ 64)
    (hmin : pM ≠ pF →
      (B.load pM).Balance + (if c ∧ pT = pM then value else 0) + tip < 2 ^ 64) :
    totalBalance ((((B.update pF (fun a => { a with Balance := sub64 a.Balance cost })).update pF
        (fun a => a.Add refund)).update pT (fun a => if c then a.Add value else a)).update pM
        (fun a => a.Add tip)) + cost
      = totalBalance B + refund + value + tip := by
  have e1 : sub64 (B.load pF).Balance cost = (B.load pF).Balance - cost := sub64_of_le hpay hb
  have e2 : add64 ((B.load pF).Balance - cost) refund = (B.load pF).Balance - cost + refund :=
    add64_of_lt (by omega)
  have e3 : add64 ((B.load pF).Balance - cost + refund) value
      = (B.load pF).Balance - cost + refund + value := add64_of_lt (by omega)
  have T1 : totalBalance (B.update pF (fun a => { a with Balance := sub64 a.Balance cost }))
      + cost = totalBalance B := by
    have E1 := total_update_of_owned B pF oF
      (fun a => { a with Balance := sub64 a.Balance cost })
    simp only [load_update, hF, and_true, if_true, e1] at E1
    omega
  have T2 := total_update_Add
    (B.update pF (fun a => { a with Balance := sub64 a.Balance cost })) pF refund
    (by rw [update_length]; exact hF) (fun _ => oF)
    (by simp only [load_update, hF, and_true, if_true, e1]; omega)
  by_cases hc : c
  · have hT := hT hc
    have T3 := total_update_Add
      ((B.update pF (fun a => { a with Balance := sub64 a.Balance cost })).update pF
        (fun a => a.Add refund)) pT value
      (by simp only [update_length]; exact hT) (oT hc)
      (by
        simp only [load_update, update_length, hF, hT, and_true, if_true, Add_Balance]
        by_cases c1 : pF = pT
        · subst c1
          simp only [if_true, Add_Balance, e1, e2]
          omega
        · simp only [c1, if_false]
          exact hrec hc (fun h => c1 h.symm))
    have T4 := total_update_Add
      (((B.update pF (fun a => { a with Balance := sub64 a.Balance cost })).update pF
        (fun a => a.Add refund)).update pT (fun a => a.Add value)) pM tip
      (by simp only [update_length]; exact hM) oM
      (by
        simp only [load_update, update_length, hF, hT, hM, and_true, if_true, Add_Balance]
        by_cases c1 : pF = pM
        · subst c1
          by_cases c2 : pT = pF
          · simp only [c2, if_true, Add_Balance, e1, e2, e3]
            omega
          · simp only [c2, if_true, if_false, Add_Balance, e1, e2]
            omega
        · have hmin := hmin (fun h => c1 h.symm)
          by_cases c2 : pT = pM
          · subst c2
            simp only [hc, and_self, if_true] at hmin
            simp only [c1, if_true, if_false, Add_Balance,
              add64_of_lt (hrec hc (fun h => c1 h.symm))]
            exact hmin
          · simp only [hc, c2, and_false, if_false] at hmin
            simp only [c1, c2, if_false]
            omega)
    simp only [hc, if_true]
    omega
  · have hv0 := hval hc
    subst hv0
    simp only [hc, if_false, update_id]
    have T4 := total_update_Add
      ((B.update pF (fun a => { a with Balance := sub64 a.Balance cost })).update pF
        (fun a => a.Add refund)) pM tip
      (by simp only [update_length]; exact hM) oM
      (by
        simp only [load_update, update_length, hF, hM, and_true, if_true, Add_Balance]
        by_cases c1 : pF = pM
        · subst c1
          simp only [if_true, Add_Balance, e1, e2]
          omega
        · have hmin := hmin (fun h => c1 h.symm)
          simp only [hc, false_and, if_false] at hmin
          simp only [c1, if_false]
          omega)
    omega

theorem total_successState (tx : Transaction) (block : Block) (s : State) :
    totalBalance (successState tx block s) = totalBalance (creditedState tx block s) := by
  unfold successState
  exact total_update_of_preserves _ _ IncrementNonce_Balance

theorem total_ValidateTransaction (tx : Transaction) (baseFee : Nat) {s : State}
    (hv : s.Valid) :
    totalBalance (validator.ValidateTransaction tx baseFee s).2 = totalBalance s := by
  rcases ValidateTransaction_snd tx baseFee s with h | h
  · rw [h]
  · rw [h, total_GetAccount hv]

/-- C4 as stated fails, in six ways.  Each transaction below passes
ValidateTransaction, and the total balance after the execution plus
GasUsed * BaseFee differs from the total balance before: (a) the gas limit 1
is below the gas consumed, and the refund wraps; (b) the recipient is empty
and the value 5 is credited to nobody; (c) the upfront cost 2^32 * 2^32
wraps to 0; (d) the miner's balance 2^64 - 1 wraps when the tip is added;
(e) one account object is stored under the sender's address "A" and under the
miner's address "M", so the debit and the tip are each counted under both
addresses: the balances of all addresses sum to 100000 before and to 57993
after, and the burn is 21000; (f) one account object is stored under the
recipient's address "B" and under a third address "C", so the value 7 is
counted under both: the balances sum to 50000 before and to 29007 after, and
the burn is 21000. -/
theorem C4_burn_invariant_counterexample :
    ((validator.ValidateTransaction (testTx 0 1 1 0) 1 (testState 0 1)).1 = none ∧
      totalBalance (executor.ExecuteTransaction (testTx 0 1 1 0)
          (testBlock 1 "g" "h" 30000000 0 1)
          (validator.ValidateTransaction (testTx 0 1 1 0) 1 (testState 0 1)).2).2
        + (executor.ExecuteTransaction (testTx 0 1 1 0) (testBlock 1 "g" "h" 30000000 0 1)
          (validator.ValidateTransaction (testTx 0 1 1 0) 1 (testState 0 1)).2).1.GasUsed * 1
        ≠ totalBalance (testState 0 1)) ∧
    ((validator.ValidateTransaction { testTx 0 1 21000 5 with To := "" } 1
        (testState 0 21005)).1 = none ∧
      totalBalance (executor.ExecuteTransaction { testTx 0 1 21000 5 with To := "" }
          (testBlock 1 "g" "h" 30000000 0 1)
          (validator.ValidateTransaction { testTx 0 1 21000 5 with To := "" } 1
            (testState 0 21005)).2).2
        + (executor.ExecuteTransaction { testTx 0 1 21000 5 with To := "" }
          (testBlock 1 "g" "h" 30000000 0 1)
          (validator.ValidateTransaction { testTx 0 1 21000 5 with To := "" } 1
            (testState 0 21005)).2).1.GasUsed * 1
        ≠ totalBalance (testState 0 21005)) ∧
    ((validator.ValidateTransaction (testTx 0 4294967296 4294967296 0) 1 NewState).1 = none ∧
      totalBalance (executor.ExecuteTransaction (testTx 0 4294967296 4294967296 0)
          (testBlock 1 "g" "h" 30000000 0 1)
          (validator.ValidateTransaction (testTx 0 4294967296 4294967296 0) 1 NewState).2).2
        + (executor.ExecuteTransaction (testTx 0 4294967296 4294967296 0)
          (testBlock 1 "g" "h" 30000000 0 1)
          (validator.ValidateTransaction (testTx 0 4294967296 4294967296 0) 1
            NewState).2).1.GasUsed * 1
        ≠ totalBalance NewState) ∧
    ((validator.ValidateTransaction (testTx 1 2 21000 0) 1
        (testState2 42000 18446744073709551615)).1 = none ∧
      totalBalance (executor.ExecuteTransaction (testTx 1 2 21000 0)
          (testBlock 1 "g" "h" 30000000 0 1)
          (validator.ValidateTransaction (testTx 1 2 21000 0) 1
            (testState2 42000 18446744073709551615)).2).2
        + (executor.ExecuteTransaction (testTx 1 2 21000 0)
          (testBlock 1 "g" "h" 30000000 0 1)
          (validator.ValidateTransaction (testTx 1 2 21000 0) 1
            (testState2 42000 18446744073709551615)).2).1.GasUsed * 1
        ≠ totalBalance (testState2 42000 18446744073709551615)) ∧
    ((validator.ValidateTransaction (testTx 1 2 21000 7) 1 (testStateShared 50000)).1 = none ∧
      totalBalance (testStateShared 50000) = 100000 ∧
      totalBalance (executor.ExecuteTransaction (testTx 1 2 21000 7)
          (testBlock 1 "g" "h" 30000000 0 1)
          (validator.ValidateTransaction (testTx 1 2 21000 7) 1
            (testStateShared 50000)).2).2 = 57993 ∧
      (executor.ExecuteTransaction (testTx 1 2 21000 7)
          (testBlock 1 "g" "h" 30000000 0 1)
          (validator.ValidateTransaction (testTx 1 2 21000 7) 1
            (testStateShared 50000)).2).1.GasUsed * 1 = 21000 ∧
      57993 + 21000 ≠ 100000) ∧
    ((validator.ValidateTransaction (testTx 1 2 21000 7) 1 (testStateSharedRecipient 50000)).1
        = none ∧
      totalBalance (testStateSharedRecipient 50000) = 50000 ∧
      totalBalance (executor.ExecuteTransaction (testTx 1 2 21000 7)
          (testBlock 1 "g" "h" 30000000 0 1)
          (validator.ValidateTransaction (testTx 1 2 21000 7) 1
            (testStateSharedRecipient 50000)).2).2 = 29007 ∧
      (executor.ExecuteTransaction (testTx 1 2 21000 7)
          (testBlock 1 "g" "h" 30000000 0 1)
          (validator.ValidateTransaction (testTx 1 2 21000 7) 1
            (testStateSharedRecipient 50000)).2).1.GasUsed * 1 = 21000 ∧
      29007 + 21000 ≠ 50000) := by
  decide

/-- C4 (amended), the burn invariant: for a uint64 transaction and a uint64
state whose stored account pointers all designate an account, in which the
account object of the sender, that of the miner when the tip is not 0, and
that of a non-empty recipient when the value is not 0, are each stored under
one address only, if the transaction passes
ValidateTransaction at the block's base fee and is then executed, the
recipient is non-empty or the value is 0, the gas limit is at least the gas
consumed 21000 + 16 * len(Data), the upfront cost
GasLimit * MaxFeePerGas + Value is below 2^64, and the credits to a recipient
and to a miner other than the sender do not overflow 64 bits (the recipient's
balance plus the value, and the miner's balance plus the tip, plus the value
when the miner is the recipient, are below 2^64), then the sum of the balances
of all accounts decreases by exactly GasUsed * BaseFee, which is the amount
reported as BaseFeeAmount. -/
theorem C4_burn_invariant (tx : Transaction) (block : Block) (s : State)
    (htx : tx.IsU64) (hs : s.IsU64) (hwf : s.Valid)
    (hoF : s.Owns tx.From)
    (hoM : tx.EffectivePriorityFee block.BaseFee ≠ 0 → s.Owns block.Miner)
    (hoT : tx.To ≠ "" → tx.Value ≠ 0 → s.Owns tx.To)
    (hv : (validator.ValidateTransaction tx block.BaseFee s).1 = none)
    (hto : tx.To ≠ "" ∨ tx.Value = 0)
    (hgas : 21000 + 16 * tx.Data.length ≤ tx.GasLimit)
    (hcost : tx.GasLimit * tx.MaxFeePerGas + tx.Value < 2 ^ 64)
    (hrec : tx.To ≠ "" → tx.To ≠ tx.From → balanceOf s tx.To + tx.Value < 2 ^ 64)
    (hminer : block.Miner ≠ tx.From →
      balanceOf s block.Miner + (if tx.To = block.Miner then tx.Value else 0)
        + (21000 + 16 * tx.Data.length) * tx.EffectivePriorityFee block.BaseFee < 2 ^ 64) :
    totalBalance (executor.ExecuteTransaction tx block
        (validator.ValidateTransaction tx block.BaseFee s).2).2
      + (executor.ExecuteTransaction tx block
        (validator.ValidateTransaction tx block.BaseFee s).2).1.GasUsed * block.BaseFee
      = totalBalance s ∧
    (executor.ExecuteTransaction tx block
        (validator.ValidateTransaction tx block.BaseFee s).2).1.BaseFeeAmount
      = (executor.ExecuteTransaction tx block
        (validator.ValidateTransaction tx block.BaseFee s).2).1.GasUsed * block.BaseFee := by
  obtain ⟨hval, hpay, -⟩ := (ValidateTransaction_eq_none_iff tx block.BaseFee s).mp hv
  obtain ⟨hbf, -, -⟩ := (Validate_eq_none_iff tx block.BaseFee).mp hval
  have hgl : tx.GasLimit < 2 ^ 64 := htx.2.2.2.2.1
  have hmf : tx.MaxFeePerGas < 2 ^ 64 := htx.2.2.2.1
  have hguv := executeTransaction_eq tx (by omega)
  have hgu : executor.executeTransaction tx ≤ tx.GasLimit := by rw [hguv]; exact hgas
  obtain ⟨heff, -, -⟩ := effective_fee_facts tx block.BaseFee hbf hmf
  have href := refund_facts tx block.BaseFee hbf hmf hgl (by omega) hgu
  have hmc : tx.MaxCost = tx.GasLimit * tx.MaxFeePerGas + tx.Value := by
    rw [MaxCost_eq]; exact Nat.mod_eq_of_lt hcost
  have hb := (deref_isU64 hs tx.From).2
  have hsplit : executor.executeTransaction tx * tx.EffectiveGasPrice block.BaseFee
      = executor.executeTransaction tx * tx.EffectivePriorityFee block.BaseFee
        + executor.executeTransaction tx * block.BaseFee := by
    rw [heff, Nat.mul_add]
  have htip : mul64 (executor.executeTransaction tx) (tx.EffectivePriorityFee block.BaseFee)
      = executor.executeTransaction tx * tx.EffectivePriorityFee block.BaseFee :=
    mul64_of_lt (by omega)
  rw [← hguv] at hminer
  rw [balanceOf_eq] at hminer hrec
  have hB := prepared_Valid tx block hwf
  have lF := prepared_lookup_From tx block s
  have lM := prepared_lookup_Miner tx block s
  have hF := lookup_lt hB lF
  have hM := lookup_lt hB lM
  have oF := Owns_holders (prepared_Owns tx block hwf hoF) lF
  have oM : executor.executeTransaction tx * tx.EffectivePriorityFee block.BaseFee ≠ 0 →
      (preparedState tx block s).holders (minerPtr tx block s) = 1 := by
    intro h0
    refine Owns_holders (prepared_Owns tx block hwf (hoM ?_)) lM
    intro hp
    rw [hp, Nat.mul_zero] at h0
    exact h0 rfl
  have bF := (prepared_load_From tx block s).1
  have bM := prepared_load_Miner tx block s
  have hMF : minerPtr tx block s ≠ senderPtr tx s → block.Miner ≠ tx.From := by
    intro hne hadr
    rw [hadr, lF] at lM
    exact hne (Option.some.inj lM).symm
  have hTF : tx.To ≠ "" → recipientPtr tx block s ≠ senderPtr tx s → tx.To ≠ tx.From := by
    intro hne0 hne hadr
    have lT := prepared_lookup_To tx block s hne0
    rw [hadr, lF] at lT
    exact hne (Option.some.inj lT).symm
  have hTM : tx.To ≠ "" → tx.Value ≠ 0 → recipientPtr tx block s = minerPtr tx block s →
      tx.To = block.Miner := by
    intro hne0 hv0 heq
    by_contra hadr
    exact Owns_ne (prepared_Owns tx block hwf (hoT hne0 hv0)) hadr
      (prepared_lookup_To tx block s hne0) lM heq
  have key := total_chain (preparedState tx block s) (senderPtr tx s) (minerPtr tx block s)
    (recipientPtr tx block s) tx.MaxCost (refundAmount tx block.BaseFee) tx.Value
    (executor.executeTransaction tx * tx.EffectivePriorityFee block.BaseFee) (tx.To ≠ "")
    hF hM (fun h0 => lookup_lt hB (prepared_lookup_To tx block s h0)) oF oM
    (fun h0 hv0 => Owns_holders (prepared_Owns tx block hwf (hoT h0 hv0))
      (prepared_lookup_To tx block s h0))
    (by rw [bF]; exact hpay) (by rw [bF]; exact hb) (by omega)
    (fun h0 => by
      rcases hto with h | h
      · exact absurd h h0
      · exact h)
    (fun h0 hne => by
      rw [prepared_load_To tx block s h0]
      exact hrec h0 (hTF h0 hne))
    (fun hne => by
      have h1 := hminer (hMF hne)
      rw [bM]
      by_cases hc : tx.To ≠ "" ∧ recipientPtr tx block s = minerPtr tx block s
      · rw [if_pos hc]
        by_cases hv0 : tx.Value = 0
        · rw [hv0] at h1 ⊢
          split at h1 <;> omega
        · rw [if_pos (hTM hc.1 hv0 hc.2)] at h1
          exact h1
      · rw [if_neg hc]
        split at h1 <;> omega)
  rw [ExecuteTransaction_after_validate, ExecuteTransaction_success tx block s hpay]
  simp only
  rw [total_successState, creditedState_eq tx block hwf, htip]
  rw [prepared_total tx block hwf] at key
  refine ⟨by omega, ?_⟩
  apply mul64_of_lt
  omega

theorem C4_burn_invariant_witness :
    totalBalance (executor.ExecuteTransaction (testTx 2000000000 5000000000 21000 1000)
        (testBlock 1 "g" "h" 30000000 0 1000000000)
        (validator.ValidateTransaction (testTx 2000000000 5000000000 21000 1000)
          (testBlock 1 "g" "h" 30000000 0 1000000000).BaseFee
          (testState2 9223372036854775808 9223372036854775808)).2).2
      + (executor.ExecuteTransaction (testTx 2000000000 5000000000 21000 1000)
        (testBlock 1 "g" "h" 30000000 0 1000000000)
        (validator.ValidateTransaction (testTx 2000000000 5000000000 21000 1000)
          (testBlock 1 "g" "h" 30000000 0 1000000000).BaseFee
          (testState2 9223372036854775808 9223372036854775808)).2).1.GasUsed
        * (testBlock 1 "g" "h" 30000000 0 1000000000).BaseFee
      = totalBalance (testState2 9223372036854775808 9223372036854775808) ∧
    (executor.ExecuteTransaction (testTx 2000000000 5000000000 21000 1000)
        (testBlock 1 "g" "h" 30000000 0 1000000000)
        (validator.ValidateTransaction (testTx 2000000000 5000000000 21000 1000)
          (testBlock 1 "g" "h" 30000000 0 1000000000).BaseFee
          (testState2 9223372036854775808 9223372036854775808)).2).1.BaseFeeAmount
      = (executor.ExecuteTransaction (testTx 2000000000 5000000000 21000 1000)
        (testBlock 1 "g" "h" 30000000 0 1000000000)
        (validator.ValidateTransaction (testTx 2000000000 5000000000 21000 1000)
          (testBlock 1 "g" "h" 30000000 0 1000000000).BaseFee
          (testState2 9223372036854775808 9223372036854775808)).2).1.GasUsed
        * (testBlock 1 "g" "h" 30000000 0 1000000000).BaseFee :=
  C4_burn_invariant (testTx 2000000000 5000000000 21000 1000)
    (testBlock 1 "g" "h" 30000000 0 1000000000) (testState2 9223372036854775808 9223372036854775808)
    (by decide) (by decide) (by decide) (by decide) (fun _ => by decide)
    (fun _ _ => by decide) (by decide) (by decide) (by decide) (by decide)
    (fun _ _ => by decide) (fun _ => by decide)

/-! ### The balances after a successful run -/

/-- C3 as stated fails: one account object with balance 50000 is stored under
the sender's address "A" and under the miner's address "M", which differ from
each other and from the recipient's address "B".  A transaction with tip cap 1,
fee cap 2, gas limit 21000 and value 7 passes ValidateTransaction at base fee
1 and nothing overflows; after ExecuteTransaction both "A" and "M" read 28993.
The sender's balance has decreased by 21007, not by GasUsed *
EffectiveGasPrice + Value = 42007, and the miner's balance has not increased
by the tip 21000. -/
theorem C3_execution_balances_counterexample :
    (testTx 1 2 21000 7).From ≠ (testTx 1 2 21000 7).To ∧
    (testTx 1 2 21000 7).From ≠ (testBlock 1 "g" "h" 30000000 0 1).Miner ∧
    (testTx 1 2 21000 7).To ≠ (testBlock 1 "g" "h" 30000000 0 1).Miner ∧
    (testTx 1 2 21000 7).To ≠ "" ∧
    (testTx 1 2 21000 7).IsU64 ∧ (testStateShared 50000).IsU64 ∧
    (testStateShared 50000).Valid ∧
    (validator.ValidateTransaction (testTx 1 2 21000 7) 1 (testStateShared 50000)).1 = none ∧
    21000 + 16 * (testTx 1 2 21000 7).Data.length ≤ (testTx 1 2 21000 7).GasLimit ∧
    (testTx 1 2 21000 7).GasLimit * (testTx 1 2 21000 7).MaxFeePerGas
      + (testTx 1 2 21000 7).Value < 2 ^ 64 ∧
    balanceOf (testStateShared 50000) "M" + 21000 * 1 < 2 ^ 64 ∧
    balanceOf (testStateShared 50000) "B" + 7 < 2 ^ 64 ∧
    balanceOf (testStateShared 50000) "A" = 50000 ∧
    balanceOf (testStateShared 50000) "M" = 50000 ∧
    (executor.ExecuteTransaction (testTx 1 2 21000 7) (testBlock 1 "g" "h" 30000000 0 1)
      (validator.ValidateTransaction (testTx 1 2 21000 7) 1
        (testStateShared 50000)).2).1.GasUsed = 21000 ∧
    (testTx 1 2 21000 7).EffectiveGasPrice 1 = 2 ∧
    (testTx 1 2 21000 7).EffectivePriorityFee 1 = 1 ∧
    balanceOf (executor.ExecuteTransaction (testTx 1 2 21000 7)
      (testBlock 1 "g" "h" 30000000 0 1)
      (validator.ValidateTransaction (testTx 1 2 21000 7) 1
        (testStateShared 50000)).2).2 "A" = 28993 ∧
    balanceOf (executor.ExecuteTransaction (testTx 1 2 21000 7)
      (testBlock 1 "g" "h" 30000000 0 1)
      (validator.ValidateTransaction (testTx 1 2 21000 7) 1
        (testStateShared 50000)).2).2 "M" = 28993 ∧
    28993 + (21000 * 2 + 7) ≠ 50000 ∧
    28993 ≠ 50000 + 21000 * 1 := by
  decide

/-- C3 (amended): for a uint64 transaction and a uint64 state whose stored
account pointers all designate an account, in which sender, non-empty
recipient and miner are pairwise distinct addresses that hold pairwise
distinct account objects, the transaction passes ValidateTransaction at the
block's base fee, the gas limit is at least the gas consumed
21000 + 16 * len(Data), and neither the upfront cost nor the credits to miner
and recipient overflow 64 bits: after ExecuteTransaction the sender's balance
has decreased by exactly GasUsed * EffectiveGasPrice + Value, the miner's
balance has increased by exactly GasUsed * EffectivePriorityFee, and the
recipient's balance has increased by exactly Value. -/
theorem C3_execution_balances (tx : Transaction) (block : Block) (s : State)
    (htx : tx.IsU64) (hs : s.IsU64) (hwf : s.Valid)
    (hd1 : tx.From ≠ tx.To) (hd2 : tx.From ≠ block.Miner) (hd3 : tx.To ≠ block.Miner)
    (hsh1 : s.Distinct tx.From tx.To) (hsh2 : s.Distinct tx.From block.Miner)
    (hsh3 : s.Distinct tx.To block.Miner)
    (hto : tx.To ≠ "")
    (hv : (validator.ValidateTransaction tx block.BaseFee s).1 = none)
    (hgas : 21000 + 16 * tx.Data.length ≤ tx.GasLimit)
    (hcost : tx.GasLimit * tx.MaxFeePerGas + tx.Value < 2 ^ 64)
    (hminer : balanceOf s block.Miner
      + (21000 + 16 * tx.Data.length) * tx.EffectivePriorityFee block.BaseFee < 2 ^ 64)
    (hrec : balanceOf s tx.To + tx.Value < 2 ^ 64) :
    balanceOf (executor.ExecuteTransaction tx block
        (validator.ValidateTransaction tx block.BaseFee s).2).2 tx.From
      + ((executor.ExecuteTransaction tx block
          (validator.ValidateTransaction tx block.BaseFee s).2).1.GasUsed
          * tx.EffectiveGasPrice block.BaseFee + tx.Value)
      = balanceOf s tx.From ∧
    balanceOf (executor.ExecuteTransaction tx block
        (validator.ValidateTransaction tx block.BaseFee s).2).2 block.Miner
      = balanceOf s block.Miner
        + (executor.ExecuteTransaction tx block
          (validator.ValidateTransaction tx block.BaseFee s).2).1.GasUsed
          * tx.EffectivePriorityFee block.BaseFee ∧
    balanceOf (executor.ExecuteTransaction tx block
        (validator.ValidateTransaction tx block.BaseFee s).2).2 tx.To
      = balanceOf s tx.To + tx.Value := by
  obtain ⟨hval, hpay, -⟩ := (ValidateTransaction_eq_none_iff tx block.BaseFee s).mp hv
  obtain ⟨hbf, -, -⟩ := (Validate_eq_none_iff tx block.BaseFee).mp hval
  have hgl : tx.GasLimit < 2 ^ 64 := htx.2.2.2.2.1
  have hmf : tx.MaxFeePerGas < 2 ^ 64 := htx.2.2.2.1
  have hguv := executeTransaction_eq tx (by omega)
  have hgu : executor.executeTransaction tx ≤ tx.GasLimit := by rw [hguv]; exact hgas
  obtain ⟨heff, -, -⟩ := effective_fee_facts tx block.BaseFee hbf hmf
  have href := refund_facts tx block.BaseFee hbf hmf hgl (by omega) hgu
  have hmc : tx.MaxCost = tx.GasLimit * tx.MaxFeePerGas + tx.Value := by
    rw [MaxCost_eq]; exact Nat.mod_eq_of_lt hcost
  have hb := (deref_isU64 hs tx.From).2
  rw [← hguv] at hminer
  rw [balanceOf_eq] at hminer hrec
  have hB := prepared_Valid tx block hwf
  have lF := prepared_lookup_From tx block s
  have lM := prepared_lookup_Miner tx block s
  have lT := prepared_lookup_To tx block s hto
  have hF := lookup_lt hB lF
  have hM := lookup_lt hB lM
  have hT := lookup_lt hB lT
  have nFT := Distinct_ne (prepared_Distinct tx block hwf hd1 hsh1) lF lT
  have nFM := Distinct_ne (prepared_Distinct tx block hwf hd2 hsh2) lF lM
  have nTM := Distinct_ne (prepared_Distinct tx block hwf hd3 hsh3) lT lM
  have bF := (prepared_load_From tx block s).1
  have bM := prepared_load_Miner tx block s
  have bT := prepared_load_To tx block s hto
  rw [ExecuteTransaction_after_validate, ExecuteTransaction_success tx block s hpay]
  simp only [balanceOf_eq]
  rw [deref_of_some ((successState_lookup tx block hwf _).trans lF),
    deref_of_some ((successState_lookup tx block hwf _).trans lM),
    deref_of_some ((successState_lookup tx block hwf _).trans lT),
    successState_eq tx block hwf]
  simp only [load_update, update_length, hF, hM, hT, and_true, if_true, nFT, nFM, nTM,
    nFT.symm, nFM.symm, nTM.symm, if_false, hto, ne_eq, not_false_eq_true,
    IncrementNonce_Balance, Add_Balance, bF, bM, bT]
  have htip : mul64 (executor.executeTransaction tx) (tx.EffectivePriorityFee block.BaseFee)
      = executor.executeTransaction tx * tx.EffectivePriorityFee block.BaseFee :=
    mul64_of_lt (by omega)
  rw [htip, add64_of_lt hminer, add64_of_lt hrec, sub64_of_le hpay hb,
    add64_of_lt (by omega)]
  refine ⟨by omega, rfl, rfl⟩

theorem C3_execution_balances_witness :
    balanceOf (executor.ExecuteTransaction (testTx 2000000000 5000000000 21000 1000)
        (testBlock 1 "g" "h" 30000000 0 1000000000)
        (validator.ValidateTransaction (testTx 2000000000 5000000000 21000 1000)
          (testBlock 1 "g" "h" 30000000 0 1000000000).BaseFee (testState 0 1000000000000000)).2).2 (testTx 2000000000 5000000000 21000 1000).From
      + ((executor.ExecuteTransaction (testTx 2000000000 5000000000 21000 1000)
        (testBlock 1 "g" "h" 30000000 0 1000000000)
        (validator.ValidateTransaction (testTx 2000000000 5000000000 21000 1000)
          (testBlock 1 "g" "h" 30000000 0 1000000000).BaseFee (testState 0 1000000000000000)).2).1.GasUsed
          * (testTx 2000000000 5000000000 21000 1000).EffectiveGasPrice (testBlock 1 "g" "h" 30000000 0 1000000000).BaseFee
          + (testTx 2000000000 5000000000 21000 1000).Value)
      = balanceOf (testState 0 1000000000000000) (testTx 2000000000 5000000000 21000 1000).From ∧
    balanceOf (executor.ExecuteTransaction (testTx 2000000000 5000000000 21000 1000)
        (testBlock 1 "g" "h" 30000000 0 1000000000)
        (validator.ValidateTransaction (testTx 2000000000 5000000000 21000 1000)
          (testBlock 1 "g" "h" 30000000 0 1000000000).BaseFee (testState 0 1000000000000000)).2).2 (testBlock 1 "g" "h" 30000000 0 1000000000).Miner
      = balanceOf (testState 0 1000000000000000) (testBlock 1 "g" "h" 30000000 0 1000000000).Miner
        + (executor.ExecuteTransaction (testTx 2000000000 5000000000 21000 1000)
        (testBlock 1 "g" "h" 30000000 0 1000000000)
        (validator.ValidateTransaction (testTx 2000000000 5000000000 21000 1000)
          (testBlock 1 "g" "h" 30000000 0 1000000000).BaseFee (testState 0 1000000000000000)).2).1.GasUsed
          * (testTx 2000000000 5000000000 21000 1000).EffectivePriorityFee (testBlock 1 "g" "h" 30000000 0 1000000000).BaseFee ∧
    balanceOf (executor.ExecuteTransaction (testTx 2000000000 5000000000 21000 1000)
        (testBlock 1 "g" "h" 30000000 0 1000000000)
        (validator.ValidateTransaction (testTx 2000000000 5000000000 21000 1000)
          (testBlock 1 "g" "h" 30000000 0 1000000000).BaseFee (testState 0 1000000000000000)).2).2 (testTx 2000000000 5000000000 21000 1000).To
      = balanceOf (testState 0 1000000000000000) (testTx 2000000000 5000000000 21000 1000).To + (testTx 2000000000 5000000000 21000 1000).Value :=
  C3_execution_balances (testTx 2000000000 5000000000 21000 1000) (testBlock 1 "g" "h" 30000000 0 1000000000) (testState 0 1000000000000000)
    (by decide) (by decide) (by decide) (by decide) (by decide) (by decide) (by decide)
    (by decide) (by decide) (by decide) (by decide) (by decide) (by decide) (by decide)
    (by decide)

/-! ## Base fee above the target -/

theorem spec_above (parent : Block) (h : parent.GasUsed > parent.GasLimit / 2) :
    specNextBaseFee parent
      = ((parent.BaseFee + Max.max (parent.BaseFee
          * (parent.GasUsed - parent.GasLimit / 2) / (parent.GasLimit / 2) / 8) 1 : Nat) : Int) := by
  have hcast : ((parent.GasLimit : Int) / 2) = ((parent.GasLimit / 2 : Nat) : Int) := by
    push_cast; rfl
  have h1i : ¬ ((parent.GasUsed : Int) = ((parent.GasLimit / 2 : Nat) : Int)) := by
    have : parent.GasUsed ≠ parent.GasLimit / 2 := by omega
    exact_mod_cast this
  have h2i : ((parent.GasUsed : Int) > ((parent.GasLimit / 2 : Nat) : Int)) := by
    exact_mod_cast h
  unfold specNextBaseFee
  simp only
  rw [hcast]
  simp only [h1i, h2i, if_true, if_false]
  rw [max_comm]
  push_cast [Nat.cast_sub (le_of_lt h)]
  rfl

/-- C10 as stated fails, in two ways: (a) with gas limit 0 and gas used 1 the
target is 0 and Calculate panics on the division, returning no fee; (b) with
base fee 2^64 - 1, gas limit 2 and gas used 2 the new fee wraps around to
2305843009213693950, which is below the parent's base fee. -/
theorem C10_increase_counterexample :
    ((testParent 0 0 1 1).IsU64 ∧
      (testParent 0 0 1 1).Number + 1 ≠ constants.ForkBlockNumber ∧
      (testParent 0 0 1 1).GasUsed > (testParent 0 0 1 1).GasLimit / 2 ∧
      (testParent 0 0 1 1).BaseFee > 0 ∧
      basefee.Calculate (testParent 0 0 1 1) = none) ∧
    ((testParent 0 2 2 18446744073709551615).IsU64 ∧
      (testParent 0 2 2 18446744073709551615).Number + 1 ≠ constants.ForkBlockNumber ∧
      (testParent 0 2 2 18446744073709551615).GasUsed
        > (testParent 0 2 2 18446744073709551615).GasLimit / 2 ∧
      (testParent 0 2 2 18446744073709551615).BaseFee > 0 ∧
      basefee.Calculate (testParent 0 2 2 18446744073709551615) = some 2305843009213693950 ∧
      ¬ 2305843009213693950 > (testParent 0 2 2 18446744073709551615).BaseFee) := by
  decide

/-- C10 (amended): for every uint64 parent block that is not the fork
predecessor, with gas limit at least 2 (target at least 1), gas used above the
target, base fee above 0, and the exact new fee
BaseFee + max(1, BaseFee * (GasUsed - target) / target / 8) below 2^64,
Calculate returns a fee strictly greater than the parent's base fee. -/
theorem C10_increase (parent : Block) (hu : parent.IsU64)
    (hfork : parent.Number + 1 ≠ constants.ForkBlockNumber)
    (hlimit : 2 ≤ parent.GasLimit)
    (habove : parent.GasUsed > parent.GasLimit / 2)
    (_hfee : parent.BaseFee > 0)
    (hres : specNextBaseFee parent < 2 ^ 64) :
    ∃ fee, basefee.Calculate parent = some fee ∧ fee > parent.BaseFee := by
  obtain ⟨hn, hl, hg, hb, -⟩ := hu
  have hf : add64 parent.Number 1 ≠ constants.ForkBlockNumber :=
    fun h => hfork ((fork_test_iff hn).mp h)
  have ht0 : parent.GasLimit / 2 ≠ 0 := by omega
  have h1 : parent.GasUsed ≠ parent.GasLimit / 2 := by omega
  rw [spec_above parent habove] at hres
  have hlt : parent.BaseFee + Max.max (parent.BaseFee
      * (parent.GasUsed - parent.GasLimit / 2) / (parent.GasLimit / 2) / 8) 1 < 2 ^ 64 := by
    exact_mod_cast hres
  have hs := sub64_of_le (le_of_lt habove) hg
  have hq : mul64 parent.BaseFee (parent.GasUsed - parent.GasLimit / 2) / (parent.GasLimit / 2) / 8
      ≤ parent.BaseFee * (parent.GasUsed - parent.GasLimit / 2) / (parent.GasLimit / 2) / 8 :=
    Nat.div_le_div_right (Nat.div_le_div_right (mul64_le _ _))
  unfold basefee.Calculate
  simp only [hf, h1, habove, if_true, if_false, constants.ElasticityMultiplier,
    constants.BaseFeeChangeDenominator, div64, ht0, Option.map_some', max_eq_max, hs]
  refine ⟨_, rfl, ?_⟩
  rw [add64_of_lt (by omega)]
  omega

theorem C10_increase_witness :
    ∃ fee, basefee.Calculate (testParent 12965000 30000000 20000000 1000000000) = some fee ∧
      fee > (testParent 12965000 30000000 20000000 1000000000).BaseFee :=
  C10_increase (testParent 12965000 30000000 20000000 1000000000)
    (by decide) (by decide) (by decide) (by decide) (by decide) (by decide)

/-! ## Base fee below, at and just above the target -/

theorem add64_le (a b : Nat) : add64 a b ≤ a + b := by
  unfold add64; exact Nat.mod_le _ _

theorem Calculate_below (parent : Block) (hu : parent.IsU64)
    (hfork : parent.Number + 1 ≠ constants.ForkBlockNumber)
    (hbelow : parent.GasUsed < parent.GasLimit / 2) :
    basefee.Calculate parent
      = some (parent.BaseFee - (parent.BaseFee * (parent.GasLimit / 2 - parent.GasUsed)) % 2 ^ 64
          / (parent.GasLimit / 2) / 8) ∧
    (parent.BaseFee * (parent.GasLimit / 2 - parent.GasUsed)) % 2 ^ 64
        / (parent.GasLimit / 2) / 8 ≤ parent.BaseFee / 8 := by
  obtain ⟨hn, hl, hg, hb, -⟩ := hu
  have hf : add64 parent.Number 1 ≠ constants.ForkBlockNumber :=
    fun h => hfork ((fork_test_iff hn).mp h)
  have ht0 : parent.GasLimit / 2 ≠ 0 := by omega
  have h1 : parent.GasUsed ≠ parent.GasLimit / 2 := by omega
  have h2 : ¬ parent.GasUsed > parent.GasLimit / 2 := by omega
  have hs : sub64 (parent.GasLimit / 2) parent.GasUsed = parent.GasLimit / 2 - parent.GasUsed :=
    sub64_of_le (le_of_lt hbelow) (by omega)
  have hq : (parent.BaseFee * (parent.GasLimit / 2 - parent.GasUsed)) % 2 ^ 64
      / (parent.GasLimit / 2) ≤ parent.BaseFee := by
    apply Nat.div_le_of_le_mul
    calc (parent.BaseFee * (parent.GasLimit / 2 - parent.GasUsed)) % 2 ^ 64
        ≤ parent.BaseFee * (parent.GasLimit / 2 - parent.GasUsed) := Nat.mod_le _ _
      _ ≤ parent.BaseFee * (parent.GasLimit / 2) := Nat.mul_le_mul_left _ (Nat.sub_le _ _)
      _ = parent.GasLimit / 2 * parent.BaseFee := Nat.mul_comm _ _
  have hq8 : (parent.BaseFee * (parent.GasLimit / 2 - parent.GasUsed)) % 2 ^ 64
      / (parent.GasLimit / 2) / 8 ≤ parent.BaseFee / 8 := Nat.div_le_div_right hq
  refine ⟨?_, hq8⟩
  have hle : (parent.BaseFee * (parent.GasLimit / 2 - parent.GasUsed)) % 2 ^ 64
      / (parent.GasLimit / 2) / 8 ≤ parent.BaseFee := by omega
  unfold basefee.Calculate
  simp only [hf, h1, h2, if_false, constants.ElasticityMultiplier,
    constants.BaseFeeChangeDenominator, div64, ht0, Option.map_some', hs, mul64,
    not_lt.mpr hle, sub64_of_le hle hb]

theorem Calculate_above (parent : Block) (hu : parent.IsU64)
    (hfork : parent.Number + 1 ≠ constants.ForkBlockNumber)
    (habove : parent.GasUsed > parent.GasLimit / 2) (ht0 : parent.GasLimit / 2 ≠ 0) :
    basefee.Calculate parent
      = some ((parent.BaseFee + Max.max
          ((parent.BaseFee * (parent.GasUsed - parent.GasLimit / 2)) % 2 ^ 64
            / (parent.GasLimit / 2) / 8) 1) % 2 ^ 64) := by
  obtain ⟨hn, hl, hg, hb, -⟩ := hu
  have hf : add64 parent.Number 1 ≠ constants.ForkBlockNumber :=
    fun h => hfork ((fork_test_iff hn).mp h)
  have h1 : parent.GasUsed ≠ parent.GasLimit / 2 := by omega
  have hs := sub64_of_le (le_of_lt habove) hg
  unfold basefee.Calculate
  rw [if_neg hf]
  simp only [h1, habove, if_true, if_false, constants.ElasticityMultiplier,
    constants.BaseFeeChangeDenominator, div64, ht0, Option.map_some', max_eq_max, hs, mul64,
    add64]

/-- C11 as stated fails: with base fee 1, gas limit 30000000 and gas used 0 the
decrease 1 * 15000000 / 15000000 / 8 is 0 and the fee stays 1. -/
theorem C11_decrease_counterexample :
    (testParent 0 30000000 0 1).IsU64 ∧
    (testParent 0 30000000 0 1).Number + 1 ≠ constants.ForkBlockNumber ∧
    (testParent 0 30000000 0 1).GasUsed < (testParent 0 30000000 0 1).GasLimit / 2 ∧
    (testParent 0 30000000 0 1).BaseFee > 0 ∧
    basefee.Calculate (testParent 0 30000000 0 1) = some 1 ∧
    ¬ 1 < (testParent 0 30000000 0 1).BaseFee := by
  decide

/-- C11 (amended): for every uint64 parent block that is not the fork
predecessor, with gas used below the target and base fee above 0, Calculate
returns a fee that is at most the parent's base fee, and the fee is strictly
less than the parent's base fee exactly when BaseFee * (target - GasUsed),
reduced modulo 2^64 as uint64 arithmetic computes it, is at least 8 * target. -/
theorem C11_decrease (parent : Block) (hu : parent.IsU64)
    (hfork : parent.Number + 1 ≠ constants.ForkBlockNumber)
    (hbelow : parent.GasUsed < parent.GasLimit / 2)
    (_hfee : parent.BaseFee > 0) :
    ∃ fee, basefee.Calculate parent = some fee ∧ fee ≤ parent.BaseFee ∧
      (fee < parent.BaseFee ↔
        8 * (parent.GasLimit / 2)
          ≤ (parent.BaseFee * (parent.GasLimit / 2 - parent.GasUsed)) % 2 ^ 64) := by
  obtain ⟨hc, hq⟩ := Calculate_below parent hu hfork hbelow
  refine ⟨_, hc, Nat.sub_le _ _, ?_⟩
  have ht : 0 < parent.GasLimit / 2 := by omega
  have h8 : 8 * (parent.GasLimit / 2)
        ≤ (parent.BaseFee * (parent.GasLimit / 2 - parent.GasUsed)) % 2 ^ 64 ↔
      1 ≤ (parent.BaseFee * (parent.GasLimit / 2 - parent.GasUsed)) % 2 ^ 64
          / (parent.GasLimit / 2) / 8 := by
    rw [Nat.le_div_iff_mul_le (by norm_num), Nat.le_div_iff_mul_le ht]
  rw [h8]
  omega

theorem C11_decrease_witness :
    ∃ fee, basefee.Calculate (testParent 12965000 30000000 10000000 1000000000) = some fee ∧
      fee ≤ (testParent 12965000 30000000 10000000 1000000000).BaseFee ∧
      (fee < (testParent 12965000 30000000 10000000 1000000000).BaseFee ↔
        8 * ((testParent 12965000 30000000 10000000 1000000000).GasLimit / 2)
          ≤ ((testParent 12965000 30000000 10000000 1000000000).BaseFee
              * ((testParent 12965000 30000000 10000000 1000000000).GasLimit / 2
                - (testParent 12965000 30000000 10000000 1000000000).GasUsed)) % 2 ^ 64) :=
  C11_decrease (testParent 12965000 30000000 10000000 1000000000)
    (by decide) (by decide) (by decide) (by decide)

/-- C12: for a uint64 parent block that is not the fork predecessor and whose
gas used equals its gas limit divided by 2 (truncating), whatever the gas
limit (0 and 1 included) and the base fee, Calculate returns the parent's base
fee. -/
theorem C12_unchanged_at_target (parent : Block) (hu : parent.IsU64)
    (hfork : parent.Number + 1 ≠ constants.ForkBlockNumber)
    (htarget : parent.GasUsed = parent.GasLimit / 2) :
    basefee.Calculate parent = some parent.BaseFee := by
  have hf : add64 parent.Number 1 ≠ constants.ForkBlockNumber :=
    fun h => hfork ((fork_test_iff hu.1).mp h)
  unfold basefee.Calculate
  simp only [hf, if_false, constants.ElasticityMultiplier, htarget, if_true]

theorem C12_unchanged_at_target_witness :
    basefee.Calculate (testParent 5 1 0 7) = some (testParent 5 1 0 7).BaseFee :=
  C12_unchanged_at_target (testParent 5 1 0 7) (by decide) (by decide) (by decide)

/-- C13, the minimum-increase guarantee: for a uint64 parent block that is not
the fork predecessor, with target at least 1, gas used equal to the target
plus 1 and base fee 1, Calculate returns a fee greater than 1. -/
theorem C13_minimum_increase (parent : Block) (hu : parent.IsU64)
    (hfork : parent.Number + 1 ≠ constants.ForkBlockNumber)
    (htarget : 1 ≤ parent.GasLimit / 2)
    (hused : parent.GasUsed = parent.GasLimit / 2 + 1)
    (hfee : parent.BaseFee = 1) :
    ∃ fee, basefee.Calculate parent = some fee ∧ fee > 1 := by
  have hc := Calculate_above parent hu hfork (by omega) (by omega)
  refine ⟨_, hc, ?_⟩
  have hd : parent.GasUsed - parent.GasLimit / 2 = 1 := by omega
  rw [hfee, hd]
  have h11 : 1 * 1 % 2 ^ 64 = 1 := by norm_num
  have hq : 1 / (parent.GasLimit / 2) / 8 = 0 :=
    Nat.div_eq_of_lt (lt_of_le_of_lt (Nat.div_le_self 1 _) (by norm_num))
  rw [h11, hq]
  decide

theorem C13_minimum_increase_witness :
    ∃ fee, basefee.Calculate (testParent 12965000 30000000 15000001 1) = some fee ∧ fee > 1 :=
  C13_minimum_increase (testParent 12965000 30000000 15000001 1)
    (by decide) (by decide) (by decide) (by decide) (by decide)

/-- C14: for every uint64 parent block that is not the fork predecessor, with
gas used below the target, also when BaseFee * (target - GasUsed) wraps modulo
2^64: Calculate returns a fee between BaseFee - BaseFee / 8 and BaseFee, and
the computed decrease never exceeds the base fee, so the clamp to zero is
never taken. -/
theorem C14_decrease_bounded (parent : Block) (hu : parent.IsU64)
    (hfork : parent.Number + 1 ≠ constants.ForkBlockNumber)
    (hbelow : parent.GasUsed < parent.GasLimit / 2) :
    (∃ fee, basefee.Calculate parent = some fee ∧
      parent.BaseFee - parent.BaseFee / 8 ≤ fee ∧ fee ≤ parent.BaseFee) ∧
    ¬ (mul64 parent.BaseFee (sub64 (parent.GasLimit / constants.ElasticityMultiplier)
          parent.GasUsed) / (parent.GasLimit / constants.ElasticityMultiplier)
        / constants.BaseFeeChangeDenominator > parent.BaseFee) := by
  obtain ⟨hc, hq⟩ := Calculate_below parent hu hfork hbelow
  have hs : sub64 (parent.GasLimit / 2) parent.GasUsed = parent.GasLimit / 2 - parent.GasUsed :=
    sub64_of_le (le_of_lt hbelow) (by have := hu.2.1; omega)
  refine ⟨⟨_, hc, by omega, Nat.sub_le _ _⟩, ?_⟩
  simp only [constants.ElasticityMultiplier, constants.BaseFeeChangeDenominator, hs, mul64]
  omega

theorem C14_decrease_bounded_witness :
    (∃ fee, basefee.Calculate (testParent 0 8 1 18446744073709551615) = some fee ∧
      (testParent 0 8 1 18446744073709551615).BaseFee
          - (testParent 0 8 1 18446744073709551615).BaseFee / 8 ≤ fee ∧
      fee ≤ (testParent 0 8 1 18446744073709551615).BaseFee) ∧
    ¬ (mul64 (testParent 0 8 1 18446744073709551615).BaseFee
          (sub64 ((testParent 0 8 1 18446744073709551615).GasLimit
              / constants.ElasticityMultiplier)
            (testParent 0 8 1 18446744073709551615).GasUsed)
          / ((testParent 0 8 1 18446744073709551615).GasLimit / constants.ElasticityMultiplier)
        / constants.BaseFeeChangeDenominator
        > (testParent 0 8 1 18446744073709551615).BaseFee) :=
  C14_decrease_bounded (testParent 0 8 1 18446744073709551615)
    (by decide) (by decide) (by decide)

/-- C15 as stated fails, in two ways: (a) with the odd gas limit 3 the target
is 1, a full block has gas used 3, two targets' worth above the target, and
from base fee 8 the fee rises by 2, more than max(1, 8 / 8) = 1; (b) with gas
limit 1 and gas used 1 the target is 0 and Calculate panics on the division,
returning no fee. -/
theorem C15_increase_bounded_counterexample :
    ((testParent 0 3 3 8).Number + 1 ≠ constants.ForkBlockNumber ∧
      (testParent 0 3 3 8).GasUsed ≤ (testParent 0 3 3 8).GasLimit ∧
      (testParent 0 3 3 8).GasUsed > (testParent 0 3 3 8).GasLimit / 2 ∧
      basefee.Calculate (testParent 0 3 3 8) = some 10 ∧
      ¬ 10 - (testParent 0 3 3 8).BaseFee ≤ Max.max 1 ((testParent 0 3 3 8).BaseFee / 8)) ∧
    ((testParent 0 1 1 8).Number + 1 ≠ constants.ForkBlockNumber ∧
      (testParent 0 1 1 8).GasUsed ≤ (testParent 0 1 1 8).GasLimit ∧
      (testParent 0 1 1 8).GasUsed > (testParent 0 1 1 8).GasLimit / 2 ∧
      basefee.Calculate (testParent 0 1 1 8) = none) := by
  decide

/-- C15 (amended): for every uint64 parent block that is not the fork
predecessor, with gas used above the target and at most twice the target
(which is the block invariant GasUsed <= GasLimit when the gas limit is even),
Calculate returns a fee, and the fee exceeds the parent's base fee by at most
max(1, BaseFee / 8). -/
theorem C15_increase_bounded (parent : Block) (hu : parent.IsU64)
    (hfork : parent.Number + 1 ≠ constants.ForkBlockNumber)
    (hcap : parent.GasUsed ≤ 2 * (parent.GasLimit / 2))
    (habove : parent.GasUsed > parent.GasLimit / 2) :
    ∃ fee, basefee.Calculate parent = some fee ∧
      fee - parent.BaseFee ≤ Max.max 1 (parent.BaseFee / 8) := by
  have ht : 0 < parent.GasLimit / 2 := by omega
  have hc := Calculate_above parent hu hfork habove (by omega)
  refine ⟨_, hc, ?_⟩
  have hq : (parent.BaseFee * (parent.GasUsed - parent.GasLimit / 2)) % 2 ^ 64
      / (parent.GasLimit / 2) ≤ parent.BaseFee := by
    apply Nat.div_le_of_le_mul
    calc (parent.BaseFee * (parent.GasUsed - parent.GasLimit / 2)) % 2 ^ 64
        ≤ parent.BaseFee * (parent.GasUsed - parent.GasLimit / 2) := Nat.mod_le _ _
      _ ≤ parent.BaseFee * (parent.GasLimit / 2) := Nat.mul_le_mul_left _ (by omega)
      _ = parent.GasLimit / 2 * parent.BaseFee := Nat.mul_comm _ _
  have hq8 : (parent.BaseFee * (parent.GasUsed - parent.GasLimit / 2)) % 2 ^ 64
      / (parent.GasLimit / 2) / 8 ≤ parent.BaseFee / 8 := Nat.div_le_div_right hq
  have hmod := Nat.mod_le (parent.BaseFee + Max.max
      ((parent.BaseFee * (parent.GasUsed - parent.GasLimit / 2)) % 2 ^ 64
        / (parent.GasLimit / 2) / 8) 1) (2 ^ 64)
  have hmax : Max.max ((parent.BaseFee * (parent.GasUsed - parent.GasLimit / 2)) % 2 ^ 64
        / (parent.GasLimit / 2) / 8) 1 ≤ Max.max 1 (parent.BaseFee / 8) := by
    rw [max_comm]
    exact max_le_max (le_refl 1) hq8
  omega

theorem C15_increase_bounded_witness :
    ∃ fee, basefee.Calculate (testParent 12965000 30000000 30000000 1000000000) = some fee ∧
      fee - (testParent 12965000 30000000 30000000 1000000000).BaseFee
        ≤ Max.max 1 ((testParent 12965000 30000000 30000000 1000000000).BaseFee / 8) :=
  C15_increase_bounded (testParent 12965000 30000000 30000000 1000000000)
    (by decide) (by decide) (by decide) (by decide)

/-- C16: for every parent block whose number plus 1 is the fork block number
12965000, Calculate returns the initial base fee 1000000000, whatever the gas
limit (0 included), the gas used and the base fee. -/
theorem C16_fork_block (parent : Block)
    (hfork : parent.Number + 1 = constants.ForkBlockNumber) :
    basefee.Calculate parent = some constants.InitialBaseFee ∧
    constants.ForkBlockNumber = 12965000 ∧ constants.InitialBaseFee = 1000000000 := by
  have hf : add64 parent.Number 1 = constants.ForkBlockNumber := by
    unfold add64
    rw [hfork]
    decide
  unfold basefee.Calculate
  rw [if_pos hf]
  exact ⟨rfl, rfl, rfl⟩

theorem C16_fork_block_witness :
    basefee.Calculate (testParent 12964999 0 7 3) = some constants.InitialBaseFee ∧
    constants.ForkBlockNumber = 12965000 ∧ constants.InitialBaseFee = 1000000000 :=
  C16_fork_block (testParent 12964999 0 7 3) (by decide)

/-! ## Effective fees -/

/-- C18: for every uint64 transaction and base fee with fee cap at least the
base fee, the effective priority fee is the minimum of the tip cap and the
fee cap minus the base fee, the effective gas price is the base fee plus the
effective priority fee, and the effective gas price is at most the fee cap. -/
theorem C18_effective_fees (tx : Transaction) (baseFee : Nat) (htx : tx.IsU64)
    (hcap : tx.MaxFeePerGas ≥ baseFee) :
    tx.EffectivePriorityFee baseFee
      = min tx.MaxPriorityFeePerGas (tx.MaxFeePerGas - baseFee) ∧
    tx.EffectiveGasPrice baseFee = baseFee + tx.EffectivePriorityFee baseFee ∧
    tx.EffectiveGasPrice baseFee ≤ tx.MaxFeePerGas := by
  obtain ⟨h1, h2, h3⟩ := effective_fee_facts tx baseFee hcap htx.2.2.2.1
  exact ⟨h3, by rw [h1, Nat.add_comm], h2⟩

theorem C18_effective_fees_witness :
    (testTx 2000000000 5000000000 21000 1000).EffectivePriorityFee 4000000000
      = min (testTx 2000000000 5000000000 21000 1000).MaxPriorityFeePerGas
          ((testTx 2000000000 5000000000 21000 1000).MaxFeePerGas - 4000000000) ∧
    (testTx 2000000000 5000000000 21000 1000).EffectiveGasPrice 4000000000
      = 4000000000 + (testTx 2000000000 5000000000 21000 1000).EffectivePriorityFee 4000000000 ∧
    (testTx 2000000000 5000000000 21000 1000).EffectiveGasPrice 4000000000
      ≤ (testTx 2000000000 5000000000 21000 1000).MaxFeePerGas :=
  C18_effective_fees (testTx 2000000000 5000000000 21000 1000) 4000000000
    (by decide) (by decide)

/-! ## ValidateTransaction and the account map -/

/-- C17 as stated fails: validating a transaction from "A" against the empty
state leaves a state that holds an account for "A". -/
theorem C17_validate_frame_counterexample :
    NewState.Accounts = [] ∧
    NewState.Objects = [] ∧
    (validator.ValidateTransaction (testTx 0 1 21000 0) 1 NewState).2.Accounts = [("A", 0)] ∧
    (validator.ValidateTransaction (testTx 0 1 21000 0) 1 NewState).2.Objects
      = [{ Address := "A", Nonce := 0, Balance := 0 }] ∧
    (validator.ValidateTransaction (testTx 0 1 21000 0) 1 NewState).2 ≠ NewState := by
  decide

/-- C17 (amended): ValidateTransaction changes no balance and no nonce that any
address reads and changes no stored account; its only effect on the state is
that, when the checks of Transaction.Validate pass and the sender's address has
no account, an account with nonce 0 and balance 0 is stored under the sender's
address.  In every other case the state is exactly the same after the call. -/
theorem C17_validate_frame (tx : Transaction) (baseFee : Nat) (s : State) :
    (validator.ValidateTransaction tx baseFee s).2
      = (if tx.Validate baseFee = none ∧ lookupAccount tx.From s.Accounts = none then
          { Accounts := s.Accounts ++ [(tx.From, s.Objects.length)],
            Objects := s.Objects ++ [NewAccount tx.From 0] }
        else s) ∧
    ∀ a, balanceOf (validator.ValidateTransaction tx baseFee s).2 a = balanceOf s a ∧
      nonceOf (validator.ValidateTransaction tx baseFee s).2 a = nonceOf s a := by
  constructor
  · unfold validator.ValidateTransaction
    cases hv : tx.Validate baseFee with
    | some e => simp
    | none =>
      have hst : (s.GetAccount tx.From).2
          = (if lookupAccount tx.From s.Accounts = none then
              { Accounts := s.Accounts ++ [(tx.From, s.Objects.length)],
                Objects := s.Objects ++ [NewAccount tx.From 0] }
            else s) := by
        unfold State.GetAccount State.alloc
        cases lookupAccount tx.From s.Accounts <;> simp
      simp only [true_and]
      split
      · exact hst
      · split <;> exact hst
  · intro a
    rw [balanceOf_eq, balanceOf_eq, nonceOf_eq, nonceOf_eq]
    rcases ValidateTransaction_snd tx baseFee s with h | h
    · rw [h]; exact ⟨rfl, rfl⟩
    · rw [h, deref_GetAccount_Balance, deref_GetAccount_Nonce]; exact ⟨rfl, rfl⟩

/-! ## Block execution -/

theorem executeBlockLoop_acc (block : Block) (txs : List Transaction) :
    ∀ (acc : List executor.ExecutionResult) (s : State),
      executor.executeBlockLoop block txs acc s
        = ((acc ++ (executor.executeBlockLoop block txs [] s).1.1,
            (executor.executeBlockLoop block txs [] s).1.2),
           (executor.executeBlockLoop block txs [] s).2) := by
  induction txs with
  | nil => intro acc s; simp [executor.executeBlockLoop]
  | cons tx rest ih =>
    intro acc s
    unfold executor.executeBlockLoop
    by_cases hs : (executor.ExecuteTransaction tx block s).1.Success = true
    · simp only [hs, Bool.not_true, Bool.false_eq_true, if_false, List.nil_append]
      rw [ih (acc ++ [(executor.ExecuteTransaction tx block s).1]),
        ih [(executor.ExecuteTransaction tx block s).1]]
      simp
    · simp [hs]

theorem executeBlockLoop_cons_success (block : Block) (tx : Transaction)
    (rest : List Transaction) (s : State)
    (hs : (executor.ExecuteTransaction tx block s).1.Success = true) :
    executor.executeBlockLoop block (tx :: rest) [] s
      = (((executor.ExecuteTransaction tx block s).1
            :: (executor.executeBlockLoop block rest []
                (executor.ExecuteTransaction tx block s).2).1.1,
          (executor.executeBlockLoop block rest []
            (executor.ExecuteTransaction tx block s).2).1.2),
         (executor.executeBlockLoop block rest []
            (executor.ExecuteTransaction tx block s).2).2) := by
  conv_lhs => unfold executor.executeBlockLoop
  simp only [hs, Bool.not_true, Bool.false_eq_true, if_false, List.nil_append]
  rw [executeBlockLoop_acc]
  simp

theorem executeBlockLoop_cons_failure (block : Block) (tx : Transaction)
    (rest : List Transaction) (s : State)
    (hs : (executor.ExecuteTransaction tx block s).1.Success = false) :
    executor.executeBlockLoop block (tx :: rest) [] s
      = (([(executor.ExecuteTransaction tx block s).1],
          some (executor.BlockExecutionError.transactionExecutionFailed
            (executor.ExecuteTransaction tx block s).1.Error)),
         (executor.ExecuteTransaction tx block s).2) := by
  conv_lhs => unfold executor.executeBlockLoop
  simp [hs]

theorem executeBlockLoop_spec (block : Block) (txs : List Transaction) :
    ∀ s : State,
      (executor.executeBlockLoop block txs [] s).1.1.length ≤ txs.length ∧
      (executor.executeBlockLoop block txs [] s).1.1
        = (executeInOrder block
            (txs.take (executor.executeBlockLoop block txs [] s).1.1.length) s).1 ∧
      (executor.executeBlockLoop block txs [] s).2
        = (executeInOrder block
            (txs.take (executor.executeBlockLoop block txs [] s).1.1.length) s).2 ∧
      (∀ r ∈ (executor.executeBlockLoop block txs [] s).1.1.dropLast, r.Success = true) ∧
      ((executor.executeBlockLoop block txs [] s).1.2 ≠ none ↔
        ∃ r, (executor.executeBlockLoop block txs [] s).1.1.getLast? = some r ∧
          r.Success = false) ∧
      ((executor.executeBlockLoop block txs [] s).1.2 = none →
        (executor.executeBlockLoop block txs [] s).1.1.length = txs.length) := by
  induction txs with
  | nil =>
    intro s
    simp [executor.executeBlockLoop, executeInOrder]
  | cons tx rest ih =>
    intro s
    by_cases hs : (executor.ExecuteTransaction tx block s).1.Success = true
    · rw [executeBlockLoop_cons_success block tx rest s hs]
      obtain ⟨h1, h2, h3, h4, h5, h6⟩ := ih (executor.ExecuteTransaction tx block s).2
      generalize executor.executeBlockLoop block rest []
        (executor.ExecuteTransaction tx block s).2 = out at h1 h2 h3 h4 h5 h6
      obtain ⟨⟨rs, err⟩, s2⟩ := out
      simp only at h1 h2 h3 h4 h5 h6 ⊢
      refine ⟨by simp; omega, ?_, ?_, ?_, ?_, ?_⟩
      · simp only [List.length_cons, List.take_succ_cons, executeInOrder]
        rw [← h2]
      · simp only [List.length_cons, List.take_succ_cons, executeInOrder]
        rw [← h3]
      · cases rs with
        | nil => simp
        | cons x xs =>
          intro r hr
          simp only [List.dropLast, List.mem_cons] at hr
          rcases hr with hr | hr
          · rw [hr]; exact hs
          · exact h4 r hr
      · cases rs with
        | nil =>
          have : err = none := by
            by_contra hne
            obtain ⟨r, hr, -⟩ := h5.mp hne
            simp at hr
          simp [this, hs]
        | cons x xs =>
          rw [List.getLast?_cons_cons]
          exact h5
      · intro he
        simp [h6 he]
    · have hf : (executor.ExecuteTransaction tx block s).1.Success = false := by
        simpa using hs
      rw [executeBlockLoop_cons_failure block tx rest s hf]
      simp [executeInOrder, hf]

/-- C19: ExecuteBlock executes the transactions of the block one at a time, in
order, each on the state the previous one left, and stops at the first
unsuccessful result.  The returned results and the final state are those of
executing, in order and without stopping, exactly the first k transactions,
where k is the number of results; every result but the last is successful;
the error is non-nil if and only if there is a last result and it is
unsuccessful; and when the error is nil every transaction has a result. -/
theorem C19_execute_block (block : Block) (s : State) :
    (executor.ExecuteBlock block s).1.1.length ≤ block.Transactions.length ∧
    (executor.ExecuteBlock block s).1.1
      = (executeInOrder block
          (block.Transactions.take (executor.ExecuteBlock block s).1.1.length) s).1 ∧
    (executor.ExecuteBlock block s).2
      = (executeInOrder block
          (block.Transactions.take (executor.ExecuteBlock block s).1.1.length) s).2 ∧
    (∀ r ∈ (executor.ExecuteBlock block s).1.1.dropLast, r.Success = true) ∧
    ((executor.ExecuteBlock block s).1.2 ≠ none ↔
      ∃ r, (executor.ExecuteBlock block s).1.1.getLast? = some r ∧ r.Success = false) ∧
    ((executor.ExecuteBlock block s).1.2 = none →
      (executor.ExecuteBlock block s).1.1.length = block.Transactions.length) := by
  unfold executor.ExecuteBlock
  exact executeBlockLoop_spec block block.Transactions s

/-! ## Forecasting -/

theorem Calculate_total (parent : Block) (hl : 2 ≤ parent.GasLimit) :
    ∃ fee, basefee.Calculate parent = some fee := by
  have ht0 : parent.GasLimit / 2 ≠ 0 := by omega
  unfold basefee.Calculate
  simp only [constants.ElasticityMultiplier, div64, ht0, if_false, Option.map_some']
  split
  · exact ⟨_, rfl⟩
  · split
    · exact ⟨_, rfl⟩
    · split <;> exact ⟨_, rfl⟩

theorem hypotheticalBlock_succ (b : Block) (g0 f0 k g f : Nat) :
    hypotheticalBlock
        { Number := add64 b.Number 1, ParentHash := "", Hash := "", GasLimit := b.GasLimit,
          GasUsed := g0, BaseFee := f0, Transactions := [], Miner := "", Timestamp := 0 }
        k g f
      = hypotheticalBlock b (k + 1) g f := by
  unfold hypotheticalBlock add64
  simp only [Block.mk.injEq, and_true, true_and]
  omega

theorem forBlocksLoop_spec (gasUsedSequence : List Nat) :
    ∀ b : Block, 2 ≤ b.GasLimit →
      ∃ out, basefee.forBlocksLoop b gasUsedSequence = some out ∧
        out.length = gasUsedSequence.length ∧
        (0 < gasUsedSequence.length → some (out.getD 0 0) = basefee.Calculate b) ∧
        ∀ i, i + 1 < gasUsedSequence.length →
          some (out.getD (i + 1) 0)
            = basefee.Calculate
                (hypotheticalBlock b (i + 1) (gasUsedSequence.getD i 0) (out.getD i 0)) := by
  induction gasUsedSequence with
  | nil =>
    intro b _
    exact ⟨[], rfl, rfl, by simp, by simp⟩
  | cons g0 rest ih =>
    intro b hl
    obtain ⟨f0, hf0⟩ := Calculate_total b hl
    obtain ⟨out, ho, hlen, h0, hstep⟩ := ih
      { Number := add64 b.Number 1, ParentHash := "", Hash := "", GasLimit := b.GasLimit,
        GasUsed := g0, BaseFee := f0, Transactions := [], Miner := "", Timestamp := 0 } hl
    refine ⟨f0 :: out, ?_, by simp [hlen], ?_, ?_⟩
    · unfold basefee.forBlocksLoop
      simp only [hf0, ho, Option.map_some']
    · intro _
      simp [hf0]
    · intro i hi
      cases i with
      | zero =>
        have hr : 0 < rest.length := by simpa using hi
        have h := h0 hr
        simp only [List.getD_cons_succ, List.getD_cons_zero, zero_add]
        rw [h]
        have e := hypotheticalBlock_succ b g0 f0 0 g0 f0
        simp only [zero_add] at e
        rw [← e]
        unfold hypotheticalBlock add64
        simp
      | succ j =>
        have hj : j + 1 < rest.length := by simpa using hi
        have h := hstep j hj
        simp only [List.getD_cons_succ]
        rw [h, hypotheticalBlock_succ]

/-- C20 as stated fails: for the initial block with gas limit 0 and gas used 1
the first Calculate call divides by zero, and CalculateForBlocks panics instead
of returning a list of length 1. -/
theorem C20_forecast_counterexample :
    basefee.CalculateForBlocks (testParent 0 0 1 1) [0] = none := by
  decide

/-- C20 (amended): for every initial block with gas limit at least 2 and every
gas-usage sequence s of length n, CalculateForBlocks returns a list out of
length n with out[0] = Calculate(initialBlock) and, for i + 1 < n, out[i+1] =
Calculate of the hypothetical block with number initialBlock.Number + i + 1 (in
uint64, modulo 2^64), the gas limit of the initial block, gas used s[i] and
base fee out[i]. -/
theorem C20_forecast (initialBlock : Block) (gasUsedSequence : List Nat)
    (hl : 2 ≤ initialBlock.GasLimit) :
    ∃ out, basefee.CalculateForBlocks initialBlock gasUsedSequence = some out ∧
      out.length = gasUsedSequence.length ∧
      (0 < gasUsedSequence.length → some (out.getD 0 0) = basefee.Calculate initialBlock) ∧
      ∀ i, i + 1 < gasUsedSequence.length →
        some (out.getD (i + 1) 0)
          = basefee.Calculate
              (hypotheticalBlock initialBlock (i + 1) (gasUsedSequence.getD i 0)
                (out.getD i 0)) := by
  unfold basefee.CalculateForBlocks
  exact forBlocksLoop_spec gasUsedSequence initialBlock hl

theorem C20_forecast_witness :
    ∃ out, basefee.CalculateForBlocks (testParent 12965000 30000000 15000000 1000000000)
        [20000000, 10000000, 30000000] = some out ∧
      out.length = [20000000, 10000000, 30000000].length ∧
      (0 < [20000000, 10000000, 30000000].length →
        some (out.getD 0 0)
          = basefee.Calculate (testParent 12965000 30000000 15000000 1000000000)) ∧
      ∀ i, i + 1 < [20000000, 10000000, 30000000].length →
        some (out.getD (i + 1) 0)
          = basefee.Calculate
              (hypotheticalBlock (testParent 12965000 30000000 15000000 1000000000) (i + 1)
                ([20000000, 10000000, 30000000].getD i 0) (out.getD i 0)) :=
  C20_forecast (testParent 12965000 30000000 15000000 1000000000)
    [20000000, 10000000, 30000000] (by decide)

/-! ## Division by zero -/

/-- C27: for a parent block with a uint64 number, Calculate fails to return a
fee (it divides by zero) exactly when the parent is not the fork predecessor,
its gas limit is below 2 and its gas used is above 0; for every other parent
block it returns a fee. -/
theorem C27_divide_by_zero (parent : Block) (hn : parent.Number < 2 ^ 64) :
    (basefee.Calculate parent = none ↔
      parent.Number + 1 ≠ constants.ForkBlockNumber ∧ parent.GasLimit < 2 ∧
        parent.GasUsed > 0) ∧
    (¬ (parent.Number + 1 ≠ constants.ForkBlockNumber ∧ parent.GasLimit < 2 ∧
        parent.GasUsed > 0) → ∃ fee, basefee.Calculate parent = some fee) := by
  have key : basefee.Calculate parent = none ↔
      parent.Number + 1 ≠ constants.ForkBlockNumber ∧ parent.GasLimit < 2 ∧
        parent.GasUsed > 0 := by
    by_cases hf : add64 parent.Number 1 = constants.ForkBlockNumber
    · have hf2 := (fork_test_iff hn).mp hf
      unfold basefee.Calculate
      simp [hf, hf2]
    · have hf2 : parent.Number + 1 ≠ constants.ForkBlockNumber :=
        fun h => hf ((fork_test_iff hn).mpr h)
      by_cases hl : 2 ≤ parent.GasLimit
      · obtain ⟨fee, hfee⟩ := Calculate_total parent hl
        rw [hfee]
        simp only [reduceCtorEq, false_iff, not_and]
        intro _ h
        omega
      · have ht : parent.GasLimit / 2 = 0 := by omega
        unfold basefee.Calculate
        rw [if_neg hf]
        simp only [constants.ElasticityMultiplier, ht, div64, if_true, Option.map_none']
        by_cases hg : parent.GasUsed = 0
        · simp [hg]
        · have hg2 : parent.GasUsed > 0 := Nat.pos_of_ne_zero hg
          simp only [hg, hg2, if_true, if_false, true_iff]
          refine ⟨hf2, by omega, ?_⟩
          first | exact hg2 | trivial
  refine ⟨key, fun h => ?_⟩
  cases hc : basefee.Calculate parent with
  | none => exact absurd (key.mp hc) h
  | some fee => exact ⟨fee, rfl⟩

theorem C27_divide_by_zero_witness :
    (basefee.Calculate (testParent 0 1 1 8) = none ↔
      (testParent 0 1 1 8).Number + 1 ≠ constants.ForkBlockNumber ∧
        (testParent 0 1 1 8).GasLimit < 2 ∧ (testParent 0 1 1 8).GasUsed > 0) ∧
    (¬ ((testParent 0 1 1 8).Number + 1 ≠ constants.ForkBlockNumber ∧
        (testParent 0 1 1 8).GasLimit < 2 ∧ (testParent 0 1 1 8).GasUsed > 0) →
      ∃ fee, basefee.Calculate (testParent 0 1 1 8) = some fee) :=
  C27_divide_by_zero (testParent 0 1 1 8) (by decide)

theorem calculateExpectedBaseFee_total (parent : Block) (hl : 2 ≤ parent.GasLimit) :
    ∃ fee, validator.calculateExpectedBaseFee parent = some fee := by
  have ht0 : parent.GasLimit / 2 ≠ 0 := by omega
  unfold validator.calculateExpectedBaseFee
  simp only [constants.ElasticityMultiplier, div64, ht0, if_false, Option.map_some']
  split
  · exact ⟨_, rfl⟩
  · split
    · exact ⟨_, rfl⟩
    · split <;> exact ⟨_, rfl⟩

theorem drift_and_floor_imply (block parent : Block)
    (hinc : ¬ block.GasLimit
      > add64 parent.GasLimit (parent.GasLimit / constants.GasLimitBoundDivisor))
    (hmin : ¬ block.GasLimit < constants.MinGasLimit) :
    2 ≤ parent.GasLimit := by
  unfold add64 constants.GasLimitBoundDivisor at hinc
  unfold constants.MinGasLimit at hmin
  by_contra hlt
  have h0 : parent.GasLimit / 1024 = 0 := by omega
  rw [h0] at hinc
  have : parent.GasLimit % 2 ^ 64 ≤ parent.GasLimit := Nat.mod_le _ _
  omega

/-- C26: ValidateBlock never divides by zero.  For every block and parent it
returns (an error or nil), and whenever the gas-limit increase check and the
minimum gas-limit check have passed, so that control can reach the base-fee
recomputation, the parent's gas limit is at least 2 and the target used as
divisor is not zero. -/
theorem C26_validate_block_total (block parent : Block) :
    (∃ r, validator.ValidateBlock block parent = some r) ∧
    (¬ block.GasLimit
        > add64 parent.GasLimit (parent.GasLimit / constants.GasLimitBoundDivisor) →
      ¬ block.GasLimit < constants.MinGasLimit →
      2 ≤ parent.GasLimit ∧ parent.GasLimit / constants.ElasticityMultiplier ≠ 0) := by
  constructor
  · unfold validator.ValidateBlock
    split
    · exact ⟨_, rfl⟩
    split
    · exact ⟨_, rfl⟩
    split
    · exact ⟨_, rfl⟩
    simp only
    split
    · exact ⟨_, rfl⟩
    split
    · exact ⟨_, rfl⟩
    split
    · exact ⟨_, rfl⟩
    rename_i hmin
    rename_i _ hinc _
    obtain ⟨fee, hfee⟩ :=
      calculateExpectedBaseFee_total parent (drift_and_floor_imply block parent hinc hmin)
    rw [hfee]
    exact ⟨_, rfl⟩
  · intro hinc hmin
    have h := drift_and_floor_imply block parent hinc hmin
    refine ⟨h, ?_⟩
    unfold constants.ElasticityMultiplier
    omega

/-! ## The forecast and its last usage value -/

theorem forBlocksLoop_last (pre : List Nat) (x y : Nat) :
    ∀ b : Block, basefee.forBlocksLoop b (pre ++ [x]) = basefee.forBlocksLoop b (pre ++ [y]) := by
  induction pre with
  | nil =>
    intro b
    simp only [List.nil_append]
    unfold basefee.forBlocksLoop
    cases basefee.Calculate b <;> simp [basefee.forBlocksLoop]
  | cons g rest ih =>
    intro b
    simp only [List.cons_append]
    unfold basefee.forBlocksLoop
    cases basefee.Calculate b with
    | none => rfl
    | some f => simp only [ih]

theorem forBlocksLoop_first (b : Block) (s out : List Nat) (hs : 0 < s.length)
    (h : basefee.forBlocksLoop b s = some out) :
    some (out.getD 0 0) = basefee.Calculate b := by
  cases s with
  | nil => simp at hs
  | cons g rest =>
    unfold basefee.forBlocksLoop at h
    cases hc : basefee.Calculate b with
    | none => rw [hc] at h; simp at h
    | some f =>
      rw [hc] at h
      simp only [Option.map_eq_some'] at h
      obtain ⟨fees, -, hfees⟩ := h
      rw [← hfees]
      simp

/-- C28: the forecast ignores its last usage value.  For every initial block,
two gas-usage sequences that differ only in their last element give the same
outcome of CalculateForBlocks (the same fee list, or a panic in both cases);
and the first fee of every returned list is Calculate(initialBlock), whatever
the sequence. -/
theorem C28_forecast_ignores_last (initialBlock : Block) :
    (∀ (pre : List Nat) (x y : Nat),
      basefee.CalculateForBlocks initialBlock (pre ++ [x])
        = basefee.CalculateForBlocks initialBlock (pre ++ [y])) ∧
    (∀ (s out : List Nat), 0 < s.length →
      basefee.CalculateForBlocks initialBlock s = some out →
      some (out.getD 0 0) = basefee.Calculate initialBlock) := by
  unfold basefee.CalculateForBlocks
  exact ⟨fun pre x y => forBlocksLoop_last pre x y initialBlock,
    fun s out hs h => forBlocksLoop_first initialBlock s out hs h⟩

/-! ## The result record and the redundancy of the two funds checks -/

theorem executeTransaction_mod (tx : Transaction) :
    executor.executeTransaction tx = (21000 + 16 * tx.Data.length) % 2 ^ 64 := by
  unfold executor.executeTransaction add64 mul64
  by_cases hl : tx.Data.length > 0
  · simp only [hl, if_true]
    omega
  · have h0 : tx.Data.length = 0 := by omega
    simp [h0]

/-- C23 as stated fails: a transaction with fee cap 0 and gas limit 0 executes
successfully in a block with base fee 2^60, and the reported BaseFeeAmount is
21000 * 2^60 reduced modulo 2^64, not GasUsed * BaseFee. -/
theorem C23_result_record_counterexample :
    (executor.ExecuteTransaction (testTx 0 0 0 0)
      (testBlock 1 "g" "h" 30000000 0 1152921504606846976) NewState).1.Success = true ∧
    (executor.ExecuteTransaction (testTx 0 0 0 0)
      (testBlock 1 "g" "h" 30000000 0 1152921504606846976) NewState).1.GasUsed = 21000 ∧
    (executor.ExecuteTransaction (testTx 0 0 0 0)
      (testBlock 1 "g" "h" 30000000 0 1152921504606846976) NewState).1.BaseFeeAmount
      ≠ 21000 * 1152921504606846976 := by
  decide

/-- C23 (amended): for every ExecuteTransaction whose result has Success true,
the result record satisfies GasUsed = 21000 + 16 * len(Data), BaseFeeAmount =
GasUsed * BaseFee and TipAmount = GasUsed * EffectivePriorityFee(BaseFee), each
as uint64 arithmetic computes it (reduced modulo 2^64, hence exact whenever
the exact value is below 2^64), Success = true and Error = nil. -/
theorem C23_result_record (tx : Transaction) (block : Block) (s : State)
    (hs : (executor.ExecuteTransaction tx block s).1.Success = true) :
    (executor.ExecuteTransaction tx block s).1.GasUsed
      = (21000 + 16 * tx.Data.length) % 2 ^ 64 ∧
    (executor.ExecuteTransaction tx block s).1.BaseFeeAmount
      = ((executor.ExecuteTransaction tx block s).1.GasUsed * block.BaseFee) % 2 ^ 64 ∧
    (executor.ExecuteTransaction tx block s).1.TipAmount
      = ((executor.ExecuteTransaction tx block s).1.GasUsed
          * tx.EffectivePriorityFee block.BaseFee) % 2 ^ 64 ∧
    (executor.ExecuteTransaction tx block s).1.Success = true ∧
    (executor.ExecuteTransaction tx block s).1.Error = none := by
  by_cases h : tx.MaxCost ≤ (s.deref tx.From).Balance
  · rw [ExecuteTransaction_success tx block s h]
    exact ⟨executeTransaction_mod tx, rfl, rfl, rfl, rfl⟩
  · rw [ExecuteTransaction_fail tx block s (not_le.mp h)] at hs
    simp at hs

theorem C23_result_record_witness :
    (executor.ExecuteTransaction (testTx 2000000000 5000000000 21000 1000)
        (testBlock 1 "g" "h" 30000000 0 1000000000) (testState 0 1000000000000000)).1.GasUsed
      = (21000 + 16 * (testTx 2000000000 5000000000 21000 1000).Data.length) % 2 ^ 64 ∧
    (executor.ExecuteTransaction (testTx 2000000000 5000000000 21000 1000)
        (testBlock 1 "g" "h" 30000000 0 1000000000)
        (testState 0 1000000000000000)).1.BaseFeeAmount
      = ((executor.ExecuteTransaction (testTx 2000000000 5000000000 21000 1000)
          (testBlock 1 "g" "h" 30000000 0 1000000000) (testState 0 1000000000000000)).1.GasUsed
          * (testBlock 1 "g" "h" 30000000 0 1000000000).BaseFee) % 2 ^ 64 ∧
    (executor.ExecuteTransaction (testTx 2000000000 5000000000 21000 1000)
        (testBlock 1 "g" "h" 30000000 0 1000000000)
        (testState 0 1000000000000000)).1.TipAmount
      = ((executor.ExecuteTransaction (testTx 2000000000 5000000000 21000 1000)
          (testBlock 1 "g" "h" 30000000 0 1000000000) (testState 0 1000000000000000)).1.GasUsed
          * (testTx 2000000000 5000000000 21000 1000).EffectivePriorityFee
              (testBlock 1 "g" "h" 30000000 0 1000000000).BaseFee) % 2 ^ 64 ∧
    (executor.ExecuteTransaction (testTx 2000000000 5000000000 21000 1000)
        (testBlock 1 "g" "h" 30000000 0 1000000000)
        (testState 0 1000000000000000)).1.Success = true ∧
    (executor.ExecuteTransaction (testTx 2000000000 5000000000 21000 1000)
        (testBlock 1 "g" "h" 30000000 0 1000000000)
        (testState 0 1000000000000000)).1.Error = none :=
  C23_result_record (testTx 2000000000 5000000000 21000 1000)
    (testBlock 1 "g" "h" 30000000 0 1000000000) (testState 0 1000000000000000) (by decide)

theorem AddTransaction_error (b : Block) (tx : Transaction)
    (h : (b.AddTransaction tx).1 ≠ none) : (b.AddTransaction tx).2 = b := by
  unfold Block.AddTransaction at h ⊢
  by_cases hc : add64 b.GasUsed tx.GasLimit > b.GasLimit
  · simp only [hc, if_true]
  · simp only [hc, if_false, ne_eq, not_true_eq_false] at h

theorem AddTransaction_inv (b : Block) (tx : Transaction)
    (h1 : b.GasUsed = sumGasLimit b.Transactions % 2 ^ 64) (h2 : b.GasUsed ≤ b.GasLimit) :
    (b.AddTransaction tx).2.GasUsed
      = sumGasLimit (b.AddTransaction tx).2.Transactions % 2 ^ 64 ∧
    (b.AddTransaction tx).2.GasUsed ≤ (b.AddTransaction tx).2.GasLimit := by
  unfold Block.AddTransaction
  by_cases hc : add64 b.GasUsed tx.GasLimit > b.GasLimit
  · simp only [hc, if_true]
    exact ⟨h1, h2⟩
  · simp only [hc, if_false]
    refine ⟨?_, by omega⟩
    have hsum : sumGasLimit (b.Transactions ++ [tx]) = sumGasLimit b.Transactions + tx.GasLimit := by
      simp [sumGasLimit]
    rw [hsum, h1]
    unfold add64
    omega

theorem addTransactions_inv (txs : List Transaction) :
    ∀ b : Block, b.GasUsed = sumGasLimit b.Transactions % 2 ^ 64 → b.GasUsed ≤ b.GasLimit →
      (addTransactions b txs).GasUsed = sumGasLimit (addTransactions b txs).Transactions % 2 ^ 64 ∧
      (addTransactions b txs).GasUsed ≤ (addTransactions b txs).GasLimit := by
  induction txs with
  | nil => intro b h1 h2; exact ⟨h1, h2⟩
  | cons tx rest ih =>
    intro b h1 h2
    obtain ⟨h3, h4⟩ := AddTransaction_inv b tx h1 h2
    exact ih (b.AddTransaction tx).2 h3 h4

/-- C25 as stated fails: in a new block with gas limit 100, adding a
transaction with gas limit 50 and then one with gas limit 2^64 - 50 succeeds
twice, because the uint64 sum wraps to 0; the block then holds GasUsed = 0
while the gas limits of its two transactions sum to 2^64. -/
theorem C25_block_invariant_counterexample :
    ((NewBlock 1 "p" 100 1 "M").AddTransaction (testTx 0 1 50 0)).1 = none ∧
    (((NewBlock 1 "p" 100 1 "M").AddTransaction (testTx 0 1 50 0)).2.AddTransaction
      (testTx 0 1 18446744073709551566 0)).1 = none ∧
    (addTransactions (NewBlock 1 "p" 100 1 "M")
      [testTx 0 1 50 0, testTx 0 1 18446744073709551566 0]).GasUsed = 0 ∧
    sumGasLimit (addTransactions (NewBlock 1 "p" 100 1 "M")
      [testTx 0 1 50 0, testTx 0 1 18446744073709551566 0]).Transactions
      = 18446744073709551616 ∧
    (addTransactions (NewBlock 1 "p" 100 1 "M")
      [testTx 0 1 50 0, testTx 0 1 18446744073709551566 0]).GasUsed
      ≠ sumGasLimit (addTransactions (NewBlock 1 "p" 100 1 "M")
        [testTx 0 1 50 0, testTx 0 1 18446744073709551566 0]).Transactions := by
  decide

/-- C25 (amended), the block invariant: for a block created by NewBlock and
then subjected to any sequence of AddTransaction calls, GasUsed equals the sum
of the gas limits of the transactions in the block reduced modulo 2^64 (the
exact sum whenever that is below 2^64), and GasUsed is at most GasLimit; a call
that returns an error leaves the block unchanged. -/
theorem C25_block_invariant (number : Nat) (parentHash : String) (gasLimit baseFee : Nat)
    (miner : String) (txs : List Transaction) :
    (addTransactions (NewBlock number parentHash gasLimit baseFee miner) txs).GasUsed
      = sumGasLimit
          (addTransactions (NewBlock number parentHash gasLimit baseFee miner) txs).Transactions
        % 2 ^ 64 ∧
    (addTransactions (NewBlock number parentHash gasLimit baseFee miner) txs).GasUsed
      ≤ (addTransactions (NewBlock number parentHash gasLimit baseFee miner) txs).GasLimit ∧
    ∀ tx, ((addTransactions (NewBlock number parentHash gasLimit baseFee miner)
        txs).AddTransaction tx).1 ≠ none →
      ((addTransactions (NewBlock number parentHash gasLimit baseFee miner)
        txs).AddTransaction tx).2
        = addTransactions (NewBlock number parentHash gasLimit baseFee miner) txs := by
  obtain ⟨h1, h2⟩ := addTransactions_inv txs (NewBlock number parentHash gasLimit baseFee miner)
    (by simp [NewBlock, sumGasLimit]) (by simp [NewBlock])
  exact ⟨h1, h2, fun tx h => AddTransaction_error _ tx h⟩

/-! ## What the sender is charged -/

theorem sender_chain (B : State) (pF pM pT cost refund value tip : Nat) (c : Prop)
    [Decidable c] (hF : pF < B.Objects.length)
    (hpay : cost ≤ (B.load pF).Balance) (hb : (B.load pF).Balance < 2 ^ 64)
    (hsum : refund + value + tip ≤ cost) :
    ((((((B.update pF (fun a => { a with Balance := sub64 a.Balance cost })).update pF
        (fun a => a.Add refund)).update pT (fun a => if c then a.Add value else a)).update pM
        (fun a => a.Add tip)).update pF (fun a => a.IncrementNonce)).load pF).Balance
      ≤ (B.load pF).Balance ∧
    (B.load pF).Balance + refund
      ≤ ((((((B.update pF (fun a => { a with Balance := sub64 a.Balance cost })).update pF
        (fun a => a.Add refund)).update pT (fun a => if c then a.Add value else a)).update pM
        (fun a => a.Add tip)).update pF (fun a => a.IncrementNonce)).load pF).Balance + cost ∧
    ((c → pT ≠ pF) → pM ≠ pF →
      ((((((B.update pF (fun a => { a with Balance := sub64 a.Balance cost })).update pF
        (fun a => a.Add refund)).update pT (fun a => if c then a.Add value else a)).update pM
        (fun a => a.Add tip)).update pF (fun a => a.IncrementNonce)).load pF).Balance + cost
        = (B.load pF).Balance + refund) := by
  have e1 : sub64 (B.load pF).Balance cost = (B.load pF).Balance - cost := sub64_of_le hpay hb
  have e2 : add64 ((B.load pF).Balance - cost) refund = (B.load pF).Balance - cost + refund :=
    add64_of_lt (by omega)
  have e3 : add64 ((B.load pF).Balance - cost + refund) value
      = (B.load pF).Balance - cost + refund + value := add64_of_lt (by omega)
  have e4 : add64 ((B.load pF).Balance - cost + refund + value) tip
      = (B.load pF).Balance - cost + refund + value + tip := add64_of_lt (by omega)
  have e5 : add64 ((B.load pF).Balance - cost + refund) tip
      = (B.load pF).Balance - cost + refund + tip := add64_of_lt (by omega)
  simp only [load_update, update_length, hF, and_true, if_true, IncrementNonce_Balance]
  by_cases hc : c
  · by_cases c1 : pT = pF
    · by_cases c2 : pM = pF
      · simp only [c1, c2, hc, if_true, Add_Balance, e1, e2, e3, e4]
        exact ⟨by omega, by omega, fun _ hd => absurd rfl hd⟩
      · simp only [c1, c2, hc, if_true, if_false, Add_Balance, e1, e2, e3]
        exact ⟨by omega, by omega, fun hd _ => absurd rfl (hd trivial)⟩
    · by_cases c2 : pM = pF
      · simp only [c1, c2, hc, if_true, if_false, Add_Balance, e1, e2, e5]
        exact ⟨by omega, by omega, fun _ hd => absurd rfl hd⟩
      · simp only [c1, c2, hc, if_false, Add_Balance, e1, e2]
        exact ⟨by omega, by omega, fun _ _ => by omega⟩
  · by_cases c2 : pM = pF
    · simp only [c2, hc, if_true, if_false, Add_Balance, e1, e2, e5, ite_self]
      exact ⟨by omega, by omega, fun _ hd => absurd rfl hd⟩
    · simp only [c2, hc, if_false, Add_Balance, e1, e2, ite_self]
      exact ⟨by omega, by omega, fun _ _ => by omega⟩

/-- C22 as stated fails, in three ways.  Each transaction below is accepted by
ValidateTransaction and its sender "A" differs from the recipient "B" and the
miner "M": (a) the gas limit 1 is below the gas consumed, the refund wraps and
the sender's balance rises from 1 to 2^64 - 20999; (b) the upfront cost
2^32 * 2^32 wraps to 0 and the sender's balance rises from 0; (c) the miner's
balance 2^64 - 1 wraps around to 20999 when the tip 21000 is added. -/
theorem C22_sender_charge_counterexample :
    ((validator.ValidateTransaction (testTx 0 1 1 0) 1 (testState 0 1)).1 = none ∧
      balanceOf (testState 0 1) "A" = 1 ∧
      balanceOf (executor.ExecuteTransaction (testTx 0 1 1 0)
        (testBlock 1 "g" "h" 30000000 0 1)
        (validator.ValidateTransaction (testTx 0 1 1 0) 1 (testState 0 1)).2).2 "A"
        = 18446744073709530617) ∧
    ((validator.ValidateTransaction (testTx 0 4294967296 4294967296 0) 1 NewState).1 = none ∧
      balanceOf NewState "A" = 0 ∧
      ¬ balanceOf (executor.ExecuteTransaction (testTx 0 4294967296 4294967296 0)
        (testBlock 1 "g" "h" 30000000 0 1)
        (validator.ValidateTransaction (testTx 0 4294967296 4294967296 0) 1 NewState).2).2 "A"
        ≤ balanceOf NewState "A") ∧
    ((validator.ValidateTransaction (testTx 1 2 21000 0) 1
        (testState2 42000 18446744073709551615)).1 = none ∧
      balanceOf (testState2 42000 18446744073709551615) "M" = 18446744073709551615 ∧
      balanceOf (executor.ExecuteTransaction (testTx 1 2 21000 0)
        (testBlock 1 "g" "h" 30000000 0 1)
        (validator.ValidateTransaction (testTx 1 2 21000 0) 1
          (testState2 42000 18446744073709551615)).2).2 "M" = 20999) := by
  decide

/-- C22 (amended): for every uint64 state whose stored account pointers all
designate an account and every uint64 transaction accepted by
ValidateTransaction at the block's base fee, with the sender distinct from the
recipient and the miner, the gas limit at least the gas consumed
21000 + 16 * len(Data) and the upfront cost GasLimit * MaxFeePerGas + Value
below 2^64, ExecuteTransaction charges the sender at most the upfront
reservation: the sender's balance after is no greater than before and the
difference is at most GasLimit * MaxFeePerGas + Value, so the sender's balance
does not wrap around; and when the sender's account object is stored neither
under the non-empty recipient's address nor under the miner's address, the
sender's balance after is exactly the balance before minus
GasUsed * EffectiveGasPrice + Value. -/
theorem C22_sender_charge (tx : Transaction) (block : Block) (s : State)
    (htx : tx.IsU64) (hs : s.IsU64) (hwf : s.Valid)
    (hd1 : tx.From ≠ tx.To) (hd2 : tx.From ≠ block.Miner)
    (hv : (validator.ValidateTransaction tx block.BaseFee s).1 = none)
    (hgas : 21000 + 16 * tx.Data.length ≤ tx.GasLimit)
    (hcost : tx.GasLimit * tx.MaxFeePerGas + tx.Value < 2 ^ 64) :
    balanceOf (executor.ExecuteTransaction tx block
        (validator.ValidateTransaction tx block.BaseFee s).2).2 tx.From
      ≤ balanceOf s tx.From ∧
    balanceOf s tx.From
        - balanceOf (executor.ExecuteTransaction tx block
            (validator.ValidateTransaction tx block.BaseFee s).2).2 tx.From
      ≤ tx.GasLimit * tx.MaxFeePerGas + tx.Value ∧
    ((tx.To ≠ "" → s.Distinct tx.From tx.To) → s.Distinct tx.From block.Miner →
      balanceOf (executor.ExecuteTransaction tx block
          (validator.ValidateTransaction tx block.BaseFee s).2).2 tx.From
        + ((executor.ExecuteTransaction tx block
            (validator.ValidateTransaction tx block.BaseFee s).2).1.GasUsed
            * tx.EffectiveGasPrice block.BaseFee + tx.Value)
        = balanceOf s tx.From) := by
  obtain ⟨hval, hpay, -⟩ := (ValidateTransaction_eq_none_iff tx block.BaseFee s).mp hv
  obtain ⟨hbf, -, -⟩ := (Validate_eq_none_iff tx block.BaseFee).mp hval
  have hgl : tx.GasLimit < 2 ^ 64 := htx.2.2.2.2.1
  have hmf : tx.MaxFeePerGas < 2 ^ 64 := htx.2.2.2.1
  have hguv := executeTransaction_eq tx (by omega)
  have hgu : executor.executeTransaction tx ≤ tx.GasLimit := by rw [hguv]; exact hgas
  obtain ⟨heff, -, -⟩ := effective_fee_facts tx block.BaseFee hbf hmf
  have href := refund_facts tx block.BaseFee hbf hmf hgl (by omega) hgu
  have hmc : tx.MaxCost = tx.GasLimit * tx.MaxFeePerGas + tx.Value := by
    rw [MaxCost_eq]; exact Nat.mod_eq_of_lt hcost
  have hb := (deref_isU64 hs tx.From).2
  have hB := prepared_Valid tx block hwf
  have lF := prepared_lookup_From tx block s
  have lM := prepared_lookup_Miner tx block s
  have hF := lookup_lt hB lF
  have bF := (prepared_load_From tx block s).1
  have hsplit : executor.executeTransaction tx * tx.EffectiveGasPrice block.BaseFee
      = executor.executeTransaction tx * tx.EffectivePriorityFee block.BaseFee
        + executor.executeTransaction tx * block.BaseFee := by
    rw [heff, Nat.mul_add]
  have htip : mul64 (executor.executeTransaction tx) (tx.EffectivePriorityFee block.BaseFee)
      = executor.executeTransaction tx * tx.EffectivePriorityFee block.BaseFee :=
    mul64_of_lt (by omega)
  obtain ⟨k1, k2, k3⟩ := sender_chain (preparedState tx block s) (senderPtr tx s)
    (minerPtr tx block s) (recipientPtr tx block s) tx.MaxCost (refundAmount tx block.BaseFee)
    tx.Value (executor.executeTransaction tx * tx.EffectivePriorityFee block.BaseFee)
    (tx.To ≠ "") hF (by rw [bF]; exact hpay) (by rw [bF]; exact hb) (by omega)
  rw [ExecuteTransaction_after_validate, ExecuteTransaction_success tx block s hpay]
  simp only [balanceOf_eq]
  rw [deref_of_some ((successState_lookup tx block hwf _).trans lF),
    successState_eq tx block hwf, htip]
  rw [bF] at k1 k2 k3
  refine ⟨k1, by omega, fun hT hM => ?_⟩
  have k := k3
    (fun hto => (Distinct_ne (prepared_Distinct tx block hwf hd1 (hT hto)) lF
      (prepared_lookup_To tx block s hto)).symm)
    (Distinct_ne (prepared_Distinct tx block hwf hd2 hM) lF lM).symm
  omega

theorem C22_sender_charge_witness :
    balanceOf (executor.ExecuteTransaction (testTx 1 2 21000 7)
        (testBlock 1 "g" "h" 30000000 0 1)
        (validator.ValidateTransaction (testTx 1 2 21000 7)
          (testBlock 1 "g" "h" 30000000 0 1).BaseFee (testStateShared 50000)).2).2
        (testTx 1 2 21000 7).From
      ≤ balanceOf (testStateShared 50000) (testTx 1 2 21000 7).From ∧
    balanceOf (testStateShared 50000) (testTx 1 2 21000 7).From
        - balanceOf (executor.ExecuteTransaction (testTx 1 2 21000 7)
            (testBlock 1 "g" "h" 30000000 0 1)
            (validator.ValidateTransaction (testTx 1 2 21000 7)
              (testBlock 1 "g" "h" 30000000 0 1).BaseFee (testStateShared 50000)).2).2
            (testTx 1 2 21000 7).From
      ≤ (testTx 1 2 21000 7).GasLimit * (testTx 1 2 21000 7).MaxFeePerGas
        + (testTx 1 2 21000 7).Value ∧
    (((testTx 1 2 21000 7).To ≠ "" →
        (testStateShared 50000).Distinct (testTx 1 2 21000 7).From (testTx 1 2 21000 7).To) →
      (testStateShared 50000).Distinct (testTx 1 2 21000 7).From
        (testBlock 1 "g" "h" 30000000 0 1).Miner →
      balanceOf (executor.ExecuteTransaction (testTx 1 2 21000 7)
          (testBlock 1 "g" "h" 30000000 0 1)
          (validator.ValidateTransaction (testTx 1 2 21000 7)
            (testBlock 1 "g" "h" 30000000 0 1).BaseFee (testStateShared 50000)).2).2
          (testTx 1 2 21000 7).From
        + ((executor.ExecuteTransaction (testTx 1 2 21000 7)
            (testBlock 1 "g" "h" 30000000 0 1)
            (validator.ValidateTransaction (testTx 1 2 21000 7)
              (testBlock 1 "g" "h" 30000000 0 1).BaseFee (testStateShared 50000)).2).1.GasUsed
            * (testTx 1 2 21000 7).EffectiveGasPrice (testBlock 1 "g" "h" 30000000 0 1).BaseFee
            + (testTx 1 2 21000 7).Value)
        = balanceOf (testStateShared 50000) (testTx 1 2 21000 7).From) :=
  C22_sender_charge (testTx 1 2 21000 7) (testBlock 1 "g" "h" 30000000 0 1)
    (testStateShared 50000)
    (by decide) (by decide) (by decide) (by decide) (by decide) (by decide) (by decide)
    (by decide)

/-! ## Strictly increasing forecasts -/

theorem Calculate_lt (parent : Block) (hb : parent.BaseFee < 2 ^ 64) (fee : Nat)
    (h : basefee.Calculate parent = some fee) : fee < 2 ^ 64 := by
  unfold basefee.Calculate at h
  have hpos : 0 < 2 ^ 64 := by norm_num
  by_cases hf : add64 parent.Number 1 = constants.ForkBlockNumber
  · rw [if_pos hf] at h
    have := Option.some.inj h
    rw [← this]
    decide
  · rw [if_neg hf] at h
    simp only at h
    by_cases h1 : parent.GasUsed = parent.GasLimit / constants.ElasticityMultiplier
    · rw [if_pos h1] at h
      have := Option.some.inj h
      omega
    · rw [if_neg h1] at h
      by_cases h0 : parent.GasLimit / constants.ElasticityMultiplier = 0
      · simp [div64, h0] at h
      · simp only [div64, h0, if_false, Option.map_some'] at h
        by_cases h2 : parent.GasUsed > parent.GasLimit / constants.ElasticityMultiplier
        · rw [if_pos h2] at h
          have := Option.some.inj h
          rw [← this]
          exact Nat.mod_lt _ hpos
        · rw [if_neg h2] at h
          have := Option.some.inj h
          rw [← this]
          split
          · exact hpos
          · exact Nat.mod_lt _ hpos

theorem Calculate_gt (parent : Block) (hu : parent.IsU64)
    (hfork : parent.Number + 1 ≠ constants.ForkBlockNumber)
    (hlimit : 2 ≤ parent.GasLimit)
    (habove : parent.GasUsed > parent.GasLimit / 2)
    (hres : specNextBaseFee parent < 2 ^ 64) :
    ∃ fee, basefee.Calculate parent = some fee ∧ fee > parent.BaseFee := by
  have hc := Calculate_above parent hu hfork habove (by omega)
  refine ⟨_, hc, ?_⟩
  rw [spec_above parent habove] at hres
  have hlt : parent.BaseFee + Max.max (parent.BaseFee
      * (parent.GasUsed - parent.GasLimit / 2) / (parent.GasLimit / 2) / 8) 1 < 2 ^ 64 := by
    exact_mod_cast hres
  have hq : (parent.BaseFee * (parent.GasUsed - parent.GasLimit / 2)) % 2 ^ 64
        / (parent.GasLimit / 2) / 8
      ≤ parent.BaseFee * (parent.GasUsed - parent.GasLimit / 2) / (parent.GasLimit / 2) / 8 :=
    Nat.div_le_div_right (Nat.div_le_div_right (Nat.mod_le _ _))
  rw [Nat.mod_eq_of_lt (by omega)]
  omega

/-- C21 as stated fails, in three ways.  In each case every usage value is
strictly above the target: (a) the first hypothetical block is the fork
predecessor, so the second fee is the initial base fee 1000000000, below the
first fee 5000000000; (b) with gas limit 1 the target is 0, the second
Calculate call divides by zero and no list is returned; (c) from base fee
2^64 - 1 the second fee wraps around to 2305843009213693950. -/
theorem C21_increasing_forecast_counterexample :
    ((∀ g ∈ [20000000, 20000000],
        g > (testParent 12964998 30000000 15000000 5000000000).GasLimit / 2) ∧
      basefee.CalculateForBlocks (testParent 12964998 30000000 15000000 5000000000)
        [20000000, 20000000] = some [5000000000, 1000000000] ∧
      ¬ 1000000000 > 5000000000) ∧
    ((∀ g ∈ [1, 1], g > (testParent 0 1 0 5).GasLimit / 2) ∧
      basefee.CalculateForBlocks (testParent 0 1 0 5) [1, 1] = none) ∧
    ((∀ g ∈ [2, 2], g > (testParent 0 2 1 18446744073709551615).GasLimit / 2) ∧
      basefee.CalculateForBlocks (testParent 0 2 1 18446744073709551615) [2, 2]
        = some [18446744073709551615, 2305843009213693950] ∧
      ¬ 2305843009213693950 > 18446744073709551615) := by
  decide

/-- C21 (amended): for every uint64 initial block with gas limit at least 2 and
every sequence of uint64 usage values all strictly above the target, such that
no hypothetical block of the forecast is the fork predecessor,
CalculateForBlocks returns a list out of the length of the sequence in which
out[i+1] > out[i] for every i + 1 below that length at which the exact next
fee out[i] + max(1, out[i] * (s[i] - target) / target / 8) is below 2^64. -/
theorem C21_increasing_forecast (initialBlock : Block) (gasUsedSequence : List Nat)
    (hu : initialBlock.IsU64) (hs : ∀ g ∈ gasUsedSequence, g < 2 ^ 64)
    (hl : 2 ≤ initialBlock.GasLimit)
    (habove : ∀ g ∈ gasUsedSequence, g > initialBlock.GasLimit / 2)
    (hfork : ∀ i, i + 1 < gasUsedSequence.length →
      (initialBlock.Number + (i + 1)) % 2 ^ 64 + 1 ≠ constants.ForkBlockNumber) :
    ∃ out, basefee.CalculateForBlocks initialBlock gasUsedSequence = some out ∧
      out.length = gasUsedSequence.length ∧
      ∀ i, i + 1 < gasUsedSequence.length →
        specNextBaseFee
            (hypotheticalBlock initialBlock (i + 1) (gasUsedSequence.getD i 0) (out.getD i 0))
          < 2 ^ 64 →
        out.getD (i + 1) 0 > out.getD i 0 := by
  obtain ⟨out, ho, hlen, h0, hstep⟩ := forBlocksLoop_spec gasUsedSequence initialBlock hl
  have hbound : ∀ i, i < gasUsedSequence.length → out.getD i 0 < 2 ^ 64 := by
    intro i
    induction i with
    | zero =>
      intro hi
      exact Calculate_lt initialBlock hu.2.2.2.1 _ (h0 hi).symm
    | succ j ih =>
      intro hi
      exact Calculate_lt _ (ih (by omega)) _ (hstep j hi).symm
  refine ⟨out, ho, hlen, fun i hi hres => ?_⟩
  have hi0 : i < gasUsedSequence.length := by omega
  have hmem : gasUsedSequence.getD i 0 ∈ gasUsedSequence := by
    rw [List.getD_eq_getElem _ _ hi0]
    exact List.getElem_mem ..
  have hP : (hypotheticalBlock initialBlock (i + 1) (gasUsedSequence.getD i 0)
      (out.getD i 0)).IsU64 :=
    ⟨Nat.mod_lt _ (by norm_num), hu.2.1, hs _ hmem, hbound i hi0, by norm_num [hypotheticalBlock]⟩
  obtain ⟨fee, hfee, hgt⟩ := Calculate_gt _ hP (hfork i hi) hl (habove _ hmem) hres
  have h := hstep i hi
  rw [hfee] at h
  rw [Option.some.inj h]
  exact hgt

theorem C21_increasing_forecast_witness :
    ∃ out, basefee.CalculateForBlocks (testParent 12965000 30000000 15000000 1000000000)
        [25000000, 28000000, 29000000] = some out ∧
      out.length = [25000000, 28000000, 29000000].length ∧
      ∀ i, i + 1 < [25000000, 28000000, 29000000].length →
        specNextBaseFee
            (hypotheticalBlock (testParent 12965000 30000000 15000000 1000000000) (i + 1)
              ([25000000, 28000000, 29000000].getD i 0) (out.getD i 0))
          < 2 ^ 64 →
        out.getD (i + 1) 0 > out.getD i 0 :=
  C21_increasing_forecast (testParent 12965000 30000000 15000000 1000000000)
    [25000000, 28000000, 29000000] (by decide) (by decide) (by decide) (by decide)
    (by
      intro i hi
      have h3 : i + 1 < 3 := by simpa using hi
      have h2 : i < 2 := by omega
      interval_cases i <;> decide)

end EIP1559

